import Mathlib

/-
Verification development for the RPROP neural network implementation in
nn.c.  Arrays of C floats are modelled as lists of rationals, evaluated
exactly; the sigmoid transfer function, the only transcendental operation
of the program, is a parameter (called sig) of every operation that
applies it.  Loops are modelled by the iteration scheme loopN, which
applies the body to the indices 0, 1, ..., n-1 in that order, exactly as
the C for loops do.
-/

attribute [local semireducible] Rat.add Rat.mul Rat.sub Rat.inv

/-- One layer of the network, mirroring struct AnnLayer as it is used
throughout nn.c (the declaring header is not part of src, but nn.c reads
and writes exactly these eight fields): the unit count and the seven
per-layer arrays. -/
structure AnnLayer where
  units : Nat
  output : List ℚ
  error : List ℚ
  weight : List ℚ
  gradient : List ℚ
  pgradient : List ℚ
  delta : List ℚ
  sgradient : List ℚ
deriving DecidableEq, Repr

/-- The network, mirroring struct Ann as used in nn.c: flags, the
hyperparameters (learning rate and the four RPROP parameters, all
accessed through lvalue macros in nn.c) and the layer array, ordered
from the output layer (index 0) to the input layer (index layers-1).
The layers count field of the C struct is the length of the layer list
here. -/
structure Ann where
  flags : Int
  learn_rate : ℚ
  rprop_nminus : ℚ
  rprop_nplus : ℚ
  rprop_maxupdate : ℚ
  rprop_minupdate : ℚ
  layer : List AnnLayer
deriving DecidableEq, Repr

/-- The all-zero layer produced by AnnResetLayer: zero units, all arrays
NULL (modelled as empty lists). -/
def emptyLayer : AnnLayer :=
  { units := 0, output := [], error := [], weight := [], gradient := []
    pgradient := [], delta := [], sgradient := [] }

/-- Read of a C float array cell. -/
def qget (l : List ℚ) (i : Nat) : ℚ := l.getD i 0

/-- The LAYERS macro: the layer count of the net. -/
def LAYERS (net : Ann) : Nat := net.layer.length

/-- Access to the layer struct at index j. -/
def getLayer (net : Ann) (j : Nat) : AnnLayer := net.layer.getD j emptyLayer

/-- Replace the layer struct at index j. -/
def setLayer (net : Ann) (j : Nat) (l : AnnLayer) : Ann :=
  { net with layer := net.layer.set j l }

/-- In-place update of the layer struct at index j. -/
def updLayer (net : Ann) (j : Nat) (f : AnnLayer → AnnLayer) : Ann :=
  setLayer net j (f (getLayer net j))

/-- The UNITS macro: unit count of layer j. -/
def UNITS (net : Ann) (j : Nat) : Nat := (getLayer net j).units

/-- Assignment net.layer[j].output[i] = v. -/
def setOutputAt (net : Ann) (j i : Nat) (v : ℚ) : Ann :=
  updLayer net j (fun l => { l with output := l.output.set i v })

/-- Assignment net.layer[j].error[i] = v. -/
def setErrorAt (net : Ann) (j i : Nat) (v : ℚ) : Ann :=
  updLayer net j (fun l => { l with error := l.error.set i v })

/-- Assignment net.layer[j].weight[i] = v. -/
def setWeightAt (net : Ann) (j i : Nat) (v : ℚ) : Ann :=
  updLayer net j (fun l => { l with weight := l.weight.set i v })

/-- Assignment net.layer[j].gradient[i] = v. -/
def setGradientAt (net : Ann) (j i : Nat) (v : ℚ) : Ann :=
  updLayer net j (fun l => { l with gradient := l.gradient.set i v })

/-- Assignment net.layer[j].pgradient[i] = v. -/
def setPgradientAt (net : Ann) (j i : Nat) (v : ℚ) : Ann :=
  updLayer net j (fun l => { l with pgradient := l.pgradient.set i v })

/-- Assignment net.layer[j].delta[i] = v. -/
def setDeltaAt (net : Ann) (j i : Nat) (v : ℚ) : Ann :=
  updLayer net j (fun l => { l with delta := l.delta.set i v })

/-- Assignment net.layer[j].sgradient[i] = v. -/
def setSgradientAt (net : Ann) (j i : Nat) (v : ℚ) : Ann :=
  updLayer net j (fun l => { l with sgradient := l.sgradient.set i v })

/-- The iteration scheme of the C for loops: loopN n f a applies
f 0, f 1, ..., f (n-1) to the accumulator, in this order. -/
def loopN {α : Type} (n : Nat) (f : Nat → α → α) (a : α) : α :=
  match n with
  | 0 => a
  | m + 1 => f m (loopN m f a)

/-- Finite sum of rationals, accumulated in C loop order. -/
def sumN (n : Nat) (f : Nat → ℚ) : ℚ := loopN n (fun i a => a + f i) 0

/-- The OUTPUT_UNITS macro: unit count of the output layer, which is the
layer of index 0 throughout nn.c. -/
def OUTPUT_UNITS (net : Ann) : Nat := UNITS net 0

/-- Modelled from the spec: the INPUT_UNITS macro lives in the header
nn.h which is not part of src.  The spec states that setInput copies the
external input values into the non-bias outputs of the input layer
(index layers-1) and must not alter the bias slot, so the number of
input units is the unit count of the input layer minus its bias unit. -/
def INPUT_UNITS (net : Ann) : Nat := UNITS net (LAYERS net - 1) - 1

/-- The OUTPUT_NODE macro: output value i of the output layer. -/
def OUTPUT_NODE (net : Ann) (i : Nat) : ℚ := qget (getLayer net 0).output i

/-- Modelled from the spec: the RPROP decrease factor default, about
0.5, from the header nn.h which is not part of src. -/
def DEFAULT_RPROP_NMINUS : ℚ := 1/2

/-- Modelled from the spec: the RPROP increase factor default, about
1.2, from the missing header. -/
def DEFAULT_RPROP_NPLUS : ℚ := 6/5

/-- Modelled from the spec: the RPROP maximum step default, about 50,
from the missing header. -/
def DEFAULT_RPROP_MAXUPDATE : ℚ := 50

/-- Modelled from the spec: the RPROP minimum step default, about 1e-6,
from the missing header. -/
def DEFAULT_RPROP_MINUPDATE : ℚ := 1/1000000

/-- Modelled from the spec: the initial per-weight delta, about 0.1,
from the missing header. -/
def RPROP_INITIAL_DELTA : ℚ := 1/10

/-- Modelled from the spec: the default learning rate constant from the
missing header; the spec does not pin its value and no claim depends on
it. -/
def DEFAULT_LEARN_RATE : ℚ := 1/10

/-- Modelled from the spec: the algorithm selector constant for RPROP
training from the missing header, an integer code distinct from the
gradient descent code. -/
def NN_ALGO_BPROP : Int := 0

/-- Modelled from the spec: the algorithm selector constant for gradient
descent training from the missing header. -/
def NN_ALGO_GD : Int := 1

/-- The sign helper of nn.c: -1 for negative, +1 for positive, 0 for
zero. -/
def sign (n : ℚ) : ℚ := if 0 < n then 1 else if n < 0 then -1 else 0

/-- The activation accumulation of AnnSimulate for destination unit j:
the dot product of weight row j of the source layer with the output
vector of the same source layer, summed in C loop order. -/
def simActivation (src : AnnLayer) (j : Nat) : ℚ :=
  loopN src.units (fun k A => A + qget src.weight (j * src.units + k) * qget src.output k) 0

/-- One iteration of the outer loop of AnnSimulate for source layer i:
writes sigmoid of the activation into output slot j of layer i-1 for
every destination j below nextunits, where nextunits drops the bias slot
of the destination layer when i is above 1. -/
def simStep (sig : ℚ → ℚ) (i : Nat) (net : Ann) : Ann :=
  let nextunits := UNITS net (i-1) - (if 1 < i then 1 else 0)
  loopN nextunits
    (fun j acc => setOutputAt acc (i-1) j (sig (simActivation (getLayer acc i) j))) net

/-- The outer loop of AnnSimulate, running the source layer index i from
the given start down to 1. -/
def simLoop (sig : ℚ → ℚ) (net : Ann) : Nat → Ann
  | 0 => net
  | i + 1 => simLoop sig (simStep sig (i + 1) net) i

/-- AnnSimulate from nn.c. -/
def AnnSimulate (sig : ℚ → ℚ) (net : Ann) : Ann := simLoop sig net (LAYERS net - 1)

/-- AnnGlobalError from nn.c: half the sum of the squared differences
between the desired vector and the output layer outputs. -/
def AnnGlobalError (net : Ann) (desired : List ℚ) : ℚ :=
  (1/2) * loopN (OUTPUT_UNITS net)
    (fun i e => e + (qget desired i - OUTPUT_NODE net i) * (qget desired i - OUTPUT_NODE net i)) 0

/-- AnnSetInput from nn.c: copies the input vector into the input node
slots (outputs of layer layers-1). -/
def AnnSetInput (net : Ann) (input : List ℚ) : Ann :=
  loopN (INPUT_UNITS net) (fun i acc => setOutputAt acc (LAYERS acc - 1) i (qget input i)) net

/-- AnnSimulateError from nn.c: set input, simulate, return the new state
with the global error. -/
def AnnSimulateError (sig : ℚ → ℚ) (net : Ann) (input desired : List ℚ) : Ann × ℚ :=
  let net1 := AnnSetInput net input
  let net2 := AnnSimulate sig net1
  (net2, AnnGlobalError net2 desired)

/-- AnnCalculateOutputError from nn.c: writes the output layer error
array as 2/units times (output - desired). -/
def AnnCalculateOutputError (net : Ann) (desired : List ℚ) : Ann :=
  let units := OUTPUT_UNITS net
  let factor : ℚ := 2 / (units : ℚ)
  loopN units
    (fun j acc => setErrorAt acc 0 j (factor * (qget (getLayer acc 0).output j - qget desired j)))
    net

/-- The body of the per-unit loop of AnnCalculateGradients for current
layer j and destination unit i: computes the error signal from the
error and output of unit i, overwrites gradient row i of layer j+1 with
signal times the source outputs, then accumulates signal times the
weights into the error array of layer j+1. -/
def gradUnitStep (j i : Nat) (net : Ann) : Ann :=
  let layer := getLayer net j
  let prevunits := UNITS net (j+1)
  let oi := qget layer.output i
  let derivative := oi * (1 - oi)
  let error_signal := qget layer.error i * derivative
  let net1 := loopN prevunits
    (fun k acc =>
      setGradientAt acc (j+1) (i * prevunits + k)
        (error_signal * qget (getLayer acc (j+1)).output k)) net
  loopN prevunits
    (fun k acc =>
      setErrorAt acc (j+1) k
        (qget (getLayer acc (j+1)).error k +
          error_signal * qget (getLayer acc (j+1)).weight (i * prevunits + k))) net1

/-- One iteration of the outer loop of AnnCalculateGradients for current
layer j: resets the error array of layer j+1 and then runs the per-unit
body for every destination unit of layer j, where the bias unit is
dropped only when j is above 1. -/
def gradLayerStep (j : Nat) (net : Ann) : Ann :=
  let units := UNITS net j - (if 1 < j then 1 else 0)
  let prevunits := UNITS net (j+1)
  let net0 := loopN prevunits (fun k acc => setErrorAt acc (j+1) k 0) net
  loopN units (fun i acc => gradUnitStep j i acc) net0

/-- AnnCalculateGradients from nn.c: output error first, then the
back-propagation pass over the current layers 0 .. layers-2. -/
def AnnCalculateGradients (net : Ann) (desired : List ℚ) : Ann :=
  loopN (LAYERS net - 1) (fun j acc => gradLayerStep j acc) (AnnCalculateOutputError net desired)

/-- AnnSetDeltas from nn.c: sets every delta cell of every layer of
positive index to val. -/
def AnnSetDeltas (net : Ann) (val : ℚ) : Ann :=
  loopN (LAYERS net - 1)
    (fun m acc =>
      loopN (UNITS acc (m+1) * UNITS acc m) (fun i acc2 => setDeltaAt acc2 (m+1) i val) acc)
    net

/-- AnnResetSgradient from nn.c: zeroes every sgradient cell (the memset
is modelled cellwise). -/
def AnnResetSgradient (net : Ann) : Ann :=
  loopN (LAYERS net - 1)
    (fun m acc =>
      loopN (UNITS acc (m+1) * UNITS acc m) (fun i acc2 => setSgradientAt acc2 (m+1) i 0) acc)
    net

/-- AnnSetRandomWeights from nn.c, with the process-wide rand() stream
modelled as the function rnd of the layer index and the two unit
indices; the WEIGHT macro addresses the flat cell k*units+j. -/
def AnnSetRandomWeights (rnd : Nat → Nat → Nat → ℚ) (net : Ann) : Ann :=
  loopN (LAYERS net - 1)
    (fun m acc =>
      loopN (UNITS acc m)
        (fun k acc2 =>
          loopN (UNITS acc2 (m+1))
            (fun j acc3 => setWeightAt acc3 (m+1) (k * UNITS acc3 (m+1) + j) (rnd (m+1) j k))
            acc2)
        acc)
    net

/-- AnnUpdateSgradient from nn.c: adds every gradient cell into the
matching sgradient cell. -/
def AnnUpdateSgradient (net : Ann) : Ann :=
  loopN (LAYERS net - 1)
    (fun m acc =>
      loopN (UNITS acc (m+1) * UNITS acc m)
        (fun i acc2 =>
          setSgradientAt acc2 (m+1) i
            (qget (getLayer acc2 (m+1)).sgradient i + qget (getLayer acc2 (m+1)).gradient i))
        acc)
    net

/-- The per-weight body of AnnAdjustWeightsResilientBP: the three-way
branch on the sign product t of the retained and the set-wise gradient,
updating weight, delta and pgradient of cell i of layer j exactly as the
C code does. -/
def rpropWeightStep (net : Ann) (j i : Nat) : Ann :=
  let lay := getLayer net j
  let t := qget lay.pgradient i * qget lay.sgradient i
  let delta := qget lay.delta i
  if 0 < t then
    let delta2 := min (delta * net.rprop_nplus) net.rprop_maxupdate
    let wdelta := -(sign (qget lay.sgradient i)) * delta2
    let net1 := setWeightAt net j i (qget lay.weight i + wdelta)
    let net2 := setDeltaAt net1 j i delta2
    setPgradientAt net2 j i (qget lay.sgradient i)
  else if t < 0 then
    let past_wdelta := -(sign (qget lay.pgradient i)) * delta
    let delta2 := max (delta * net.rprop_nminus) net.rprop_minupdate
    let net1 := setWeightAt net j i (qget lay.weight i - past_wdelta)
    let net2 := setDeltaAt net1 j i delta2
    setPgradientAt net2 j i 0
  else
    let wdelta := -(sign (qget lay.sgradient i)) * delta
    let net1 := setWeightAt net j i (qget lay.weight i + wdelta)
    setPgradientAt net1 j i (qget lay.sgradient i)

/-- The flat cell count iterated by AnnAdjustWeightsResilientBP for
layer j: the full weight array size minus one single cell when j-1 is
positive. -/
def rpropWeightsBound (net : Ann) (j : Nat) : Nat :=
  UNITS net j * UNITS net (j-1) - (if 0 < j - 1 then 1 else 0)

/-- AnnAdjustWeightsResilientBP from nn.c. -/
def AnnAdjustWeightsResilientBP (net : Ann) : Ann :=
  loopN (LAYERS net - 1)
    (fun m acc =>
      loopN (rpropWeightsBound acc (m+1)) (fun i acc2 => rpropWeightStep acc2 (m+1) i) acc)
    net

/-- The per-example loop of AnnResilientBPEpoch; the input and desired
pointers advance by the input and output unit counts after each
example. -/
def rbpLoop (sig : ℚ → ℚ) (inputs outputs : Nat) :
    Nat → Ann → List ℚ → List ℚ → ℚ → Ann × ℚ
  | 0, net, _, _, err => (net, err)
  | j + 1, net, input, desired, err =>
    let r := AnnSimulateError sig net input desired
    let net2 := AnnCalculateGradients r.1 desired
    let net3 := AnnUpdateSgradient net2
    rbpLoop sig inputs outputs j net3 (input.drop inputs) (desired.drop outputs) (err + r.2)

/-- AnnResilientBPEpoch from nn.c: reset sgradients, accumulate the
set-wise gradient over the whole set, adjust the weights once, return
the average error. -/
def AnnResilientBPEpoch (sig : ℚ → ℚ) (net : Ann) (input desired : List ℚ) (setlen : Nat) :
    Ann × ℚ :=
  let inputs := INPUT_UNITS net
  let outputs := OUTPUT_UNITS net
  let r := rbpLoop sig inputs outputs setlen (AnnResetSgradient net) input desired 0
  (AnnAdjustWeightsResilientBP r.1, r.2 / (setlen : ℚ))

/-- AnnUpdateDeltasGD from nn.c: adds every gradient cell into the
matching delta cell. -/
def AnnUpdateDeltasGD (net : Ann) : Ann :=
  loopN (LAYERS net - 1)
    (fun m acc =>
      loopN (UNITS acc (m+1) * UNITS acc m)
        (fun i acc2 =>
          setDeltaAt acc2 (m+1) i
            (qget (getLayer acc2 (m+1)).delta i + qget (getLayer acc2 (m+1)).gradient i))
        acc)
    net

/-- AnnAdjustWeights from nn.c: subtracts learn rate over setlen times
the delta from every weight cell. -/
def AnnAdjustWeights (net : Ann) (setlen : Nat) : Ann :=
  loopN (LAYERS net - 1)
    (fun m acc =>
      loopN (UNITS acc (m+1) * UNITS acc m)
        (fun i acc2 =>
          setWeightAt acc2 (m+1) i
            (qget (getLayer acc2 (m+1)).weight i -
              acc2.learn_rate / (setlen : ℚ) * qget (getLayer acc2 (m+1)).delta i))
        acc)
    net

/-- The per-example loop of AnnGDEpoch, mirroring the C loop body order:
reset deltas, simulate with error, gradients, accumulate deltas, advance
the two data pointers, adjust the weights. -/
def gdLoop (sig : ℚ → ℚ) (inputs outputs setlen : Nat) :
    Nat → Ann → List ℚ → List ℚ → ℚ → Ann × ℚ
  | 0, net, _, _, err => (net, err)
  | j + 1, net, input, desired, err =>
    let net1 := AnnSetDeltas net 0
    let r := AnnSimulateError sig net1 input desired
    let net2 := AnnCalculateGradients r.1 desired
    let net3 := AnnUpdateDeltasGD net2
    let net4 := AnnAdjustWeights net3 setlen
    gdLoop sig inputs outputs setlen j net4 (input.drop inputs) (desired.drop outputs) (err + r.2)

/-- AnnGDEpoch from nn.c. -/
def AnnGDEpoch (sig : ℚ → ℚ) (net : Ann) (input desired : List ℚ) (setlen : Nat) : Ann × ℚ :=
  let inputs := INPUT_UNITS net
  let outputs := OUTPUT_UNITS net
  let r := gdLoop sig inputs outputs setlen setlen net input desired 0
  (r.1, r.2 / (setlen : ℚ))

/-- The while loop of AnnTrain: runs while epochs remain and the error
has not dropped below maxerr, dispatching on the algorithm code and
leaving state and error untouched for an unknown code. -/
def annTrainLoop (sig : ℚ → ℚ) (input desired : List ℚ) (maxerr : ℚ) (setlen : Nat)
    (algo : Int) : Nat → Ann → ℚ → Ann × ℚ
  | 0, net, e => (net, e)
  | n + 1, net, e =>
    if e < maxerr then (net, e)
    else
      let r : Ann × ℚ :=
        if algo = NN_ALGO_BPROP then AnnResilientBPEpoch sig net input desired setlen
        else if algo = NN_ALGO_GD then AnnGDEpoch sig net input desired setlen
        else (net, e)
      annTrainLoop sig input desired maxerr setlen algo n r.1 r.2

/-- AnnTrain from nn.c: starts from error maxerr+1 and runs up to
maxepochs epochs. -/
def AnnTrain (sig : ℚ → ℚ) (net : Ann) (input desired : List ℚ) (maxerr : ℚ)
    (maxepochs setlen : Nat) (algo : Int) : Ann × ℚ :=
  annTrainLoop sig input desired maxerr setlen algo maxepochs net (maxerr + 1)

/-- The descending accumulation loop of AnnCountWeights, over the layer
indices n, n-1, ..., 1; the bias column of the destination layer i-1 is
dropped when the loop index i is above 1.  The C accumulation uses int
arithmetic, modelled over the integers. -/
def countWeightsLoop (net : Ann) : Nat → ℤ
  | 0 => 0
  | i + 1 =>
    (UNITS net (i+1) : ℤ) * ((UNITS net i : ℤ) - (if 1 < i + 1 then 1 else 0)) +
      countWeightsLoop net i

/-- AnnCountWeights from nn.c. -/
def AnnCountWeights (net : Ann) : ℤ := countWeightsLoop net (LAYERS net - 1)

/-- AnnAlloc from nn.c: fresh net with the given number of reset layers,
flags zero and the default RPROP parameters.  The C code never assigns
learn_rate here, so its value is whatever the allocation left in memory;
the junk parameter models that indeterminate content. -/
def AnnAlloc (junk : ℚ) (layers : Nat) : Ann :=
  { flags := 0
    learn_rate := junk
    rprop_nminus := DEFAULT_RPROP_NMINUS
    rprop_nplus := DEFAULT_RPROP_NPLUS
    rprop_maxupdate := DEFAULT_RPROP_MAXUPDATE
    rprop_minupdate := DEFAULT_RPROP_MINUPDATE
    layer := List.replicate layers emptyLayer }

/-- AnnInitLayer from nn.c (successful path; allocation failure is
modelled separately): allocates zeroed arrays, adds one unit when bias
is set and pins its output slot to 1. -/
def AnnInitLayer (net : Ann) (i : Nat) (units0 : Nat) (bias : Bool) : Ann :=
  let units := units0 + (if bias then 1 else 0)
  let wlen := units * UNITS net (i-1)
  let l : AnnLayer :=
    { units := units
      output := List.replicate units 0
      error := List.replicate units 0
      weight := if 0 < i then List.replicate wlen 0 else []
      gradient := if 0 < i then List.replicate wlen 0 else []
      pgradient := if 0 < i then List.replicate wlen 0 else []
      delta := if 0 < i then List.replicate wlen 0 else []
      sgradient := if 0 < i then List.replicate wlen 0 else [] }
  let l2 := if bias then { l with output := l.output.set (units - 1) 1 } else l
  setLayer net i l2

/-- AnnCreateNet from nn.c (successful path): allocate, init every layer
with a bias unit for every index above 0, randomize the weights, set the
initial deltas and the default learning rate. -/
def AnnCreateNet (junk : ℚ) (rnd : Nat → Nat → Nat → ℚ) (units : List Nat) : Ann :=
  let layers := units.length
  let net0 := AnnAlloc junk layers
  let net1 := loopN layers (fun i acc => AnnInitLayer acc i (units.getD i 0) (decide (0 < i))) net0
  let net2 := AnnSetRandomWeights rnd net1
  let net3 := AnnSetDeltas net2 RPROP_INITIAL_DELTA
  { net3 with learn_rate := DEFAULT_LEARN_RATE }

/-- The memcpy of n floats from src into dst. -/
def memcpyList (dst src : List ℚ) (n : Nat) : List ℚ := src.take n ++ dst.drop n

/-- AnnClone from nn.c (successful path): alloc, per layer init plus
memcpy of all arrays, then copy of the four RPROP parameters and flags.
The C code never copies learn_rate, so the clone keeps the indeterminate
value left by AnnAlloc. -/
def AnnClone (junk : ℚ) (net : Ann) : Ann :=
  let copy0 := AnnAlloc junk (LAYERS net)
  let copy1 := loopN (LAYERS net)
    (fun j acc =>
      let units := UNITS net j
      let bias := decide (0 < j)
      let acc2 := AnnInitLayer acc j (units - (if 0 < j then 1 else 0)) bias
      let lsrc := getLayer net j
      let ldst := getLayer acc2 j
      let ldst2 := { ldst with
        output := memcpyList ldst.output lsrc.output units
        error := memcpyList ldst.error lsrc.error units }
      let ldst3 :=
        if 0 < j then
          let weights := UNITS net j * UNITS net (j-1)
          { ldst2 with
            weight := memcpyList ldst2.weight lsrc.weight weights
            gradient := memcpyList ldst2.gradient lsrc.gradient weights
            pgradient := memcpyList ldst2.pgradient lsrc.pgradient weights
            delta := memcpyList ldst2.delta lsrc.delta weights
            sgradient := memcpyList ldst2.sgradient lsrc.sgradient weights }
        else ldst2
      setLayer acc2 j ldst3)
    copy0
  { copy1 with
    rprop_nminus := net.rprop_nminus
    rprop_nplus := net.rprop_nplus
    rprop_maxupdate := net.rprop_maxupdate
    rprop_minupdate := net.rprop_minupdate
    flags := net.flags }

/-- Stand-in transfer function used to instantiate witnesses and
counterexamples.  The C sigmoid 1/(1+exp(-x)) is transcendental, hence
not exactly representable over the rationals; like the C sigmoid this
model is strictly increasing with values strictly between 0 and 1, and
no claim depends on more than that. -/
def sigmoidModel (x : ℚ) : ℚ := 1/2 + x / (2 * (1 + |x|))

/-- Well-formed network states: exactly the array lengths that
AnnInitLayer allocates: output and error arrays of length units for
every layer, and the five weight-shaped arrays of length
units(j)*units(j-1) for every layer of positive index. -/
def WfAnn (net : Ann) : Prop :=
  ∀ j, j < LAYERS net →
    (getLayer net j).output.length = UNITS net j ∧
    (getLayer net j).error.length = UNITS net j ∧
    (0 < j →
      (getLayer net j).weight.length = UNITS net j * UNITS net (j-1) ∧
      (getLayer net j).gradient.length = UNITS net j * UNITS net (j-1) ∧
      (getLayer net j).pgradient.length = UNITS net j * UNITS net (j-1) ∧
      (getLayer net j).delta.length = UNITS net j * UNITS net (j-1) ∧
      (getLayer net j).sgradient.length = UNITS net j * UNITS net (j-1))

instance (net : Ann) : Decidable (WfAnn net) := by
  unfold WfAnn; infer_instance

/-- Concrete three layer network used to instantiate theorems: one
output unit, one hidden unit plus bias, one input unit plus bias;
sgradients of the outermost weight layer all 1, gradients prefilled with
a recognisable nonzero value. -/
def exL0 : AnnLayer :=
  { units := 1, output := [1/2], error := [0], weight := [], gradient := []
    pgradient := [], delta := [], sgradient := [] }

/-- Hidden layer of the concrete example network. -/
def exL1 : AnnLayer :=
  { units := 2, output := [1/2, 1], error := [0, 0], weight := [1, 1], gradient := [0, 0]
    pgradient := [0, 0], delta := [1, 1], sgradient := [0, 0] }

/-- Input layer of the concrete example network. -/
def exL2 : AnnLayer :=
  { units := 2, output := [1/2, 1], error := [0, 0], weight := [1, 1, 1, 1]
    gradient := [5, 5, 5, 5], pgradient := [0, 0, 0, 0], delta := [1, 1, 1, 1]
    sgradient := [1, 1, 1, 1] }

/-- The concrete three layer example network. -/
def exNet3 : Ann :=
  { flags := 0, learn_rate := 1, rprop_nminus := 1/2, rprop_nplus := 6/5
    rprop_maxupdate := 50, rprop_minupdate := 1/1000000, layer := [exL0, exL1, exL2] }

/-- Output layer of the concrete two layer example network. -/
def exM0 : AnnLayer :=
  { units := 1, output := [0], error := [0], weight := [], gradient := []
    pgradient := [], delta := [], sgradient := [] }

/-- Input layer of the concrete two layer example network. -/
def exM1 : AnnLayer :=
  { units := 2, output := [1, 1], error := [0, 0], weight := [1, 0], gradient := [0, 0]
    pgradient := [0, 0], delta := [0, 0], sgradient := [0, 0] }

/-- The concrete two layer example network. -/
def exNet2 : Ann :=
  { flags := 0, learn_rate := 1, rprop_nminus := 1/2, rprop_nplus := 6/5
    rprop_maxupdate := 50, rprop_minupdate := 1/1000000, layer := [exM0, exM1] }

/-- The RPROP per-cell rule as both the code and the claim state it:
maps (weight, pgradient, sgradient, delta) to the new triple
(weight, delta, pgradient). -/
def rpropRule (nplus nminus maxu minu : ℚ) (w p s d : ℚ) : ℚ × ℚ × ℚ :=
  let t := p * s
  if 0 < t then
    let d2 := min (d * nplus) maxu
    (w + -(sign s) * d2, d2, s)
  else if t < 0 then
    (w - -(sign p) * d, max (d * nminus) minu, 0)
  else
    (w + -(sign s) * d, d, s)

/-- Claim C1 as stated, about the result r of AnnAdjustWeightsResilientBP:
every cell of every weight array of every layer of positive index
follows the RPROP rule, no cell skipped. -/
def claimC1PredAt (net r : Ann) : Prop :=
  ∀ j, j < LAYERS net → 1 ≤ j →
    ∀ i, i < UNITS net j * UNITS net (j-1) →
      (qget (getLayer r j).weight i, qget (getLayer r j).delta i,
        qget (getLayer r j).pgradient i) =
        rpropRule net.rprop_nplus net.rprop_nminus net.rprop_maxupdate net.rprop_minupdate
          (qget (getLayer net j).weight i) (qget (getLayer net j).pgradient i)
          (qget (getLayer net j).sgradient i) (qget (getLayer net j).delta i)

/-- Amended claim C1, about the result r of AnnAdjustWeightsResilientBP:
the RPROP rule is applied to exactly the cells below rpropWeightsBound,
which drops one single final cell of the flat array when the destination
layer index j-1 is positive; the cells at or above the bound keep their
values, and nothing else in the net changes. -/
def rpropCharacterizationAt (net r : Ann) : Prop :=
  LAYERS r = LAYERS net ∧
  r.flags = net.flags ∧ r.learn_rate = net.learn_rate ∧
  r.rprop_nminus = net.rprop_nminus ∧ r.rprop_nplus = net.rprop_nplus ∧
  r.rprop_maxupdate = net.rprop_maxupdate ∧ r.rprop_minupdate = net.rprop_minupdate ∧
  (∀ m, (getLayer r m).units = (getLayer net m).units ∧
        (getLayer r m).output = (getLayer net m).output ∧
        (getLayer r m).error = (getLayer net m).error ∧
        (getLayer r m).gradient = (getLayer net m).gradient ∧
        (getLayer r m).sgradient = (getLayer net m).sgradient) ∧
  getLayer r 0 = getLayer net 0 ∧
  (∀ j, j < LAYERS net → 1 ≤ j →
    (∀ i, i < rpropWeightsBound net j →
      (qget (getLayer r j).weight i, qget (getLayer r j).delta i,
        qget (getLayer r j).pgradient i) =
        rpropRule net.rprop_nplus net.rprop_nminus net.rprop_maxupdate net.rprop_minupdate
          (qget (getLayer net j).weight i) (qget (getLayer net j).pgradient i)
          (qget (getLayer net j).sgradient i) (qget (getLayer net j).delta i)) ∧
    (∀ i, rpropWeightsBound net j ≤ i →
      qget (getLayer r j).weight i = qget (getLayer net j).weight i ∧
      qget (getLayer r j).delta i = qget (getLayer net j).delta i ∧
      qget (getLayer r j).pgradient i = qget (getLayer net j).pgradient i))

/-- The destination-unit count used by AnnCalculateGradients for current
layer j: the bias unit is dropped only for layers of index at least 2. -/
def gradUnitsBound (net : Ann) (j : Nat) : Nat := UNITS net j - (if 1 < j then 1 else 0)

/-- The destination-unit count claim C2 asserts: the bias unit dropped
in every bias-carrying layer, that is every layer of positive index. -/
def claimC2UnitsBound (net : Ann) (j : Nat) : Nat := UNITS net j - (if 0 < j then 1 else 0)

/-- The error signal of destination unit i of current layer j, read off
the final state r (the error array of a layer is final before that
layer is processed, and outputs are not modified at all). -/
def gradSignal (r : Ann) (j i : Nat) : ℚ :=
  qget (getLayer r j).error i *
    (qget (getLayer r j).output i * (1 - qget (getLayer r j).output i))

/-- Claim C2 as stated, about the result r of AnnCalculateGradients: in
every current layer carrying a bias unit the bias unit is excluded as a
destination, so the gradient rows it would generate stay untouched,
while the non-bias units produce the gradient rows and the accumulated
error exactly as described. -/
def claimC2PredAt (net : Ann) (_desired : List ℚ) (r : Ann) : Prop :=
  ∀ m, m < LAYERS net → 1 ≤ m →
    (∀ i, i < claimC2UnitsBound net (m-1) → ∀ k, k < UNITS net m →
      qget (getLayer r m).gradient (i * UNITS net m + k) =
        gradSignal r (m-1) i * qget (getLayer r m).output k) ∧
    (∀ fl, claimC2UnitsBound net (m-1) * UNITS net m ≤ fl →
      fl < UNITS net (m-1) * UNITS net m →
      qget (getLayer r m).gradient fl = qget (getLayer net m).gradient fl) ∧
    (∀ k, k < UNITS net m →
      qget (getLayer r m).error k =
        sumN (claimC2UnitsBound net (m-1))
          (fun i => gradSignal r (m-1) i * qget (getLayer r m).weight (i * UNITS net m + k)))

/-- Amended claim C2, about the result r of AnnCalculateGradients: the
output error formula on layer 0, and for every weight layer m the error
array of layer m overwritten with the accumulated back-propagated
signal and the gradient rows overwritten for exactly the destination
units below gradUnitsBound of layer m-1 (the bias unit of layer 1 is a
destination like any other, only layers of index 2 and above exclude
it); gradient cells above the written rows and everything else in the
net keep their values. -/
def gradCharacterizationAt (net : Ann) (desired : List ℚ) (r : Ann) : Prop :=
  LAYERS r = LAYERS net ∧
  r.flags = net.flags ∧ r.learn_rate = net.learn_rate ∧
  r.rprop_nminus = net.rprop_nminus ∧ r.rprop_nplus = net.rprop_nplus ∧
  r.rprop_maxupdate = net.rprop_maxupdate ∧ r.rprop_minupdate = net.rprop_minupdate ∧
  (∀ m, (getLayer r m).units = (getLayer net m).units ∧
        (getLayer r m).output = (getLayer net m).output ∧
        (getLayer r m).weight = (getLayer net m).weight ∧
        (getLayer r m).pgradient = (getLayer net m).pgradient ∧
        (getLayer r m).delta = (getLayer net m).delta ∧
        (getLayer r m).sgradient = (getLayer net m).sgradient) ∧
  (∀ k, k < UNITS net 0 →
    qget (getLayer r 0).error k =
      2 / (UNITS net 0 : ℚ) * (qget (getLayer net 0).output k - qget desired k)) ∧
  (∀ m, m < LAYERS net → 1 ≤ m →
    (∀ k, k < UNITS net m →
      qget (getLayer r m).error k =
        sumN (gradUnitsBound net (m-1))
          (fun i => gradSignal r (m-1) i * qget (getLayer r m).weight (i * UNITS net m + k))) ∧
    (∀ i, i < gradUnitsBound net (m-1) → ∀ k, k < UNITS net m →
      qget (getLayer r m).gradient (i * UNITS net m + k) =
        gradSignal r (m-1) i * qget (getLayer r m).output k) ∧
    (∀ fl, gradUnitsBound net (m-1) * UNITS net m ≤ fl →
      qget (getLayer r m).gradient fl = qget (getLayer net m).gradient fl))

/-- Claim C3 as stated, about the result r of AnnSimulate: each written
output slot of destination layer i-1 equals sigmoid of the dot product
of the weight row j of layer i with the output vector of layer i-1
itself; the parameter cur fixes which state of layer i-1 the output
vector is read from (the original net for the pre-state reading, the
simulated net for the post-state reading). -/
def claimC3PredAt (sig : ℚ → ℚ) (net cur r : Ann) : Prop :=
  ∀ i, i < LAYERS net → 1 ≤ i →
    ∀ j, j < UNITS net (i-1) - (if 1 < i then 1 else 0) →
      qget (getLayer r (i-1)).output j =
        sig (loopN (UNITS net i)
          (fun k A => A + qget (getLayer net i).weight (j * UNITS net i + k) *
            qget (getLayer cur (i-1)).output k) 0)

/-- The written-slot count of AnnSimulate for destination layer m: zero
for the input layer (never a destination), otherwise the unit count of
layer m minus its bias slot when m is positive. -/
def simWritten (net : Ann) (m : Nat) : Nat :=
  if m < LAYERS net - 1 then UNITS net m - (if 1 ≤ m then 1 else 0) else 0

/-- Amended claim C3, about the result r of AnnSimulate: layers are
processed strictly output-ward; every written output slot of
destination layer m below simWritten holds sigmoid of the dot product
of the weight row of the source layer m+1 with the output vector of
that same source layer m+1 (its final outputs, which are exactly its
outputs at processing time); all other output slots, among them every
bias slot, and every other field of the net keep their values. -/
def simCharacterizationAt (sig : ℚ → ℚ) (net r : Ann) : Prop :=
  LAYERS r = LAYERS net ∧
  r.flags = net.flags ∧ r.learn_rate = net.learn_rate ∧
  r.rprop_nminus = net.rprop_nminus ∧ r.rprop_nplus = net.rprop_nplus ∧
  r.rprop_maxupdate = net.rprop_maxupdate ∧ r.rprop_minupdate = net.rprop_minupdate ∧
  (∀ m, (getLayer r m).units = (getLayer net m).units ∧
        (getLayer r m).error = (getLayer net m).error ∧
        (getLayer r m).weight = (getLayer net m).weight ∧
        (getLayer r m).gradient = (getLayer net m).gradient ∧
        (getLayer r m).pgradient = (getLayer net m).pgradient ∧
        (getLayer r m).delta = (getLayer net m).delta ∧
        (getLayer r m).sgradient = (getLayer net m).sgradient ∧
        (getLayer r m).output.length = (getLayer net m).output.length) ∧
  (∀ m, LAYERS net - 1 ≤ m → getLayer r m = getLayer net m) ∧
  (∀ m j, simWritten net m ≤ j →
    qget (getLayer r m).output j = qget (getLayer net m).output j) ∧
  (∀ m, m < LAYERS net - 1 → ∀ j, j < simWritten net m →
    qget (getLayer r m).output j = sig (simActivation (getLayer r (m+1)) j))

/-- The bias-carrying layers of every constructed net: AnnCreateNet and
AnnClone call AnnInitLayer with the bias flag set exactly for the layers
of positive index. -/
def layerHasBias (j : Nat) : Prop := 0 < j

instance (j : Nat) : Decidable (layerHasBias j) := by
  unfold layerHasBias; infer_instance

/-- Claim C4 formula, following the spec wording under the output-to-
input indexing its data model declares: the sum over the weight-owning
layers i of (units in that layer) times (units in the previous layer
i-1, minus one when that previous layer itself carries a bias unit and
is not the absolute input layer). -/
def claimCountWeights (net : Ann) : ℤ :=
  ∑ m ∈ Finset.range (LAYERS net - 1),
    (UNITS net (m+1) : ℤ) *
      ((UNITS net m : ℤ) -
        (if layerHasBias m ∧ m ≠ LAYERS net - 1 then 1 else 0))

/-- Every bias unit output is exactly 1; the bias units are the last
slots of the layers of positive index. -/
def BiasOk (net : Ann) : Prop :=
  ∀ m, m < LAYERS net → 1 ≤ m →
    qget (getLayer net m).output ((getLayer net m).units - 1) = 1

instance (net : Ann) : Decidable (BiasOk net) := by
  unfold BiasOk; infer_instance

/-- One training example processed as the C6 claim words it: reset every
delta to zero, simulate and take the global error of this example,
compute the gradients, accumulate each gradient into its delta, then
immediately adjust every weight by learning rate over dataset size times
its delta. -/
def gdExampleStep (sig : ℚ → ℚ) (setlen : Nat) (exIn exDe : List ℚ) (net : Ann) : Ann × ℚ :=
  let net1 := AnnSetDeltas net 0
  let r := AnnSimulateError sig net1 exIn exDe
  let net2 := AnnCalculateGradients r.1 exDe
  let net3 := AnnUpdateDeltasGD net2
  (AnnAdjustWeights net3 setlen, r.2)

/-- The C6 claim statement of the gradient descent epoch: the setlen
training examples, the j-th being the slice of the flat data at offset
j times the example stride, are processed in order by gdExampleStep
(the weight update happening after every single example, not once per
epoch), and the accumulated error divided by setlen is returned. -/
def gdEpochClaim (sig : ℚ → ℚ) (net : Ann) (input desired : List ℚ) (setlen : Nat) :
    Ann × ℚ :=
  let inputs := INPUT_UNITS net
  let outputs := OUTPUT_UNITS net
  let r := loopN setlen
    (fun j acc =>
      let s := gdExampleStep sig setlen (input.drop (j * inputs)) (desired.drop (j * outputs))
        acc.1
      (s.1, acc.2 + s.2))
    (net, 0)
  (r.1, r.2 / (setlen : ℚ))

/-- Allocation bookkeeping model for the out-of-memory claim: records
which of the seven arrays of a layer under construction are currently
allocated; the array contents are irrelevant to the rollback claim. -/
structure MLayer where
  output : Bool
  error : Bool
  weight : Bool
  gradient : Bool
  pgradient : Bool
  delta : Bool
  sgradient : Bool
deriving DecidableEq, Repr

/-- AnnResetLayer in the allocation model: all pointers NULL. -/
def mResetLayer : MLayer := ⟨false, false, false, false, false, false, false⟩

/-- Number of live heap blocks held by a layer. -/
def mLayerLive (l : MLayer) : Nat :=
  (cond l.output 1 0) + (cond l.error 1 0) + (cond l.weight 1 0) + (cond l.gradient 1 0) +
    (cond l.pgradient 1 0) + (cond l.delta 1 0) + (cond l.sgradient 1 0)

/-- Allocator state: the number of malloc calls made so far, indexing
the failure schedule, and the number of currently live blocks. -/
structure MAlloc where
  time : Nat
  live : Nat
deriving DecidableEq, Repr

/-- One malloc call: fails when the schedule says so, otherwise
allocates one block. -/
def mMalloc (fails : Nat → Bool) (st : MAlloc) : Bool × MAlloc :=
  if fails st.time then (false, { time := st.time + 1, live := st.live })
  else (true, { time := st.time + 1, live := st.live + 1 })

/-- A malloc call guarded by a condition (the five weight arrays are
only allocated for layers of positive index); no call is made and NULL
results when the guard is off. -/
def mMallocIf (c : Bool) (fails : Nat → Bool) (st : MAlloc) : Bool × MAlloc :=
  if c then mMalloc fails st else (false, st)

/-- One free call: free of NULL is a no-op, otherwise one block is
released. -/
def mFree (p : Bool) (st : MAlloc) : MAlloc := { st with live := st.live - cond p 1 0 }

/-- AnnFreeLayer in the allocation model: frees the seven arrays in
source order. -/
def mFreeLayer (l : MLayer) (st : MAlloc) : MAlloc :=
  mFree l.sgradient (mFree l.delta (mFree l.pgradient (mFree l.gradient
    (mFree l.weight (mFree l.error (mFree l.output st))))))

/-- AnnInitLayer in the allocation model: the seven mallocs in source
order (output, error, then the five weight-shaped arrays for layers of
positive index only), the out-of-memory check over all seven, and on
failure the rollback through AnnFreeLayer plus reset.  The first
component of the result is the C non-zero error flag. -/
def mInitLayer (fails : Nat → Bool) (hasW : Bool) (st : MAlloc) : (Bool × MLayer) × MAlloc :=
  let r1 := mMalloc fails st
  let r2 := mMalloc fails r1.2
  let r3 := mMallocIf hasW fails r2.2
  let r4 := mMallocIf hasW fails r3.2
  let r5 := mMallocIf hasW fails r4.2
  let r6 := mMallocIf hasW fails r5.2
  let r7 := mMallocIf hasW fails r6.2
  let l : MLayer := ⟨r1.1, r2.1, r3.1, r4.1, r5.1, r6.1, r7.1⟩
  if r1.1 = false ∨ r2.1 = false ∨
      (hasW = true ∧ (r3.1 = false ∨ r4.1 = false ∨ r5.1 = false ∨ r7.1 = false ∨
        r6.1 = false))
  then ((true, mResetLayer), mFreeLayer l r7.2)
  else ((false, l), r7.2)

/-- AnnFree in the allocation model: frees every layer in order, then
the layer array, then the struct. -/
def mFreeNet (net : List MLayer) (st : MAlloc) : MAlloc :=
  mFree true (mFree true (net.foldl (fun s l => mFreeLayer l s) st))

/-- AnnAlloc in the allocation model: malloc of the struct, then of the
layer array, the struct being freed when the second malloc fails; none
is returned exactly when the C code returns NULL. -/
def mAllocNet (fails : Nat → Bool) (layers : Nat) (st : MAlloc) :
    Option (List MLayer) × MAlloc :=
  let r1 := mMalloc fails st
  if r1.1 = false then (none, r1.2)
  else
    let r2 := mMalloc fails r1.2
    if r2.1 = false then (none, mFree true r2.2)
    else (some (List.replicate layers mResetLayer), r2.2)

/-- The layer init loop of AnnCreateNet and AnnClone in the allocation
model, over the layer index i with t layers still to do: on an init
failure the already freed and reset layer stays reset, the whole net is
freed and none is returned, exactly as the C code does. -/
def mInitLayers (fails : Nat → Bool) : Nat → Nat → List MLayer → MAlloc →
    Option (List MLayer) × MAlloc
  | _, 0, net, st => (some net, st)
  | i, t + 1, net, st =>
    let r := mInitLayer fails (decide (0 < i)) st
    if r.1.1 then (none, mFreeNet net r.2)
    else mInitLayers fails (i + 1) t (net.set i r.1.2) r.2

/-- AnnCreateNet in the allocation model (the weight randomisation and
delta initialisation allocate nothing). -/
def mCreateNet (fails : Nat → Bool) (layers : Nat) (st : MAlloc) :
    Option (List MLayer) × MAlloc :=
  match mAllocNet fails layers st with
  | (none, st2) => (none, st2)
  | (some net, st2) => mInitLayers fails 0 layers net st2

/-- AnnClone in the allocation model: the allocation structure of
AnnClone is that of AnnCreateNet, alloc plus the per-layer init loop
with bias for positive indices; the memcpy calls allocate nothing. -/
def mCloneNet (fails : Nat → Bool) (layers : Nat) (st : MAlloc) :
    Option (List MLayer) × MAlloc :=
  match mAllocNet fails layers st with
  | (none, st2) => (none, st2)
  | (some net, st2) => mInitLayers fails 0 layers net st2

/-- A fully constructed layer at index i: output and error allocated,
and the five weight-shaped arrays exactly for positive i. -/
def mLayerFull (i : Nat) (l : MLayer) : Prop :=
  l.output = true ∧ l.error = true ∧
    l.weight = decide (0 < i) ∧ l.gradient = decide (0 < i) ∧
    l.pgradient = decide (0 < i) ∧ l.delta = decide (0 < i) ∧ l.sgradient = decide (0 < i)

/-- Total live blocks accounted to a list of layers. -/
def mNetLayersLive (net : List MLayer) : Nat := (net.map mLayerLive).sum

/-- A failure schedule for the witness: the allocation with the given
index fails. -/
def failAt (k : Nat) : Nat → Bool := fun t => decide (t = k)

/-- The non-bias slot count of layer m as a simulation destination:
all units, less the bias slot for layers of positive index. -/
def nwOut (net : Ann) (m : Nat) : Nat := UNITS net m - (if 1 ≤ m then 1 else 0)

/-- The layer count, the flags and the scalar hyperparameters of the
two nets coincide. -/
def sameShape (a b : Ann) : Prop :=
  LAYERS a = LAYERS b ∧ a.flags = b.flags ∧ a.learn_rate = b.learn_rate ∧
  a.rprop_nminus = b.rprop_nminus ∧ a.rprop_nplus = b.rprop_nplus ∧
  a.rprop_maxupdate = b.rprop_maxupdate ∧ a.rprop_minupdate = b.rprop_minupdate

instance (net r : Ann) : Decidable (claimC1PredAt net r) := by
  unfold claimC1PredAt; infer_instance

instance (net : Ann) (d : List ℚ) (r : Ann) : Decidable (claimC2PredAt net d r) := by
  unfold claimC2PredAt; infer_instance

instance (sig : ℚ → ℚ) (net cur r : Ann) : Decidable (claimC3PredAt sig net cur r) := by
  unfold claimC3PredAt; infer_instance

/-- Read of a cell of a C array after a write to another cell or beyond
the array: the value is unchanged. -/
theorem getD_set_ne {α : Type} (l : List α) (d : α) (i j : Nat) (v : α) (h : i ≠ j) :
    (l.set i v).getD j d = l.getD j d := by
  rw [List.getD_eq_getElem?_getD, List.getD_eq_getElem?_getD, List.getElem?_set_ne h]

/-- Read of a cell of a C array right after an in-range write to it. -/
theorem getD_set_self {α : Type} (l : List α) (d : α) (i : Nat) (v : α) (h : i < l.length) :
    (l.set i v).getD i d = v := by
  rw [List.getD_eq_getElem?_getD, List.getElem?_set_self (by simpa using h)]; rfl

/-- Reads beyond the array length give the default. -/
theorem getD_oob {α : Type} (l : List α) (d : α) (i : Nat) (h : l.length ≤ i) :
    l.getD i d = d := by
  rw [List.getD_eq_getElem?_getD, List.getElem?_eq_none (by simpa using h)]; rfl

/-- Bounded reads are plain list entries. -/
theorem getD_eq_getElem {α : Type} (l : List α) (d : α) (i : Nat) (h : i < l.length) :
    l.getD i d = l.get ⟨i, h⟩ := by
  simp [List.getD_eq_getElem?_getD, List.getElem?_eq_getElem h]

/-- Lists of equal length whose default reads agree everywhere are
equal. -/
theorem list_ext_getD {α : Type} (d : α) (a b : List α) (h1 : a.length = b.length)
    (h2 : ∀ i, i < a.length → a.getD i d = b.getD i d) : a = b := by
  apply List.ext_getElem h1
  intro i hi hib
  have := h2 i hi
  rwa [List.getD_eq_getElem?_getD, List.getD_eq_getElem?_getD, List.getElem?_eq_getElem hi,
    List.getElem?_eq_getElem hib] at this

/-- Layer updates do not change the layer count. -/
theorem LAYERS_updLayer (net : Ann) (j : Nat) (f : AnnLayer → AnnLayer) :
    LAYERS (updLayer net j f) = LAYERS net := by
  simp [LAYERS, updLayer, setLayer]

/-- Layer updates do not change the other layers. -/
theorem getLayer_updLayer_ne (net : Ann) (j : Nat) (f : AnnLayer → AnnLayer) (m : Nat)
    (h : m ≠ j) : getLayer (updLayer net j f) m = getLayer net m := by
  simp only [updLayer, setLayer, getLayer]
  exact getD_set_ne _ _ _ _ _ (fun e => h e.symm)

/-- An in-range layer update stores the updated layer. -/
theorem getLayer_updLayer_self (net : Ann) (j : Nat) (f : AnnLayer → AnnLayer)
    (h : j < LAYERS net) : getLayer (updLayer net j f) j = f (getLayer net j) := by
  simp only [updLayer, setLayer, getLayer]
  exact getD_set_self _ _ _ _ h

/-- An update beyond the layer count is a no-op, like the C write
through a dangling index would never happen: the list set is the
identity there. -/
theorem updLayer_oob (net : Ann) (j : Nat) (f : AnnLayer → AnnLayer)
    (h : LAYERS net ≤ j) : updLayer net j f = net := by
  unfold updLayer setLayer
  rw [List.set_eq_of_length_le h]

/-- Any field of a layer that an update function leaves alone is left
alone at every index of the net. -/
theorem proj_updLayer {γ : Type} (pj : AnnLayer → γ) (net : Ann) (j : Nat)
    (f : AnnLayer → AnnLayer) (hf : ∀ l, pj (f l) = pj l) (m : Nat) :
    pj (getLayer (updLayer net j f) m) = pj (getLayer net m) := by
  by_cases hm : m = j
  · subst hm
    by_cases hl : m < LAYERS net
    · rw [getLayer_updLayer_self net m f hl]; exact hf _
    · rw [updLayer_oob net m f (Nat.le_of_not_lt hl)]
  · rw [getLayer_updLayer_ne net j f m hm]

/-- Layer updates keep the hyperparameters and flags. -/
theorem hyper_updLayer (net : Ann) (j : Nat) (f : AnnLayer → AnnLayer) :
    (updLayer net j f).flags = net.flags ∧
    (updLayer net j f).learn_rate = net.learn_rate ∧
    (updLayer net j f).rprop_nminus = net.rprop_nminus ∧
    (updLayer net j f).rprop_nplus = net.rprop_nplus ∧
    (updLayer net j f).rprop_maxupdate = net.rprop_maxupdate ∧
    (updLayer net j f).rprop_minupdate = net.rprop_minupdate :=
  ⟨rfl, rfl, rfl, rfl, rfl, rfl⟩

/-- Invariant preservation through a C loop. -/
theorem loopN_inv {α : Type} (P : α → Prop) :
    ∀ (n : Nat) (f : Nat → α → α) (a : α),
      P a → (∀ i b, i < n → P b → P (f i b)) → P (loopN n f a)
  | 0, _, _, h0, _ => h0
  | n + 1, f, a, h0, hs =>
    hs n _ (Nat.lt_succ_self n)
      (loopN_inv P n f a h0 (fun i b hi => hs i b (Nat.lt_succ_of_lt hi)))

/-- Indexed invariant preservation through a C loop. -/
theorem loopN_ind {α : Type} (P : Nat → α → Prop) :
    ∀ (n : Nat) (f : Nat → α → α) (a : α),
      P 0 a → (∀ i b, i < n → P i b → P (i + 1) (f i b)) → P n (loopN n f a)
  | 0, _, _, h0, _ => h0
  | n + 1, f, a, h0, hs =>
    hs n _ (Nat.lt_succ_self n)
      (loopN_ind P n f a h0 (fun i b hi => hs i b (Nat.lt_succ_of_lt hi)))

/-- Loops with pointwise equal bodies agree. -/
theorem loopN_congr {α : Type} :
    ∀ (n : Nat) (f g : Nat → α → α) (a : α),
      (∀ i, i < n → ∀ b, f i b = g i b) → loopN n f a = loopN n g a
  | 0, _, _, _, _ => rfl
  | n + 1, f, g, a, h => by
    unfold loopN
    rw [loopN_congr n f g a (fun i hi => h i (Nat.lt_succ_of_lt hi)), h n (Nat.lt_succ_self n)]

/-- Peeling the first iteration of a C loop. -/
theorem loopN_shift {α : Type} :
    ∀ (n : Nat) (f : Nat → α → α) (a : α),
      loopN (n + 1) f a = loopN n (fun i => f (i + 1)) (f 0 a)
  | 0, _, _ => rfl
  | n + 1, f, a => by
    show f (n+1) (loopN (n+1) f a) = loopN (n+1) (fun i => f (i+1)) (f 0 a)
    rw [loopN_shift n f a]
    rfl

/-- Cell characterisation of a loop whose iteration i writes exactly
the cell i, under the observation map g: an invariant inv is threaded
through, each cell below n receives its intended value v (computed from
the entry state), and the cells at or above n keep their values. -/
theorem loopN_write_once {α β : Type} (g : α → Nat → β) (inv : α → Prop) :
    ∀ (n : Nat) (f : Nat → α → α) (a : α) (v : Nat → β),
      inv a →
      (∀ i b, i < n → inv b → (∀ m, i ≤ m → g b m = g a m) →
        inv (f i b) ∧ g (f i b) i = v i ∧ ∀ m, m ≠ i → g (f i b) m = g b m) →
      inv (loopN n f a) ∧ (∀ m, m < n → g (loopN n f a) m = v m) ∧
        (∀ m, n ≤ m → g (loopN n f a) m = g a m)
  | 0, _, _, _, h0, _ => ⟨h0, fun m hm => absurd hm (Nat.not_lt_zero m), fun _ _ => rfl⟩
  | n + 1, f, a, v, h0, hs => by
    obtain ⟨hbinv, hblt, hbge⟩ :=
      loopN_write_once g inv n f a v h0 (fun i b hi => hs i b (Nat.lt_succ_of_lt hi))
    obtain ⟨hinv2, heq, hfr⟩ :=
      hs n (loopN n f a) (Nat.lt_succ_self n) hbinv (fun m hm => hbge m hm)
    refine ⟨hinv2, ?_, ?_⟩
    · intro m hm
      show g (f n (loopN n f a)) m = v m
      rcases Nat.lt_succ_iff_lt_or_eq.mp hm with hlt | heqm
      · rw [hfr m (Nat.ne_of_lt hlt)]; exact hblt m hlt
      · subst heqm; exact heq
    · intro m hm
      show g (f n (loopN n f a)) m = g a m
      rw [hfr m (by omega)]
      exact hbge m (by omega)

/-- The while loop of AnnTrain never fires an epoch for an unknown
algorithm code: the error stays maxerr + 1 (which never drops below
maxerr) and the net is untouched. -/
theorem annTrainLoop_unknown (sig : ℚ → ℚ) (input desired : List ℚ) (maxerr : ℚ)
    (setlen : Nat) (algo : Int) (h1 : algo ≠ NN_ALGO_BPROP) (h2 : algo ≠ NN_ALGO_GD) :
    ∀ (n : Nat) (net : Ann),
      annTrainLoop sig input desired maxerr setlen algo n net (maxerr + 1) = (net, maxerr + 1)
  | 0, _ => rfl
  | n + 1, net => by
    unfold annTrainLoop
    rw [if_neg (show ¬(maxerr + 1 < maxerr) by linarith)]
    simp only [if_neg h1, if_neg h2]
    exact annTrainLoop_unknown sig input desired maxerr setlen algo h1 h2 n net

/-- Claim C10: AnnTrain called with an algorithm code equal to neither
of the two training constants performs no training at all: the network
is returned unchanged and the final error is exactly maxerr + 1. -/
theorem claimC10TrainUnknownAlgo (sig : ℚ → ℚ) (net : Ann) (input desired : List ℚ)
    (maxerr : ℚ) (maxepochs setlen : Nat) (algo : Int)
    (h1 : algo ≠ NN_ALGO_BPROP) (h2 : algo ≠ NN_ALGO_GD) :
    AnnTrain sig net input desired maxerr maxepochs setlen algo = (net, maxerr + 1) :=
  annTrainLoop_unknown sig input desired maxerr setlen algo h1 h2 maxepochs net

/-- Witness for claim C10 at the algorithm code 2 on the concrete
network. -/
theorem claimC10Witness :
    (2 : Int) ≠ NN_ALGO_BPROP ∧ (2 : Int) ≠ NN_ALGO_GD ∧
      AnnTrain sigmoidModel exNet3 [] [] 5 3 1 2 = (exNet3, 5 + 1) :=
  ⟨by decide, by decide,
    claimC10TrainUnknownAlgo sigmoidModel exNet3 [] [] 5 3 1 2 (by decide) (by decide)⟩

/-- The descending count loop is the range sum of its terms. -/
theorem countWeightsLoop_eq_sum (net : Ann) : ∀ n : Nat,
    countWeightsLoop net n =
      ∑ m ∈ Finset.range n,
        (UNITS net (m+1) : ℤ) * ((UNITS net m : ℤ) - (if 1 < m + 1 then 1 else 0))
  | 0 => by simp [countWeightsLoop]
  | n + 1 => by
    rw [Finset.sum_range_succ, ← countWeightsLoop_eq_sum net n]
    show (UNITS net (n+1) : ℤ) * ((UNITS net n : ℤ) - (if 1 < n + 1 then 1 else 0)) +
      countWeightsLoop net n = _
    ring

/-- Claim C4: for every valid network the weight count of nn.c equals
the spec formula, the sum over the weight-owning layers of units times
(units of the previous layer, less one when the previous layer carries
a bias unit and is not the absolute input layer). -/
theorem claimC4CountWeights (net : Ann) (_h : 2 ≤ LAYERS net) :
    AnnCountWeights net = claimCountWeights net := by
  unfold AnnCountWeights claimCountWeights
  rw [countWeightsLoop_eq_sum]
  apply Finset.sum_congr rfl
  intro m hm
  have hm2 : m < LAYERS net - 1 := Finset.mem_range.mp hm
  congr 1
  congr 1
  apply if_congr _ rfl rfl
  unfold layerHasBias
  omega

/-- Witness for claim C4 on the concrete three layer network. -/
theorem claimC4Witness :
    2 ≤ LAYERS exNet3 ∧ AnnCountWeights exNet3 = claimCountWeights exNet3 :=
  ⟨by decide, claimC4CountWeights exNet3 (by decide)⟩

/-- The learning rate of a clone is the indeterminate value left by
AnnAlloc: no statement of AnnClone ever assigns it. -/
theorem learnRate_annClone (junk : ℚ) (net : Ann) : (AnnClone junk net).learn_rate = junk := by
  unfold AnnClone
  exact loopN_inv (fun (b : Ann) => b.learn_rate = junk) (LAYERS net) _ _ rfl
    (fun _ _ _ h => h)

/-- Claim C5 against the code: AnnClone copies the four RPROP
parameters and the flags but never assigns learn_rate, so the learning
rate of the clone is whatever the allocation left in memory and in
general differs from the learning rate of the source, contradicting the
claim that all hyperparameters are copied. -/
theorem claimC5CloneLearnRateBug :
    (∀ junk net, (AnnClone junk net).learn_rate = junk) ∧
      (AnnClone 7 exNet3).learn_rate = 7 ∧ exNet3.learn_rate = 1 ∧
      (AnnClone 7 exNet3).learn_rate ≠ exNet3.learn_rate := by
  refine ⟨learnRate_annClone, learnRate_annClone 7 exNet3, rfl, ?_⟩
  rw [learnRate_annClone 7 exNet3]
  norm_num [exNet3]

/-- Counterexample to claim C1 as stated: in the concrete three layer
network the final flat weight cell of layer 2 is skipped by the loop
bound units*nextunits - 1, while the rule the claim states for every
cell would move its weight and store its pgradient. -/
theorem claimC1Counterexample :
    ¬ claimC1PredAt exNet3 (AnnAdjustWeightsResilientBP exNet3) := by decide

/-- Counterexample to claim C2 as stated: in the concrete three layer
network the bias unit of current layer 1 is processed as a destination
(the exclusion only applies to layers of index at least 2), so the
gradient row of layer 2 belonging to the bias destination is
overwritten with zeros instead of staying untouched. -/
theorem claimC2Counterexample :
    ¬ claimC2PredAt exNet3 [0] (AnnCalculateGradients exNet3 [0]) := by decide

/-- Counterexample to claim C3 as stated: in the concrete two layer
network the written output slot is sigmoid of the dot product with the
output vector of the source layer i, not of the destination layer i-1;
the claimed formula fails both when the destination outputs are read
from the pre-state and when they are read from the final state. -/
theorem claimC3Counterexample :
    ¬ claimC3PredAt sigmoidModel exNet2 exNet2 (AnnSimulate sigmoidModel exNet2) ∧
    ¬ claimC3PredAt sigmoidModel exNet2 (AnnSimulate sigmoidModel exNet2)
        (AnnSimulate sigmoidModel exNet2) :=
  ⟨by decide, by decide⟩

/-- Shape agreement is reflexive. -/
theorem sameShape_refl (a : Ann) : sameShape a a :=
  ⟨rfl, rfl, rfl, rfl, rfl, rfl, rfl⟩

/-- Shape agreement is transitive. -/
theorem sameShape_trans {a b c : Ann} (h1 : sameShape a b) (h2 : sameShape b c) :
    sameShape a c := by
  obtain ⟨x1, x2, x3, x4, x5, x6, x7⟩ := h1
  obtain ⟨y1, y2, y3, y4, y5, y6, y7⟩ := h2
  exact ⟨x1.trans y1, x2.trans y2, x3.trans y3, x4.trans y4, x5.trans y5, x6.trans y6,
    x7.trans y7⟩

/-- Layer updates keep the shape. -/
theorem sameShape_updLayer (net : Ann) (j : Nat) (f : AnnLayer → AnnLayer) :
    sameShape (updLayer net j f) net :=
  ⟨LAYERS_updLayer net j f, rfl, rfl, rfl, rfl, rfl, rfl⟩

/-- Writing an output cell changes nothing but that output array: every
other field at every index, and the length of the output array, are
untouched. -/
theorem setOutputAt_fields (net : Ann) (j0 i0 : Nat) (v : ℚ) (m : Nat) :
    (getLayer (setOutputAt net j0 i0 v) m).units = (getLayer net m).units ∧
    (getLayer (setOutputAt net j0 i0 v) m).error = (getLayer net m).error ∧
    (getLayer (setOutputAt net j0 i0 v) m).weight = (getLayer net m).weight ∧
    (getLayer (setOutputAt net j0 i0 v) m).gradient = (getLayer net m).gradient ∧
    (getLayer (setOutputAt net j0 i0 v) m).pgradient = (getLayer net m).pgradient ∧
    (getLayer (setOutputAt net j0 i0 v) m).delta = (getLayer net m).delta ∧
    (getLayer (setOutputAt net j0 i0 v) m).sgradient = (getLayer net m).sgradient ∧
    (getLayer (setOutputAt net j0 i0 v) m).output.length = (getLayer net m).output.length := by
  by_cases hm : m = j0
  · subst hm
    by_cases hl : m < LAYERS net
    · unfold setOutputAt; rw [getLayer_updLayer_self _ _ _ hl]; simp
    · unfold setOutputAt; rw [updLayer_oob _ _ _ (Nat.le_of_not_lt hl)]; simp
  · unfold setOutputAt; rw [getLayer_updLayer_ne _ _ _ _ hm]; simp

/-- Output reads are unaffected by an output write to a different layer
or to a different cell. -/
theorem qget_setOutputAt_ne (net : Ann) (j0 i0 : Nat) (v : ℚ) (m i2 : Nat)
    (h : m ≠ j0 ∨ i0 ≠ i2) :
    qget (getLayer (setOutputAt net j0 i0 v) m).output i2 = qget (getLayer net m).output i2 := by
  by_cases hm : m = j0
  · subst hm
    have hi : i0 ≠ i2 := h.resolve_left (fun hc => hc rfl)
    by_cases hl : m < LAYERS net
    · unfold setOutputAt
      rw [getLayer_updLayer_self _ _ _ hl]
      exact getD_set_ne _ _ _ _ _ hi
    · unfold setOutputAt
      rw [updLayer_oob _ _ _ (Nat.le_of_not_lt hl)]
  · unfold setOutputAt
    rw [getLayer_updLayer_ne _ _ _ _ hm]

/-- An in-range output write is read back. -/
theorem qget_setOutputAt_self (net : Ann) (j0 i0 : Nat) (v : ℚ)
    (hj : j0 < LAYERS net) (hi : i0 < (getLayer net j0).output.length) :
    qget (getLayer (setOutputAt net j0 i0 v) j0).output i0 = v := by
  unfold setOutputAt
  rw [getLayer_updLayer_self _ _ _ hj]
  exact getD_set_self _ _ _ _ hi

/-- The simulate step keeps the shape. -/
theorem sameShape_simStep (sig : ℚ → ℚ) (i : Nat) (net : Ann) :
    sameShape (simStep sig i net) net := by
  unfold simStep
  exact loopN_inv (fun (b : Ann) => sameShape b net) _ _ _ (sameShape_refl net)
    (fun _ b _ hb => sameShape_trans (sameShape_updLayer b _ _) hb)

/-- Writing an error cell changes nothing but that error array. -/
theorem setErrorAt_fields (net : Ann) (j0 i0 : Nat) (v : ℚ) (m : Nat) :
    (getLayer (setErrorAt net j0 i0 v) m).units = (getLayer net m).units ∧
    (getLayer (setErrorAt net j0 i0 v) m).output = (getLayer net m).output ∧
    (getLayer (setErrorAt net j0 i0 v) m).weight = (getLayer net m).weight ∧
    (getLayer (setErrorAt net j0 i0 v) m).gradient = (getLayer net m).gradient ∧
    (getLayer (setErrorAt net j0 i0 v) m).pgradient = (getLayer net m).pgradient ∧
    (getLayer (setErrorAt net j0 i0 v) m).delta = (getLayer net m).delta ∧
    (getLayer (setErrorAt net j0 i0 v) m).sgradient = (getLayer net m).sgradient ∧
    (getLayer (setErrorAt net j0 i0 v) m).error.length = (getLayer net m).error.length := by
  by_cases hm : m = j0
  · subst hm
    by_cases hl : m < LAYERS net
    · unfold setErrorAt; rw [getLayer_updLayer_self _ _ _ hl]; simp
    · unfold setErrorAt; rw [updLayer_oob _ _ _ (Nat.le_of_not_lt hl)]; simp
  · unfold setErrorAt; rw [getLayer_updLayer_ne _ _ _ _ hm]; simp

/-- Error reads are unaffected by an error write to a different layer
or cell. -/
theorem qget_setErrorAt_ne (net : Ann) (j0 i0 : Nat) (v : ℚ) (m i2 : Nat)
    (h : m ≠ j0 ∨ i0 ≠ i2) :
    qget (getLayer (setErrorAt net j0 i0 v) m).error i2 = qget (getLayer net m).error i2 := by
  by_cases hm : m = j0
  · subst hm
    have hi : i0 ≠ i2 := h.resolve_left (fun hc => hc rfl)
    by_cases hl : m < LAYERS net
    · unfold setErrorAt
      rw [getLayer_updLayer_self _ _ _ hl]
      exact getD_set_ne _ _ _ _ _ hi
    · unfold setErrorAt
      rw [updLayer_oob _ _ _ (Nat.le_of_not_lt hl)]
  · unfold setErrorAt
    rw [getLayer_updLayer_ne _ _ _ _ hm]

/-- An in-range error write is read back. -/
theorem qget_setErrorAt_self (net : Ann) (j0 i0 : Nat) (v : ℚ)
    (hj : j0 < LAYERS net) (hi : i0 < (getLayer net j0).error.length) :
    qget (getLayer (setErrorAt net j0 i0 v) j0).error i0 = v := by
  unfold setErrorAt
  rw [getLayer_updLayer_self _ _ _ hj]
  exact getD_set_self _ _ _ _ hi

/-- Writing a gradient cell changes nothing but that gradient array. -/
theorem setGradientAt_fields (net : Ann) (j0 i0 : Nat) (v : ℚ) (m : Nat) :
    (getLayer (setGradientAt net j0 i0 v) m).units = (getLayer net m).units ∧
    (getLayer (setGradientAt net j0 i0 v) m).output = (getLayer net m).output ∧
    (getLayer (setGradientAt net j0 i0 v) m).error = (getLayer net m).error ∧
    (getLayer (setGradientAt net j0 i0 v) m).weight = (getLayer net m).weight ∧
    (getLayer (setGradientAt net j0 i0 v) m).pgradient = (getLayer net m).pgradient ∧
    (getLayer (setGradientAt net j0 i0 v) m).delta = (getLayer net m).delta ∧
    (getLayer (setGradientAt net j0 i0 v) m).sgradient = (getLayer net m).sgradient ∧
    (getLayer (setGradientAt net j0 i0 v) m).gradient.length =
      (getLayer net m).gradient.length := by
  by_cases hm : m = j0
  · subst hm
    by_cases hl : m < LAYERS net
    · unfold setGradientAt; rw [getLayer_updLayer_self _ _ _ hl]; simp
    · unfold setGradientAt; rw [updLayer_oob _ _ _ (Nat.le_of_not_lt hl)]; simp
  · unfold setGradientAt; rw [getLayer_updLayer_ne _ _ _ _ hm]; simp

/-- Gradient reads are unaffected by a gradient write to a different
layer or cell. -/
theorem qget_setGradientAt_ne (net : Ann) (j0 i0 : Nat) (v : ℚ) (m i2 : Nat)
    (h : m ≠ j0 ∨ i0 ≠ i2) :
    qget (getLayer (setGradientAt net j0 i0 v) m).gradient i2 =
      qget (getLayer net m).gradient i2 := by
  by_cases hm : m = j0
  · subst hm
    have hi : i0 ≠ i2 := h.resolve_left (fun hc => hc rfl)
    by_cases hl : m < LAYERS net
    · unfold setGradientAt
      rw [getLayer_updLayer_self _ _ _ hl]
      exact getD_set_ne _ _ _ _ _ hi
    · unfold setGradientAt
      rw [updLayer_oob _ _ _ (Nat.le_of_not_lt hl)]
  · unfold setGradientAt
    rw [getLayer_updLayer_ne _ _ _ _ hm]

/-- An in-range gradient write is read back. -/
theorem qget_setGradientAt_self (net : Ann) (j0 i0 : Nat) (v : ℚ)
    (hj : j0 < LAYERS net) (hi : i0 < (getLayer net j0).gradient.length) :
    qget (getLayer (setGradientAt net j0 i0 v) j0).gradient i0 = v := by
  unfold setGradientAt
  rw [getLayer_updLayer_self _ _ _ hj]
  exact getD_set_self _ _ _ _ hi

/-- Writing a weight cell changes nothing but that weight array. -/
theorem setWeightAt_fields (net : Ann) (j0 i0 : Nat) (v : ℚ) (m : Nat) :
    (getLayer (setWeightAt net j0 i0 v) m).units = (getLayer net m).units ∧
    (getLayer (setWeightAt net j0 i0 v) m).output = (getLayer net m).output ∧
    (getLayer (setWeightAt net j0 i0 v) m).error = (getLayer net m).error ∧
    (getLayer (setWeightAt net j0 i0 v) m).gradient = (getLayer net m).gradient ∧
    (getLayer (setWeightAt net j0 i0 v) m).pgradient = (getLayer net m).pgradient ∧
    (getLayer (setWeightAt net j0 i0 v) m).delta = (getLayer net m).delta ∧
    (getLayer (setWeightAt net j0 i0 v) m).sgradient = (getLayer net m).sgradient ∧
    (getLayer (setWeightAt net j0 i0 v) m).weight.length = (getLayer net m).weight.length := by
  by_cases hm : m = j0
  · subst hm
    by_cases hl : m < LAYERS net
    · unfold setWeightAt; rw [getLayer_updLayer_self _ _ _ hl]; simp
    · unfold setWeightAt; rw [updLayer_oob _ _ _ (Nat.le_of_not_lt hl)]; simp
  · unfold setWeightAt; rw [getLayer_updLayer_ne _ _ _ _ hm]; simp

/-- Weight reads are unaffected by a weight write to a different layer
or cell. -/
theorem qget_setWeightAt_ne (net : Ann) (j0 i0 : Nat) (v : ℚ) (m i2 : Nat)
    (h : m ≠ j0 ∨ i0 ≠ i2) :
    qget (getLayer (setWeightAt net j0 i0 v) m).weight i2 = qget (getLayer net m).weight i2 := by
  by_cases hm : m = j0
  · subst hm
    have hi : i0 ≠ i2 := h.resolve_left (fun hc => hc rfl)
    by_cases hl : m < LAYERS net
    · unfold setWeightAt
      rw [getLayer_updLayer_self _ _ _ hl]
      exact getD_set_ne _ _ _ _ _ hi
    · unfold setWeightAt
      rw [updLayer_oob _ _ _ (Nat.le_of_not_lt hl)]
  · unfold setWeightAt
    rw [getLayer_updLayer_ne _ _ _ _ hm]

/-- An in-range weight write is read back. -/
theorem qget_setWeightAt_self (net : Ann) (j0 i0 : Nat) (v : ℚ)
    (hj : j0 < LAYERS net) (hi : i0 < (getLayer net j0).weight.length) :
    qget (getLayer (setWeightAt net j0 i0 v) j0).weight i0 = v := by
  unfold setWeightAt
  rw [getLayer_updLayer_self _ _ _ hj]
  exact getD_set_self _ _ _ _ hi

/-- Writing a delta cell changes nothing but that delta array. -/
theorem setDeltaAt_fields (net : Ann) (j0 i0 : Nat) (v : ℚ) (m : Nat) :
    (getLayer (setDeltaAt net j0 i0 v) m).units = (getLayer net m).units ∧
    (getLayer (setDeltaAt net j0 i0 v) m).output = (getLayer net m).output ∧
    (getLayer (setDeltaAt net j0 i0 v) m).error = (getLayer net m).error ∧
    (getLayer (setDeltaAt net j0 i0 v) m).gradient = (getLayer net m).gradient ∧
    (getLayer (setDeltaAt net j0 i0 v) m).pgradient = (getLayer net m).pgradient ∧
    (getLayer (setDeltaAt net j0 i0 v) m).weight = (getLayer net m).weight ∧
    (getLayer (setDeltaAt net j0 i0 v) m).sgradient = (getLayer net m).sgradient ∧
    (getLayer (setDeltaAt net j0 i0 v) m).delta.length = (getLayer net m).delta.length := by
  by_cases hm : m = j0
  · subst hm
    by_cases hl : m < LAYERS net
    · unfold setDeltaAt; rw [getLayer_updLayer_self _ _ _ hl]; simp
    · unfold setDeltaAt; rw [updLayer_oob _ _ _ (Nat.le_of_not_lt hl)]; simp
  · unfold setDeltaAt; rw [getLayer_updLayer_ne _ _ _ _ hm]; simp

/-- Delta reads are unaffected by a delta write to a different layer or
cell. -/
theorem qget_setDeltaAt_ne (net : Ann) (j0 i0 : Nat) (v : ℚ) (m i2 : Nat)
    (h : m ≠ j0 ∨ i0 ≠ i2) :
    qget (getLayer (setDeltaAt net j0 i0 v) m).delta i2 = qget (getLayer net m).delta i2 := by
  by_cases hm : m = j0
  · subst hm
    have hi : i0 ≠ i2 := h.resolve_left (fun hc => hc rfl)
    by_cases hl : m < LAYERS net
    · unfold setDeltaAt
      rw [getLayer_updLayer_self _ _ _ hl]
      exact getD_set_ne _ _ _ _ _ hi
    · unfold setDeltaAt
      rw [updLayer_oob _ _ _ (Nat.le_of_not_lt hl)]
  · unfold setDeltaAt
    rw [getLayer_updLayer_ne _ _ _ _ hm]

/-- An in-range delta write is read back. -/
theorem qget_setDeltaAt_self (net : Ann) (j0 i0 : Nat) (v : ℚ)
    (hj : j0 < LAYERS net) (hi : i0 < (getLayer net j0).delta.length) :
    qget (getLayer (setDeltaAt net j0 i0 v) j0).delta i0 = v := by
  unfold setDeltaAt
  rw [getLayer_updLayer_self _ _ _ hj]
  exact getD_set_self _ _ _ _ hi

/-- Writing a pgradient cell changes nothing but that pgradient
array. -/
theorem setPgradientAt_fields (net : Ann) (j0 i0 : Nat) (v : ℚ) (m : Nat) :
    (getLayer (setPgradientAt net j0 i0 v) m).units = (getLayer net m).units ∧
    (getLayer (setPgradientAt net j0 i0 v) m).output = (getLayer net m).output ∧
    (getLayer (setPgradientAt net j0 i0 v) m).error = (getLayer net m).error ∧
    (getLayer (setPgradientAt net j0 i0 v) m).gradient = (getLayer net m).gradient ∧
    (getLayer (setPgradientAt net j0 i0 v) m).weight = (getLayer net m).weight ∧
    (getLayer (setPgradientAt net j0 i0 v) m).delta = (getLayer net m).delta ∧
    (getLayer (setPgradientAt net j0 i0 v) m).sgradient = (getLayer net m).sgradient ∧
    (getLayer (setPgradientAt net j0 i0 v) m).pgradient.length =
      (getLayer net m).pgradient.length := by
  by_cases hm : m = j0
  · subst hm
    by_cases hl : m < LAYERS net
    · unfold setPgradientAt; rw [getLayer_updLayer_self _ _ _ hl]; simp
    · unfold setPgradientAt; rw [updLayer_oob _ _ _ (Nat.le_of_not_lt hl)]; simp
  · unfold setPgradientAt; rw [getLayer_updLayer_ne _ _ _ _ hm]; simp

/-- Pgradient reads are unaffected by a pgradient write to a different
layer or cell. -/
theorem qget_setPgradientAt_ne (net : Ann) (j0 i0 : Nat) (v : ℚ) (m i2 : Nat)
    (h : m ≠ j0 ∨ i0 ≠ i2) :
    qget (getLayer (setPgradientAt net j0 i0 v) m).pgradient i2 =
      qget (getLayer net m).pgradient i2 := by
  by_cases hm : m = j0
  · subst hm
    have hi : i0 ≠ i2 := h.resolve_left (fun hc => hc rfl)
    by_cases hl : m < LAYERS net
    · unfold setPgradientAt
      rw [getLayer_updLayer_self _ _ _ hl]
      exact getD_set_ne _ _ _ _ _ hi
    · unfold setPgradientAt
      rw [updLayer_oob _ _ _ (Nat.le_of_not_lt hl)]
  · unfold setPgradientAt
    rw [getLayer_updLayer_ne _ _ _ _ hm]

/-- An in-range pgradient write is read back. -/
theorem qget_setPgradientAt_self (net : Ann) (j0 i0 : Nat) (v : ℚ)
    (hj : j0 < LAYERS net) (hi : i0 < (getLayer net j0).pgradient.length) :
    qget (getLayer (setPgradientAt net j0 i0 v) j0).pgradient i0 = v := by
  unfold setPgradientAt
  rw [getLayer_updLayer_self _ _ _ hj]
  exact getD_set_self _ _ _ _ hi

/-- An output write leaves every other layer untouched. -/
theorem getLayer_setOutputAt_ne (net : Ann) (j0 i0 : Nat) (v : ℚ) (m : Nat) (h : m ≠ j0) :
    getLayer (setOutputAt net j0 i0 v) m = getLayer net m := by
  unfold setOutputAt; exact getLayer_updLayer_ne _ _ _ _ h

/-- An error write leaves every other layer untouched. -/
theorem getLayer_setErrorAt_ne (net : Ann) (j0 i0 : Nat) (v : ℚ) (m : Nat) (h : m ≠ j0) :
    getLayer (setErrorAt net j0 i0 v) m = getLayer net m := by
  unfold setErrorAt; exact getLayer_updLayer_ne _ _ _ _ h

/-- A gradient write leaves every other layer untouched. -/
theorem getLayer_setGradientAt_ne (net : Ann) (j0 i0 : Nat) (v : ℚ) (m : Nat) (h : m ≠ j0) :
    getLayer (setGradientAt net j0 i0 v) m = getLayer net m := by
  unfold setGradientAt; exact getLayer_updLayer_ne _ _ _ _ h

/-- A weight write leaves every other layer untouched. -/
theorem getLayer_setWeightAt_ne (net : Ann) (j0 i0 : Nat) (v : ℚ) (m : Nat) (h : m ≠ j0) :
    getLayer (setWeightAt net j0 i0 v) m = getLayer net m := by
  unfold setWeightAt; exact getLayer_updLayer_ne _ _ _ _ h

/-- A delta write leaves every other layer untouched. -/
theorem getLayer_setDeltaAt_ne (net : Ann) (j0 i0 : Nat) (v : ℚ) (m : Nat) (h : m ≠ j0) :
    getLayer (setDeltaAt net j0 i0 v) m = getLayer net m := by
  unfold setDeltaAt; exact getLayer_updLayer_ne _ _ _ _ h

/-- A pgradient write leaves every other layer untouched. -/
theorem getLayer_setPgradientAt_ne (net : Ann) (j0 i0 : Nat) (v : ℚ) (m : Nat) (h : m ≠ j0) :
    getLayer (setPgradientAt net j0 i0 v) m = getLayer net m := by
  unfold setPgradientAt; exact getLayer_updLayer_ne _ _ _ _ h

/-- A layer whose unit count is positive exists, that is lies below the
layer count. -/
theorem lt_LAYERS_of_UNITS_pos (net : Ann) (m : Nat) (h : 0 < UNITS net m) :
    m < LAYERS net := by
  by_contra hc
  have he : getLayer net m = emptyLayer := getD_oob _ _ _ (Nat.le_of_not_lt hc)
  unfold UNITS at h
  rw [he] at h
  exact absurd h (by decide)

/-- The nextunits bound of the simulate step with source i+1, rewritten
as the non-bias slot count of the destination layer i. -/
theorem nwOut_succ_bound (net : Ann) (i : Nat) :
    UNITS net i - (if 1 < i + 1 then 1 else 0) = nwOut net i := by
  unfold nwOut
  congr 1
  exact if_congr (by omega) rfl rfl

/-- Frame of one simulate step with source layer i+1: every layer other
than the destination i is untouched; on layer i all fields except the
output array, and the output length, are untouched, and so is every
output cell at or above the non-bias bound. -/
theorem simStep_frame (sig : ℚ → ℚ) (i : Nat) (net : Ann) :
    (∀ m, m ≠ i → getLayer (simStep sig (i+1) net) m = getLayer net m) ∧
    ((getLayer (simStep sig (i+1) net) i).units = (getLayer net i).units ∧
     (getLayer (simStep sig (i+1) net) i).error = (getLayer net i).error ∧
     (getLayer (simStep sig (i+1) net) i).weight = (getLayer net i).weight ∧
     (getLayer (simStep sig (i+1) net) i).gradient = (getLayer net i).gradient ∧
     (getLayer (simStep sig (i+1) net) i).pgradient = (getLayer net i).pgradient ∧
     (getLayer (simStep sig (i+1) net) i).delta = (getLayer net i).delta ∧
     (getLayer (simStep sig (i+1) net) i).sgradient = (getLayer net i).sgradient ∧
     (getLayer (simStep sig (i+1) net) i).output.length =
       (getLayer net i).output.length) ∧
    (∀ j, nwOut net i ≤ j →
      qget (getLayer (simStep sig (i+1) net) i).output j = qget (getLayer net i).output j) := by
  unfold simStep
  simp only [Nat.add_sub_cancel]
  rw [nwOut_succ_bound]
  refine loopN_inv (fun (b : Ann) =>
    (∀ m, m ≠ i → getLayer b m = getLayer net m) ∧
    ((getLayer b i).units = (getLayer net i).units ∧
     (getLayer b i).error = (getLayer net i).error ∧
     (getLayer b i).weight = (getLayer net i).weight ∧
     (getLayer b i).gradient = (getLayer net i).gradient ∧
     (getLayer b i).pgradient = (getLayer net i).pgradient ∧
     (getLayer b i).delta = (getLayer net i).delta ∧
     (getLayer b i).sgradient = (getLayer net i).sgradient ∧
     (getLayer b i).output.length = (getLayer net i).output.length) ∧
    (∀ j, nwOut net i ≤ j → qget (getLayer b i).output j = qget (getLayer net i).output j))
    _ _ _ ⟨fun _ _ => rfl, ⟨rfl, rfl, rfl, rfl, rfl, rfl, rfl, rfl⟩, fun _ _ => rfl⟩ ?_
  intro i2 b hi2 hb
  obtain ⟨hne, hfl, hun⟩ := hb
  refine ⟨?_, ?_, ?_⟩
  · intro m hm
    rw [getLayer_setOutputAt_ne _ _ _ _ m hm]
    exact hne m hm
  · have hf := setOutputAt_fields b i i2 (sig (simActivation (getLayer b (i+1)) i2)) i
    exact ⟨hf.1.trans hfl.1, hf.2.1.trans hfl.2.1, hf.2.2.1.trans hfl.2.2.1,
      hf.2.2.2.1.trans hfl.2.2.2.1, hf.2.2.2.2.1.trans hfl.2.2.2.2.1,
      hf.2.2.2.2.2.1.trans hfl.2.2.2.2.2.1, hf.2.2.2.2.2.2.1.trans hfl.2.2.2.2.2.2.1,
      hf.2.2.2.2.2.2.2.trans hfl.2.2.2.2.2.2.2⟩
  · intro j hj
    rw [qget_setOutputAt_ne b i i2 _ i j (Or.inr (by omega))]
    exact hun j hj

/-- All fields except the written output cells are preserved by one
simulate step, at every layer index. -/
theorem simStep_fields (sig : ℚ → ℚ) (i : Nat) (net : Ann) (m : Nat) :
    (getLayer (simStep sig (i+1) net) m).units = (getLayer net m).units ∧
    (getLayer (simStep sig (i+1) net) m).error = (getLayer net m).error ∧
    (getLayer (simStep sig (i+1) net) m).weight = (getLayer net m).weight ∧
    (getLayer (simStep sig (i+1) net) m).gradient = (getLayer net m).gradient ∧
    (getLayer (simStep sig (i+1) net) m).pgradient = (getLayer net m).pgradient ∧
    (getLayer (simStep sig (i+1) net) m).delta = (getLayer net m).delta ∧
    (getLayer (simStep sig (i+1) net) m).sgradient = (getLayer net m).sgradient ∧
    (getLayer (simStep sig (i+1) net) m).output.length = (getLayer net m).output.length := by
  by_cases hm : m = i
  · subst hm; exact (simStep_frame sig m net).2.1
  · rw [(simStep_frame sig i net).1 m hm]
    exact ⟨rfl, rfl, rfl, rfl, rfl, rfl, rfl, rfl⟩

/-- One simulate step writes output cell j of the destination layer i
with sigmoid of the activation of the source layer i+1, for every j
below the non-bias bound, provided the output array is long enough. -/
theorem simStep_written (sig : ℚ → ℚ) (i : Nat) (net : Ann)
    (hlen : nwOut net i ≤ (getLayer net i).output.length) :
    ∀ j, j < nwOut net i →
      qget (getLayer (simStep sig (i+1) net) i).output j =
        sig (simActivation (getLayer net (i+1)) j) := by
  unfold simStep
  simp only [Nat.add_sub_cancel]
  rw [nwOut_succ_bound]
  have key := loopN_write_once (fun (b : Ann) (j : Nat) => qget (getLayer b i).output j)
    (fun (b : Ann) => getLayer b (i+1) = getLayer net (i+1) ∧
      (getLayer b i).output.length = (getLayer net i).output.length ∧
      LAYERS b = LAYERS net)
    (nwOut net i)
    (fun j acc => setOutputAt acc i j (sig (simActivation (getLayer acc (i+1)) j)))
    net (fun j => sig (simActivation (getLayer net (i+1)) j))
    ⟨rfl, rfl, rfl⟩ ?_
  · exact fun j hj => (key.2.1) j hj
  · intro i2 b hi2 hb _
    obtain ⟨hsrc, hol, hLb⟩ := hb
    have hiL : i < LAYERS net :=
      lt_LAYERS_of_UNITS_pos net i (by unfold nwOut at hi2; omega)
    refine ⟨⟨?_, ?_, ?_⟩, ?_, ?_⟩
    · rw [getLayer_setOutputAt_ne _ _ _ _ _ (by omega)]
      exact hsrc
    · exact (setOutputAt_fields b i i2 _ i).2.2.2.2.2.2.2.trans hol
    · unfold setOutputAt
      rw [LAYERS_updLayer]
      exact hLb
    · simp only []
      rw [hsrc]
      exact qget_setOutputAt_self b i i2 _ (by omega) (by omega)
    · intro m hm
      exact qget_setOutputAt_ne b i i2 _ i m (Or.inr (fun e => hm e.symm))

/-- The layers at or above the remaining source index are never touched
by the simulate loop. -/
theorem simLoop_frame_ge (sig : ℚ → ℚ) : ∀ (i : Nat) (net : Ann) (m : Nat), i ≤ m →
    getLayer (simLoop sig net i) m = getLayer net m
  | 0, _, _, _ => rfl
  | i + 1, net, m, h => by
    show getLayer (simLoop sig (simStep sig (i+1) net) i) m = _
    rw [simLoop_frame_ge sig i _ m (by omega)]
    exact (simStep_frame sig i net).1 m (by omega)

/-- The simulate loop keeps the shape. -/
theorem sameShape_simLoop (sig : ℚ → ℚ) : ∀ (i : Nat) (net : Ann),
    sameShape (simLoop sig net i) net
  | 0, net => sameShape_refl net
  | i + 1, net =>
    sameShape_trans (sameShape_simLoop sig i _) (sameShape_simStep sig (i+1) net)

/-- All fields except the output arrays, and all output lengths, are
preserved by the simulate loop at every layer. -/
theorem simLoop_fields (sig : ℚ → ℚ) : ∀ (i : Nat) (net : Ann) (m : Nat),
    (getLayer (simLoop sig net i) m).units = (getLayer net m).units ∧
    (getLayer (simLoop sig net i) m).error = (getLayer net m).error ∧
    (getLayer (simLoop sig net i) m).weight = (getLayer net m).weight ∧
    (getLayer (simLoop sig net i) m).gradient = (getLayer net m).gradient ∧
    (getLayer (simLoop sig net i) m).pgradient = (getLayer net m).pgradient ∧
    (getLayer (simLoop sig net i) m).delta = (getLayer net m).delta ∧
    (getLayer (simLoop sig net i) m).sgradient = (getLayer net m).sgradient ∧
    (getLayer (simLoop sig net i) m).output.length = (getLayer net m).output.length
  | 0, _, _ => ⟨rfl, rfl, rfl, rfl, rfl, rfl, rfl, rfl⟩
  | i + 1, net, m => by
    have h1 := simLoop_fields sig i (simStep sig (i+1) net) m
    have h2 := simStep_fields sig i net m
    exact ⟨h1.1.trans h2.1, h1.2.1.trans h2.2.1, h1.2.2.1.trans h2.2.2.1,
      h1.2.2.2.1.trans h2.2.2.2.1, h1.2.2.2.2.1.trans h2.2.2.2.2.1,
      h1.2.2.2.2.2.1.trans h2.2.2.2.2.2.1, h1.2.2.2.2.2.2.1.trans h2.2.2.2.2.2.2.1,
      h1.2.2.2.2.2.2.2.trans h2.2.2.2.2.2.2.2⟩

/-- The output cells the simulate loop never writes: every cell of a
layer at or above the remaining source index, and every cell at or
above the non-bias bound of a destination layer. -/
theorem simLoop_unwritten (sig : ℚ → ℚ) : ∀ (i : Nat) (net : Ann) (m j : Nat),
    (m < i → nwOut net m ≤ j) →
    qget (getLayer (simLoop sig net i) m).output j = qget (getLayer net m).output j
  | 0, _, _, _, _ => rfl
  | i + 1, net, m, j, h => by
    show qget (getLayer (simLoop sig (simStep sig (i+1) net) i) m).output j = _
    have hnw : nwOut (simStep sig (i+1) net) m = nwOut net m := by
      unfold nwOut UNITS
      rw [(simStep_fields sig i net m).1]
    rw [simLoop_unwritten sig i _ m j (fun hmi => by rw [hnw]; exact h (by omega))]
    by_cases hm : m = i
    · subst hm
      exact (simStep_frame sig m net).2.2 j (h (by omega))
    · rw [(simStep_frame sig i net).1 m hm]

/-- The output cells the simulate loop writes: cell j of destination
layer m below the remaining source index holds sigmoid of the
activation of the source layer m+1 against the final state, for every
j below the non-bias bound, provided all output arrays have their
declared lengths. -/
theorem simLoop_written (sig : ℚ → ℚ) : ∀ (i : Nat) (net : Ann),
    (∀ m, (getLayer net m).output.length = UNITS net m) →
    ∀ m, m < i → ∀ j, j < nwOut net m →
      qget (getLayer (simLoop sig net i) m).output j =
        sig (simActivation (getLayer (simLoop sig net i) (m+1)) j)
  | 0, _, _, _, hmi, _, _ => absurd hmi (Nat.not_lt_zero _)
  | i + 1, net, hlen, m, hmi, j, hj => by
    have hlen2 : ∀ m2, (getLayer (simStep sig (i+1) net) m2).output.length =
        UNITS (simStep sig (i+1) net) m2 := by
      intro m2
      have hf := simStep_fields sig i net m2
      unfold UNITS
      rw [hf.2.2.2.2.2.2.2, hf.1]
      exact hlen m2
    by_cases hm : m = i
    · subst hm
      show qget (getLayer (simLoop sig (simStep sig (m+1) net) m) m).output j =
        sig (simActivation (getLayer (simLoop sig (simStep sig (m+1) net) m) (m+1)) j)
      rw [simLoop_frame_ge sig m _ m le_rfl, simLoop_frame_ge sig m _ (m+1) (by omega)]
      rw [(simStep_frame sig m net).1 (m+1) (by omega)]
      refine simStep_written sig m net ?_ j hj
      rw [hlen m]
      exact Nat.sub_le _ _
    · have hnw : nwOut (simStep sig (i+1) net) m = nwOut net m := by
        unfold nwOut UNITS
        rw [(simStep_fields sig i net m).1]
      have := simLoop_written sig i (simStep sig (i+1) net) hlen2 m (by omega) j
        (by rw [hnw]; exact hj)
      exact this

/-- Layers agreeing on all eight fields are equal. -/
theorem annLayerExt {a b : AnnLayer} (h1 : a.units = b.units) (h2 : a.output = b.output)
    (h3 : a.error = b.error) (h4 : a.weight = b.weight) (h5 : a.gradient = b.gradient)
    (h6 : a.pgradient = b.pgradient) (h7 : a.delta = b.delta)
    (h8 : a.sgradient = b.sgradient) : a = b := by
  cases a; cases b
  simp only [AnnLayer.mk.injEq]
  exact ⟨h1, h2, h3, h4, h5, h6, h7, h8⟩

/-- Nets agreeing on all fields are equal. -/
theorem annExt {a b : Ann} (h1 : a.flags = b.flags) (h2 : a.learn_rate = b.learn_rate)
    (h3 : a.rprop_nminus = b.rprop_nminus) (h4 : a.rprop_nplus = b.rprop_nplus)
    (h5 : a.rprop_maxupdate = b.rprop_maxupdate) (h6 : a.rprop_minupdate = b.rprop_minupdate)
    (h7 : a.layer = b.layer) : a = b := by
  cases a; cases b
  simp only [Ann.mk.injEq]
  exact ⟨h1, h2, h3, h4, h5, h6, h7⟩

/-- Well-formed nets have output arrays of their declared lengths at
every index (beyond the layer count both sides are zero). -/
theorem wf_output_len (net : Ann) (hwf : WfAnn net) :
    ∀ m, (getLayer net m).output.length = UNITS net m := by
  intro m
  by_cases h : m < LAYERS net
  · exact (hwf m h).1
  · have he : getLayer net m = emptyLayer := getD_oob _ _ _ (Nat.le_of_not_lt h)
    unfold UNITS
    rw [he]
    rfl

/-- The full characterisation of AnnSimulate, from the loop lemmas. -/
theorem annSimulate_spec (sig : ℚ → ℚ) (net : Ann)
    (hlen : ∀ m, (getLayer net m).output.length = UNITS net m) :
    simCharacterizationAt sig net (AnnSimulate sig net) := by
  unfold simCharacterizationAt AnnSimulate
  obtain ⟨hL, hfl, hlr, hnm, hnp, hmx, hmn⟩ := sameShape_simLoop sig (LAYERS net - 1) net
  refine ⟨hL, hfl, hlr, hnm, hnp, hmx, hmn, ?_, ?_, ?_, ?_⟩
  · intro m
    exact simLoop_fields sig (LAYERS net - 1) net m
  · intro m hm
    exact simLoop_frame_ge sig _ net m hm
  · intro m j hj
    apply simLoop_unwritten
    intro hmi
    unfold simWritten at hj
    rw [if_pos hmi] at hj
    exact hj
  · intro m hm j hj
    have hj2 : j < nwOut net m := by
      unfold simWritten at hj
      rw [if_pos hm] at hj
      exact hj
    exact simLoop_written sig _ net hlen m hm j hj2

/-- Amended claim C3: on every well-formed network, AnnSimulate
processes layers strictly output-ward and writes each non-bias output
slot of destination layer m with sigmoid of the dot product of the
corresponding weight row of the source layer m+1 with the current
output vector of that same source layer m+1 (the claim as stated reads
the vector off the destination layer instead); bias outputs are never
overwritten and only output arrays of non-input layers change. -/
theorem claimC3Amended (sig : ℚ → ℚ) (net : Ann) (hwf : WfAnn net) :
    simCharacterizationAt sig net (AnnSimulate sig net) :=
  annSimulate_spec sig net (wf_output_len net hwf)

/-- Witness for the amended claim C3 on the concrete three layer
network. -/
theorem claimC3Witness :
    simCharacterizationAt sigmoidModel exNet3 (AnnSimulate sigmoidModel exNet3) :=
  claimC3Amended sigmoidModel exNet3 (by decide)

/-- Claim C9: on every well-formed network, simulating twice in a row
produces exactly the state of simulating once. -/
theorem claimC9SimulateIdempotent (sig : ℚ → ℚ) (net : Ann) (hwf : WfAnn net) :
    AnnSimulate sig (AnnSimulate sig net) = AnnSimulate sig net := by
  have hlen1 : ∀ m, (getLayer net m).output.length = UNITS net m := wf_output_len net hwf
  unfold AnnSimulate
  have hL1 : LAYERS (simLoop sig net (LAYERS net - 1)) = LAYERS net :=
    (sameShape_simLoop sig (LAYERS net - 1) net).1
  rw [hL1]
  set S1 := simLoop sig net (LAYERS net - 1) with hS1def
  have hlen2 : ∀ m, (getLayer S1 m).output.length = UNITS S1 m := by
    intro m
    have hf := simLoop_fields sig (LAYERS net - 1) net m
    show (getLayer S1 m).output.length = (getLayer S1 m).units
    rw [hS1def, hf.2.2.2.2.2.2.2, hf.1]
    exact hlen1 m
  have key : ∀ n m, LAYERS net - 1 - m ≤ n →
      getLayer (simLoop sig S1 (LAYERS net - 1)) m = getLayer S1 m := by
    intro n
    induction n with
    | zero =>
      intro m hm
      exact simLoop_frame_ge sig _ _ m (by omega)
    | succ n ih =>
      intro m hm
      by_cases hge : LAYERS net - 1 ≤ m
      · exact simLoop_frame_ge sig _ _ m hge
      · have hmlt : m < LAYERS net - 1 := by omega
        have hf2 := simLoop_fields sig (LAYERS net - 1) S1 m
        have hnw : nwOut S1 m = nwOut net m := by
          unfold nwOut UNITS
          rw [hS1def, (simLoop_fields sig (LAYERS net - 1) net m).1]
        refine annLayerExt hf2.1 ?_ hf2.2.1 hf2.2.2.1 hf2.2.2.2.1 hf2.2.2.2.2.1
          hf2.2.2.2.2.2.1 hf2.2.2.2.2.2.2.1
        apply list_ext_getD 0 _ _ hf2.2.2.2.2.2.2.2
        intro j hjlen
        by_cases hw : j < nwOut net m
        · have e2 := simLoop_written sig (LAYERS net - 1) S1 hlen2 m
            hmlt j (by rw [hnw]; exact hw)
          have e1 : qget (getLayer S1 m).output j =
              sig (simActivation (getLayer S1 (m+1)) j) := by
            rw [hS1def]
            exact simLoop_written sig (LAYERS net - 1) net hlen1 m hmlt j hw
          show qget _ j = qget _ j
          rw [e2, e1, ih (m+1) (by omega)]
        · show qget _ j = qget _ j
          exact simLoop_unwritten sig _ _ m j (fun _ => by rw [hnw]; omega)
  obtain ⟨sL, sf, slr, snm, snp, smx, smn⟩ :=
    sameShape_simLoop sig (LAYERS net - 1) S1
  refine annExt sf slr snm snp smx smn ?_
  apply list_ext_getD emptyLayer _ _ ?hlen
  case hlen =>
    show LAYERS _ = LAYERS _
    exact sL
  intro m hmlen
  exact key (LAYERS net - 1) m (by omega)

/-- Witness for claim C9 on the concrete three layer network. -/
theorem claimC9Witness :
    AnnSimulate sigmoidModel (AnnSimulate sigmoidModel exNet3) =
      AnnSimulate sigmoidModel exNet3 :=
  claimC9SimulateIdempotent sigmoidModel exNet3 (by decide)

/-- A weight write keeps the shape. -/
theorem sameShape_setWeightAt (net : Ann) (j i : Nat) (v : ℚ) :
    sameShape (setWeightAt net j i v) net := by
  unfold setWeightAt; exact sameShape_updLayer _ _ _

/-- A delta write keeps the shape. -/
theorem sameShape_setDeltaAt (net : Ann) (j i : Nat) (v : ℚ) :
    sameShape (setDeltaAt net j i v) net := by
  unfold setDeltaAt; exact sameShape_updLayer _ _ _

/-- A pgradient write keeps the shape. -/
theorem sameShape_setPgradientAt (net : Ann) (j i : Nat) (v : ℚ) :
    sameShape (setPgradientAt net j i v) net := by
  unfold setPgradientAt; exact sameShape_updLayer _ _ _

/-- An error write keeps the shape. -/
theorem sameShape_setErrorAt (net : Ann) (j i : Nat) (v : ℚ) :
    sameShape (setErrorAt net j i v) net := by
  unfold setErrorAt; exact sameShape_updLayer _ _ _

/-- A gradient write keeps the shape. -/
theorem sameShape_setGradientAt (net : Ann) (j i : Nat) (v : ℚ) :
    sameShape (setGradientAt net j i v) net := by
  unfold setGradientAt; exact sameShape_updLayer _ _ _

/-- Frame of the weight, delta, pgradient write triple of one RPROP
branch: other layers, the other fields of layer j, the three array
lengths and the shape are untouched. -/
theorem tripleSet_frame (net : Ann) (j i : Nat) (W D P : ℚ) :
    (∀ m, m ≠ j →
      getLayer (setPgradientAt (setDeltaAt (setWeightAt net j i W) j i D) j i P) m =
        getLayer net m) ∧
    (getLayer (setPgradientAt (setDeltaAt (setWeightAt net j i W) j i D) j i P) j).units =
      (getLayer net j).units ∧
    (getLayer (setPgradientAt (setDeltaAt (setWeightAt net j i W) j i D) j i P) j).output =
      (getLayer net j).output ∧
    (getLayer (setPgradientAt (setDeltaAt (setWeightAt net j i W) j i D) j i P) j).error =
      (getLayer net j).error ∧
    (getLayer (setPgradientAt (setDeltaAt (setWeightAt net j i W) j i D) j i P) j).gradient =
      (getLayer net j).gradient ∧
    (getLayer (setPgradientAt (setDeltaAt (setWeightAt net j i W) j i D) j i P) j).sgradient =
      (getLayer net j).sgradient ∧
    (getLayer (setPgradientAt (setDeltaAt (setWeightAt net j i W) j i D) j i P)
        j).weight.length = (getLayer net j).weight.length ∧
    (getLayer (setPgradientAt (setDeltaAt (setWeightAt net j i W) j i D) j i P)
        j).delta.length = (getLayer net j).delta.length ∧
    (getLayer (setPgradientAt (setDeltaAt (setWeightAt net j i W) j i D) j i P)
        j).pgradient.length = (getLayer net j).pgradient.length ∧
    sameShape (setPgradientAt (setDeltaAt (setWeightAt net j i W) j i D) j i P) net := by
  have f1 := setWeightAt_fields net j i W
  have f2 := setDeltaAt_fields (setWeightAt net j i W) j i D
  have f3 := setPgradientAt_fields (setDeltaAt (setWeightAt net j i W) j i D) j i P
  refine ⟨?_, ?_, ?_, ?_, ?_, ?_, ?_, ?_, ?_, ?_⟩
  · intro m hm
    rw [getLayer_setPgradientAt_ne _ _ _ _ m hm, getLayer_setDeltaAt_ne _ _ _ _ m hm,
      getLayer_setWeightAt_ne _ _ _ _ m hm]
  · rw [(f3 j).1, (f2 j).1, (f1 j).1]
  · rw [(f3 j).2.1, (f2 j).2.1, (f1 j).2.1]
  · rw [(f3 j).2.2.1, (f2 j).2.2.1, (f1 j).2.2.1]
  · rw [(f3 j).2.2.2.1, (f2 j).2.2.2.1, (f1 j).2.2.2.1]
  · rw [(f3 j).2.2.2.2.2.2.1, (f2 j).2.2.2.2.2.2.1, (f1 j).2.2.2.2.2.2.1]
  · rw [(f3 j).2.2.2.2.1]
    have := congrArg List.length (f2 j).2.2.2.2.2.1
    rw [this]
    exact (f1 j).2.2.2.2.2.2.2
  · have := congrArg List.length (f3 j).2.2.2.2.2.1
    rw [this, (f2 j).2.2.2.2.2.2.2]
    exact congrArg List.length (f1 j).2.2.2.2.2.1
  · rw [(f3 j).2.2.2.2.2.2.2]
    have h2 := congrArg List.length (f2 j).2.2.2.2.1
    rw [h2]
    exact congrArg List.length (f1 j).2.2.2.2.1
  · exact sameShape_trans (sameShape_setPgradientAt _ _ _ _)
      (sameShape_trans (sameShape_setDeltaAt _ _ _ _) (sameShape_setWeightAt _ _ _ _))

/-- The three written cells of one full RPROP branch read back their
values. -/
theorem tripleSet_cells (net : Ann) (j i : Nat) (W D P : ℚ) (hj : j < LAYERS net)
    (hw : i < (getLayer net j).weight.length) (hd : i < (getLayer net j).delta.length)
    (hp : i < (getLayer net j).pgradient.length) :
    qget (getLayer (setPgradientAt (setDeltaAt (setWeightAt net j i W) j i D) j i P)
        j).weight i = W ∧
    qget (getLayer (setPgradientAt (setDeltaAt (setWeightAt net j i W) j i D) j i P)
        j).delta i = D ∧
    qget (getLayer (setPgradientAt (setDeltaAt (setWeightAt net j i W) j i D) j i P)
        j).pgradient i = P := by
  have f1 := setWeightAt_fields net j i W
  have f2 := setDeltaAt_fields (setWeightAt net j i W) j i D
  have f3 := setPgradientAt_fields (setDeltaAt (setWeightAt net j i W) j i D) j i P
  have hL1 : LAYERS (setWeightAt net j i W) = LAYERS net := (sameShape_setWeightAt net j i W).1
  have hL2 : LAYERS (setDeltaAt (setWeightAt net j i W) j i D) = LAYERS net :=
    ((sameShape_setDeltaAt _ j i D).1).trans hL1
  refine ⟨?_, ?_, ?_⟩
  · rw [(f3 j).2.2.2.2.1, (f2 j).2.2.2.2.2.1]
    exact qget_setWeightAt_self net j i W hj hw
  · rw [(f3 j).2.2.2.2.2.1]
    refine qget_setDeltaAt_self _ j i D (by omega) ?_
    rw [congrArg List.length (f1 j).2.2.2.2.2.1]
    exact hd
  · refine qget_setPgradientAt_self _ j i P (by omega) ?_
    rw [congrArg List.length (f2 j).2.2.2.2.1, congrArg List.length (f1 j).2.2.2.2.1]
    exact hp

/-- The cells one full RPROP branch does not write keep their
values. -/
theorem tripleSet_cellsNe (net : Ann) (j i : Nat) (W D P : ℚ) (i2 : Nat) (h : i ≠ i2) :
    qget (getLayer (setPgradientAt (setDeltaAt (setWeightAt net j i W) j i D) j i P)
        j).weight i2 = qget (getLayer net j).weight i2 ∧
    qget (getLayer (setPgradientAt (setDeltaAt (setWeightAt net j i W) j i D) j i P)
        j).delta i2 = qget (getLayer net j).delta i2 ∧
    qget (getLayer (setPgradientAt (setDeltaAt (setWeightAt net j i W) j i D) j i P)
        j).pgradient i2 = qget (getLayer net j).pgradient i2 := by
  have f2 := setDeltaAt_fields (setWeightAt net j i W) j i D
  have f3 := setPgradientAt_fields (setDeltaAt (setWeightAt net j i W) j i D) j i P
  refine ⟨?_, ?_, ?_⟩
  · rw [(f3 j).2.2.2.2.1, (f2 j).2.2.2.2.2.1]
    exact qget_setWeightAt_ne net j i W j i2 (Or.inr h)
  · rw [(f3 j).2.2.2.2.2.1]
    rw [qget_setDeltaAt_ne _ j i D j i2 (Or.inr h)]
    rw [(setWeightAt_fields net j i W j).2.2.2.2.2.1]
  · rw [qget_setPgradientAt_ne _ j i P j i2 (Or.inr h)]
    rw [(f2 j).2.2.2.2.1, (setWeightAt_fields net j i W j).2.2.2.2.1]

/-- Frame of the weight and pgradient write pair of the neutral RPROP
branch. -/
theorem doubleSet_frame (net : Ann) (j i : Nat) (W P : ℚ) :
    (∀ m, m ≠ j →
      getLayer (setPgradientAt (setWeightAt net j i W) j i P) m = getLayer net m) ∧
    (getLayer (setPgradientAt (setWeightAt net j i W) j i P) j).units =
      (getLayer net j).units ∧
    (getLayer (setPgradientAt (setWeightAt net j i W) j i P) j).output =
      (getLayer net j).output ∧
    (getLayer (setPgradientAt (setWeightAt net j i W) j i P) j).error =
      (getLayer net j).error ∧
    (getLayer (setPgradientAt (setWeightAt net j i W) j i P) j).gradient =
      (getLayer net j).gradient ∧
    (getLayer (setPgradientAt (setWeightAt net j i W) j i P) j).sgradient =
      (getLayer net j).sgradient ∧
    (getLayer (setPgradientAt (setWeightAt net j i W) j i P) j).weight.length =
      (getLayer net j).weight.length ∧
    (getLayer (setPgradientAt (setWeightAt net j i W) j i P) j).delta.length =
      (getLayer net j).delta.length ∧
    (getLayer (setPgradientAt (setWeightAt net j i W) j i P) j).pgradient.length =
      (getLayer net j).pgradient.length ∧
    sameShape (setPgradientAt (setWeightAt net j i W) j i P) net := by
  have f1 := setWeightAt_fields net j i W
  have f3 := setPgradientAt_fields (setWeightAt net j i W) j i P
  refine ⟨?_, ?_, ?_, ?_, ?_, ?_, ?_, ?_, ?_, ?_⟩
  · intro m hm
    rw [getLayer_setPgradientAt_ne _ _ _ _ m hm, getLayer_setWeightAt_ne _ _ _ _ m hm]
  · rw [(f3 j).1, (f1 j).1]
  · rw [(f3 j).2.1, (f1 j).2.1]
  · rw [(f3 j).2.2.1, (f1 j).2.2.1]
  · rw [(f3 j).2.2.2.1, (f1 j).2.2.2.1]
  · rw [(f3 j).2.2.2.2.2.2.1, (f1 j).2.2.2.2.2.2.1]
  · rw [(f3 j).2.2.2.2.1]
    exact (f1 j).2.2.2.2.2.2.2
  · rw [(f3 j).2.2.2.2.2.1]
    exact congrArg List.length (f1 j).2.2.2.2.2.1
  · rw [(f3 j).2.2.2.2.2.2.2]
    exact congrArg List.length (f1 j).2.2.2.2.1
  · exact sameShape_trans (sameShape_setPgradientAt _ _ _ _) (sameShape_setWeightAt _ _ _ _)

/-- The two written cells of the neutral RPROP branch read back their
values, while its delta cell is untouched. -/
theorem doubleSet_cells (net : Ann) (j i : Nat) (W P : ℚ) (hj : j < LAYERS net)
    (hw : i < (getLayer net j).weight.length)
    (hp : i < (getLayer net j).pgradient.length) :
    qget (getLayer (setPgradientAt (setWeightAt net j i W) j i P) j).weight i = W ∧
    qget (getLayer (setPgradientAt (setWeightAt net j i W) j i P) j).delta i =
      qget (getLayer net j).delta i ∧
    qget (getLayer (setPgradientAt (setWeightAt net j i W) j i P) j).pgradient i = P := by
  have f1 := setWeightAt_fields net j i W
  have f3 := setPgradientAt_fields (setWeightAt net j i W) j i P
  refine ⟨?_, ?_, ?_⟩
  · rw [(f3 j).2.2.2.2.1]
    exact qget_setWeightAt_self net j i W hj hw
  · rw [(f3 j).2.2.2.2.2.1, (f1 j).2.2.2.2.2.1]
  · refine qget_setPgradientAt_self _ j i P (by rw [(sameShape_setWeightAt net j i W).1]; omega) ?_
    rw [congrArg List.length (f1 j).2.2.2.2.1]
    exact hp

/-- The cells the neutral RPROP branch does not write keep their
values. -/
theorem doubleSet_cellsNe (net : Ann) (j i : Nat) (W P : ℚ) (i2 : Nat) (h : i ≠ i2) :
    qget (getLayer (setPgradientAt (setWeightAt net j i W) j i P) j).weight i2 =
      qget (getLayer net j).weight i2 ∧
    qget (getLayer (setPgradientAt (setWeightAt net j i W) j i P) j).delta i2 =
      qget (getLayer net j).delta i2 ∧
    qget (getLayer (setPgradientAt (setWeightAt net j i W) j i P) j).pgradient i2 =
      qget (getLayer net j).pgradient i2 := by
  have f1 := setWeightAt_fields net j i W
  have f3 := setPgradientAt_fields (setWeightAt net j i W) j i P
  refine ⟨?_, ?_, ?_⟩
  · rw [(f3 j).2.2.2.2.1]
    exact qget_setWeightAt_ne net j i W j i2 (Or.inr h)
  · rw [(f3 j).2.2.2.2.2.1, (f1 j).2.2.2.2.2.1]
  · rw [qget_setPgradientAt_ne _ j i P j i2 (Or.inr h)]
    rw [(f1 j).2.2.2.2.1]

/-- One RPROP weight step implements the RPROP rule on cell i of layer
j, in every branch. -/
theorem rpropWeightStep_spec (net : Ann) (j i : Nat) (hj : j < LAYERS net)
    (hw : i < (getLayer net j).weight.length) (hd : i < (getLayer net j).delta.length)
    (hp : i < (getLayer net j).pgradient.length) :
    (qget (getLayer (rpropWeightStep net j i) j).weight i,
     qget (getLayer (rpropWeightStep net j i) j).delta i,
     qget (getLayer (rpropWeightStep net j i) j).pgradient i) =
      rpropRule net.rprop_nplus net.rprop_nminus net.rprop_maxupdate net.rprop_minupdate
        (qget (getLayer net j).weight i) (qget (getLayer net j).pgradient i)
        (qget (getLayer net j).sgradient i) (qget (getLayer net j).delta i) := by
  simp only [rpropWeightStep, rpropRule]
  split_ifs with h1 h2
  · refine Prod.ext ?_ (Prod.ext ?_ ?_)
    · exact (tripleSet_cells net j i _ _ _ hj hw hd hp).1
    · exact (tripleSet_cells net j i _ _ _ hj hw hd hp).2.1
    · exact (tripleSet_cells net j i _ _ _ hj hw hd hp).2.2
  · refine Prod.ext ?_ (Prod.ext ?_ ?_)
    · exact (tripleSet_cells net j i _ _ _ hj hw hd hp).1
    · exact (tripleSet_cells net j i _ _ _ hj hw hd hp).2.1
    · exact (tripleSet_cells net j i _ _ _ hj hw hd hp).2.2
  · refine Prod.ext ?_ (Prod.ext ?_ ?_)
    · exact (doubleSet_cells net j i _ _ hj hw hp).1
    · exact (doubleSet_cells net j i _ _ hj hw hp).2.1
    · exact (doubleSet_cells net j i _ _ hj hw hp).2.2

/-- Frame of one RPROP weight step: other layers, the untouched fields
of layer j, the three array lengths, the shape and the other cells of
the three arrays keep their values. -/
theorem rpropWeightStep_frame (net : Ann) (j i : Nat) :
    (∀ m, m ≠ j → getLayer (rpropWeightStep net j i) m = getLayer net m) ∧
    (getLayer (rpropWeightStep net j i) j).units = (getLayer net j).units ∧
    (getLayer (rpropWeightStep net j i) j).output = (getLayer net j).output ∧
    (getLayer (rpropWeightStep net j i) j).error = (getLayer net j).error ∧
    (getLayer (rpropWeightStep net j i) j).gradient = (getLayer net j).gradient ∧
    (getLayer (rpropWeightStep net j i) j).sgradient = (getLayer net j).sgradient ∧
    (getLayer (rpropWeightStep net j i) j).weight.length =
      (getLayer net j).weight.length ∧
    (getLayer (rpropWeightStep net j i) j).delta.length =
      (getLayer net j).delta.length ∧
    (getLayer (rpropWeightStep net j i) j).pgradient.length =
      (getLayer net j).pgradient.length ∧
    sameShape (rpropWeightStep net j i) net ∧
    (∀ i2, i ≠ i2 →
      qget (getLayer (rpropWeightStep net j i) j).weight i2 =
        qget (getLayer net j).weight i2 ∧
      qget (getLayer (rpropWeightStep net j i) j).delta i2 =
        qget (getLayer net j).delta i2 ∧
      qget (getLayer (rpropWeightStep net j i) j).pgradient i2 =
        qget (getLayer net j).pgradient i2) := by
  simp only [rpropWeightStep]
  split_ifs with h1 h2
  · refine ⟨?_, ?_, ?_, ?_, ?_, ?_, ?_, ?_, ?_, ?_, ?_⟩
    · exact (tripleSet_frame net j i _ _ _).1
    · exact (tripleSet_frame net j i _ _ _).2.1
    · exact (tripleSet_frame net j i _ _ _).2.2.1
    · exact (tripleSet_frame net j i _ _ _).2.2.2.1
    · exact (tripleSet_frame net j i _ _ _).2.2.2.2.1
    · exact (tripleSet_frame net j i _ _ _).2.2.2.2.2.1
    · exact (tripleSet_frame net j i _ _ _).2.2.2.2.2.2.1
    · exact (tripleSet_frame net j i _ _ _).2.2.2.2.2.2.2.1
    · exact (tripleSet_frame net j i _ _ _).2.2.2.2.2.2.2.2.1
    · exact (tripleSet_frame net j i _ _ _).2.2.2.2.2.2.2.2.2
    · intro i2 h
      exact tripleSet_cellsNe net j i _ _ _ i2 h
  · refine ⟨?_, ?_, ?_, ?_, ?_, ?_, ?_, ?_, ?_, ?_, ?_⟩
    · exact (tripleSet_frame net j i _ _ _).1
    · exact (tripleSet_frame net j i _ _ _).2.1
    · exact (tripleSet_frame net j i _ _ _).2.2.1
    · exact (tripleSet_frame net j i _ _ _).2.2.2.1
    · exact (tripleSet_frame net j i _ _ _).2.2.2.2.1
    · exact (tripleSet_frame net j i _ _ _).2.2.2.2.2.1
    · exact (tripleSet_frame net j i _ _ _).2.2.2.2.2.2.1
    · exact (tripleSet_frame net j i _ _ _).2.2.2.2.2.2.2.1
    · exact (tripleSet_frame net j i _ _ _).2.2.2.2.2.2.2.2.1
    · exact (tripleSet_frame net j i _ _ _).2.2.2.2.2.2.2.2.2
    · intro i2 h
      exact tripleSet_cellsNe net j i _ _ _ i2 h
  · refine ⟨?_, ?_, ?_, ?_, ?_, ?_, ?_, ?_, ?_, ?_, ?_⟩
    · exact (doubleSet_frame net j i _ _).1
    · exact (doubleSet_frame net j i _ _).2.1
    · exact (doubleSet_frame net j i _ _).2.2.1
    · exact (doubleSet_frame net j i _ _).2.2.2.1
    · exact (doubleSet_frame net j i _ _).2.2.2.2.1
    · exact (doubleSet_frame net j i _ _).2.2.2.2.2.1
    · exact (doubleSet_frame net j i _ _).2.2.2.2.2.2.1
    · exact (doubleSet_frame net j i _ _).2.2.2.2.2.2.2.1
    · exact (doubleSet_frame net j i _ _).2.2.2.2.2.2.2.2.1
    · exact (doubleSet_frame net j i _ _).2.2.2.2.2.2.2.2.2
    · intro i2 h
      exact doubleSet_cellsNe net j i _ _ i2 h

/-- The inner RPROP loop on layer j for an arbitrary bound within the
three arrays: the cells below the bound follow the RPROP rule applied
to the entry state, every other cell and every other piece of state
keeps its value. -/
theorem rpropLayer_spec (net : Ann) (j bound : Nat) (hj : j < LAYERS net)
    (hwlen : bound ≤ (getLayer net j).weight.length)
    (hdlen : bound ≤ (getLayer net j).delta.length)
    (hplen : bound ≤ (getLayer net j).pgradient.length) :
    (∀ m, m ≠ j →
      getLayer (loopN bound (fun i acc => rpropWeightStep acc j i) net) m =
        getLayer net m) ∧
    (getLayer (loopN bound (fun i acc => rpropWeightStep acc j i) net) j).units =
      (getLayer net j).units ∧
    (getLayer (loopN bound (fun i acc => rpropWeightStep acc j i) net) j).output =
      (getLayer net j).output ∧
    (getLayer (loopN bound (fun i acc => rpropWeightStep acc j i) net) j).error =
      (getLayer net j).error ∧
    (getLayer (loopN bound (fun i acc => rpropWeightStep acc j i) net) j).gradient =
      (getLayer net j).gradient ∧
    (getLayer (loopN bound (fun i acc => rpropWeightStep acc j i) net) j).sgradient =
      (getLayer net j).sgradient ∧
    (getLayer (loopN bound (fun i acc => rpropWeightStep acc j i) net) j).weight.length =
      (getLayer net j).weight.length ∧
    (getLayer (loopN bound (fun i acc => rpropWeightStep acc j i) net) j).delta.length =
      (getLayer net j).delta.length ∧
    (getLayer (loopN bound (fun i acc => rpropWeightStep acc j i) net) j).pgradient.length =
      (getLayer net j).pgradient.length ∧
    sameShape (loopN bound (fun i acc => rpropWeightStep acc j i) net) net ∧
    (∀ i, i < bound →
      (qget (getLayer (loopN bound (fun i2 acc => rpropWeightStep acc j i2) net) j).weight i,
       qget (getLayer (loopN bound (fun i2 acc => rpropWeightStep acc j i2) net) j).delta i,
       qget (getLayer (loopN bound (fun i2 acc => rpropWeightStep acc j i2) net) j).pgradient
         i) =
        rpropRule net.rprop_nplus net.rprop_nminus net.rprop_maxupdate net.rprop_minupdate
          (qget (getLayer net j).weight i) (qget (getLayer net j).pgradient i)
          (qget (getLayer net j).sgradient i) (qget (getLayer net j).delta i)) ∧
    (∀ i, bound ≤ i →
      (qget (getLayer (loopN bound (fun i2 acc => rpropWeightStep acc j i2) net) j).weight i,
       qget (getLayer (loopN bound (fun i2 acc => rpropWeightStep acc j i2) net) j).delta i,
       qget (getLayer (loopN bound (fun i2 acc => rpropWeightStep acc j i2) net) j).pgradient
         i) =
        (qget (getLayer net j).weight i, qget (getLayer net j).delta i,
          qget (getLayer net j).pgradient i)) := by
  have key := loopN_write_once
    (fun (b : Ann) (i : Nat) =>
      (qget (getLayer b j).weight i, qget (getLayer b j).delta i,
        qget (getLayer b j).pgradient i))
    (fun (b : Ann) =>
      (∀ m, m ≠ j → getLayer b m = getLayer net m) ∧
      (getLayer b j).units = (getLayer net j).units ∧
      (getLayer b j).output = (getLayer net j).output ∧
      (getLayer b j).error = (getLayer net j).error ∧
      (getLayer b j).gradient = (getLayer net j).gradient ∧
      (getLayer b j).sgradient = (getLayer net j).sgradient ∧
      (getLayer b j).weight.length = (getLayer net j).weight.length ∧
      (getLayer b j).delta.length = (getLayer net j).delta.length ∧
      (getLayer b j).pgradient.length = (getLayer net j).pgradient.length ∧
      sameShape b net)
    bound (fun i acc => rpropWeightStep acc j i) net
    (fun i => rpropRule net.rprop_nplus net.rprop_nminus net.rprop_maxupdate
      net.rprop_minupdate
      (qget (getLayer net j).weight i) (qget (getLayer net j).pgradient i)
      (qget (getLayer net j).sgradient i) (qget (getLayer net j).delta i))
    ⟨fun _ _ => rfl, rfl, rfl, rfl, rfl, rfl, rfl, rfl, rfl, sameShape_refl net⟩
    ?hstep
  · obtain ⟨kinv, klt, kge⟩ := key
    exact ⟨kinv.1, kinv.2.1, kinv.2.2.1, kinv.2.2.2.1, kinv.2.2.2.2.1, kinv.2.2.2.2.2.1,
      kinv.2.2.2.2.2.2.1, kinv.2.2.2.2.2.2.2.1, kinv.2.2.2.2.2.2.2.2.1,
      kinv.2.2.2.2.2.2.2.2.2, fun i hi => klt i hi, fun i hi => kge i hi⟩
  case hstep =>
    intro i b hi hbinv hhigh
    obtain ⟨bne, bun, bout, berr, bgra, bsgr, bwl, bdl, bpl, bsh⟩ := hbinv
    have hjb : j < LAYERS b := by rw [bsh.1]; exact hj
    have hwb : i < (getLayer b j).weight.length := by rw [bwl]; omega
    have hdb : i < (getLayer b j).delta.length := by rw [bdl]; omega
    have hpb : i < (getLayer b j).pgradient.length := by rw [bpl]; omega
    have hf := rpropWeightStep_frame b j i
    refine ⟨⟨?_, ?_, ?_, ?_, ?_, ?_, ?_, ?_, ?_, ?_⟩, ?_, ?_⟩
    · intro m hm
      rw [hf.1 m hm]
      exact bne m hm
    · rw [hf.2.1]; exact bun
    · rw [hf.2.2.1]; exact bout
    · rw [hf.2.2.2.1]; exact berr
    · rw [hf.2.2.2.2.1]; exact bgra
    · rw [hf.2.2.2.2.2.1]; exact bsgr
    · rw [hf.2.2.2.2.2.2.1]; exact bwl
    · rw [hf.2.2.2.2.2.2.2.1]; exact bdl
    · rw [hf.2.2.2.2.2.2.2.2.1]; exact bpl
    · exact sameShape_trans hf.2.2.2.2.2.2.2.2.2.1 bsh
    · show (qget (getLayer (rpropWeightStep b j i) j).weight i,
        qget (getLayer (rpropWeightStep b j i) j).delta i,
        qget (getLayer (rpropWeightStep b j i) j).pgradient i) = _
      have hs := rpropWeightStep_spec b j i hjb hwb hdb hpb
      have he := hhigh i le_rfl
      have e1 : qget (getLayer b j).weight i = qget (getLayer net j).weight i :=
        congrArg Prod.fst he
      have e2 : qget (getLayer b j).delta i = qget (getLayer net j).delta i :=
        congrArg (fun t => t.2.1) he
      have e3 : qget (getLayer b j).pgradient i = qget (getLayer net j).pgradient i :=
        congrArg (fun t => t.2.2) he
      have e4 : qget (getLayer b j).sgradient i = qget (getLayer net j).sgradient i := by
        rw [bsgr]
      rw [hs, e1, e2, e3, e4, bsh.2.2.2.1, bsh.2.2.2.2.1, bsh.2.2.2.2.2.1, bsh.2.2.2.2.2.2]
    · intro m hm
      have hc := hf.2.2.2.2.2.2.2.2.2.2 m (fun e => hm e.symm)
      show (qget (getLayer (rpropWeightStep b j i) j).weight m,
        qget (getLayer (rpropWeightStep b j i) j).delta m,
        qget (getLayer (rpropWeightStep b j i) j).pgradient m) = _
      exact Prod.ext hc.1 (Prod.ext hc.2.1 hc.2.2)

/-- Amended claim C1: on every well-formed network,
AnnAdjustWeightsResilientBP applies the RPROP rule (with the exact
branch arithmetic the claim describes) to exactly the flat weight cells
below rpropWeightsBound of every layer of positive index; the loop
bound drops the one final cell of the flat array when the destination
layer index j-1 is positive, that cell keeping its weight, delta and
pgradient, and nothing else in the net changes. -/
theorem claimC1Amended (net : Ann) (hwf : WfAnn net) :
    rpropCharacterizationAt net (AnnAdjustWeightsResilientBP net) := by
  unfold AnnAdjustWeightsResilientBP
  have main := loopN_ind
    (fun (k : Nat) (b : Ann) =>
      sameShape b net ∧
      (∀ m, (getLayer b m).units = (getLayer net m).units ∧
        (getLayer b m).output = (getLayer net m).output ∧
        (getLayer b m).error = (getLayer net m).error ∧
        (getLayer b m).gradient = (getLayer net m).gradient ∧
        (getLayer b m).sgradient = (getLayer net m).sgradient ∧
        (getLayer b m).weight.length = (getLayer net m).weight.length ∧
        (getLayer b m).delta.length = (getLayer net m).delta.length ∧
        (getLayer b m).pgradient.length = (getLayer net m).pgradient.length) ∧
      (∀ j2, k < j2 → getLayer b j2 = getLayer net j2) ∧
      getLayer b 0 = getLayer net 0 ∧
      (∀ j2, 1 ≤ j2 → j2 ≤ k → j2 < LAYERS net →
        (∀ i, i < rpropWeightsBound net j2 →
          (qget (getLayer b j2).weight i, qget (getLayer b j2).delta i,
            qget (getLayer b j2).pgradient i) =
            rpropRule net.rprop_nplus net.rprop_nminus net.rprop_maxupdate
              net.rprop_minupdate
              (qget (getLayer net j2).weight i) (qget (getLayer net j2).pgradient i)
              (qget (getLayer net j2).sgradient i) (qget (getLayer net j2).delta i)) ∧
        (∀ i, rpropWeightsBound net j2 ≤ i →
          (qget (getLayer b j2).weight i, qget (getLayer b j2).delta i,
            qget (getLayer b j2).pgradient i) =
            (qget (getLayer net j2).weight i, qget (getLayer net j2).delta i,
              qget (getLayer net j2).pgradient i))))
    (LAYERS net - 1)
    (fun m acc =>
      loopN (rpropWeightsBound acc (m+1)) (fun i acc2 => rpropWeightStep acc2 (m+1) i) acc)
    net
    ⟨sameShape_refl net, fun _ => ⟨rfl, rfl, rfl, rfl, rfl, rfl, rfl, rfl⟩, fun _ _ => rfl,
      rfl, fun _ h1 h2 _ => absurd (h1.trans h2) (by decide)⟩
    ?step
  · obtain ⟨msh, mfl, _, m0, mchar⟩ := main
    refine ⟨msh.1, msh.2.1, msh.2.2.1, msh.2.2.2.1, msh.2.2.2.2.1, msh.2.2.2.2.2.1,
      msh.2.2.2.2.2.2, ?_, m0, ?_⟩
    · intro m
      exact ⟨(mfl m).1, (mfl m).2.1, (mfl m).2.2.1, (mfl m).2.2.2.1, (mfl m).2.2.2.2.1⟩
    · intro j hj h1
      have hc := mchar j h1 (by omega) hj
      refine ⟨fun i hi => hc.1 i hi, ?_⟩
      intro i hi
      have he := hc.2 i hi
      exact ⟨congrArg Prod.fst he, congrArg (fun t => t.2.1) he,
        congrArg (fun t => t.2.2) he⟩
  case step =>
    intro m b hm hP
    obtain ⟨bsh, bfl, bge, b0, bchar⟩ := hP
    have hb1 : getLayer b (m+1) = getLayer net (m+1) := bge (m+1) (by omega)
    have hbound : rpropWeightsBound b (m+1) = rpropWeightsBound net (m+1) := by
      unfold rpropWeightsBound UNITS
      simp only [Nat.add_sub_cancel]
      rw [(bfl (m+1)).1, (bfl m).1]
    have hjb : m + 1 < LAYERS b := by rw [bsh.1]; omega
    have hwfj := (hwf (m+1) (by omega)).2.2 (by omega)
    have hble : rpropWeightsBound net (m+1) ≤ UNITS net (m+1) * UNITS net m := by
      unfold rpropWeightsBound
      exact Nat.sub_le _ _
    have hwlen : rpropWeightsBound b (m+1) ≤ (getLayer b (m+1)).weight.length := by
      rw [hbound, (bfl (m+1)).2.2.2.2.2.1, hwfj.1]
      exact hble
    have hdlen : rpropWeightsBound b (m+1) ≤ (getLayer b (m+1)).delta.length := by
      rw [hbound, (bfl (m+1)).2.2.2.2.2.2.1, hwfj.2.2.2.1]
      exact hble
    have hplen : rpropWeightsBound b (m+1) ≤ (getLayer b (m+1)).pgradient.length := by
      rw [hbound, (bfl (m+1)).2.2.2.2.2.2.2, hwfj.2.2.1]
      exact hble
    have hspec := rpropLayer_spec b (m+1) (rpropWeightsBound b (m+1)) hjb hwlen hdlen hplen
    refine ⟨?_, ?_, ?_, ?_, ?_⟩
    · exact sameShape_trans hspec.2.2.2.2.2.2.2.2.2.1 bsh
    · intro m2
      by_cases hm2 : m2 = m + 1
      · subst hm2
        refine ⟨hspec.2.1.trans (bfl (m+1)).1, hspec.2.2.1.trans (bfl (m+1)).2.1,
          hspec.2.2.2.1.trans (bfl (m+1)).2.2.1, hspec.2.2.2.2.1.trans (bfl (m+1)).2.2.2.1,
          hspec.2.2.2.2.2.1.trans (bfl (m+1)).2.2.2.2.1,
          hspec.2.2.2.2.2.2.1.trans (bfl (m+1)).2.2.2.2.2.1,
          hspec.2.2.2.2.2.2.2.1.trans (bfl (m+1)).2.2.2.2.2.2.1,
          hspec.2.2.2.2.2.2.2.2.1.trans (bfl (m+1)).2.2.2.2.2.2.2⟩
      · have he := hspec.1 m2 hm2
        rw [he]
        exact bfl m2
    · intro j2 hj2
      have hne : j2 ≠ m + 1 := by omega
      rw [hspec.1 j2 hne]
      exact bge j2 (by omega)
    · have hne : (0 : Nat) ≠ m + 1 := by omega
      rw [hspec.1 0 hne]
      exact b0
    · intro j2 h1 h2 h3
      by_cases hj2 : j2 = m + 1
      · subst hj2
        constructor
        · intro i hi
          have hc := hspec.2.2.2.2.2.2.2.2.2.2.1 i (by rw [hbound]; exact hi)
          rw [hc, hb1, bsh.2.2.2.1, bsh.2.2.2.2.1, bsh.2.2.2.2.2.1, bsh.2.2.2.2.2.2]
        · intro i hi
          have hc := hspec.2.2.2.2.2.2.2.2.2.2.2 i (by rw [hbound]; omega)
          rw [hc, hb1]
      · have hne : j2 ≠ m + 1 := hj2
        have he := hspec.1 j2 hne
        rw [he]
        exact bchar j2 h1 (by omega) h3

/-- Witness for the amended claim C1 on the concrete three layer
network. -/
theorem claimC1Witness :
    rpropCharacterizationAt exNet3 (AnnAdjustWeightsResilientBP exNet3) :=
  claimC1Amended exNet3 (by decide)

/-- Replacing a layer leaves the other indices unchanged. -/
theorem getLayer_setLayer_ne (net : Ann) (j : Nat) (l : AnnLayer) (m : Nat) (h : m ≠ j) :
    getLayer (setLayer net j l) m = getLayer net m := by
  unfold setLayer getLayer
  exact getD_set_ne _ _ _ _ _ (fun e => h e.symm)

/-- An in-range layer replacement is read back. -/
theorem getLayer_setLayer_self (net : Ann) (j : Nat) (l : AnnLayer) (h : j < LAYERS net) :
    getLayer (setLayer net j l) j = l := by
  unfold setLayer getLayer
  exact getD_set_self _ _ _ _ h

/-- Replacing a layer keeps the layer count. -/
theorem LAYERS_setLayer (net : Ann) (j : Nat) (l : AnnLayer) :
    LAYERS (setLayer net j l) = LAYERS net := by
  simp [LAYERS, setLayer]

/-- The RPROP weight adjustment never touches a unit count or an output
array. -/
theorem rprop_unitsOutputs (net : Ann) :
    LAYERS (AnnAdjustWeightsResilientBP net) = LAYERS net ∧
    ∀ m, (getLayer (AnnAdjustWeightsResilientBP net) m).units = (getLayer net m).units ∧
      (getLayer (AnnAdjustWeightsResilientBP net) m).output = (getLayer net m).output := by
  unfold AnnAdjustWeightsResilientBP
  refine loopN_inv (fun (b : Ann) => LAYERS b = LAYERS net ∧
    ∀ m, (getLayer b m).units = (getLayer net m).units ∧
      (getLayer b m).output = (getLayer net m).output) _ _ _
    ⟨rfl, fun _ => ⟨rfl, rfl⟩⟩ ?_
  intro m b _ hb
  refine loopN_inv (fun (b2 : Ann) => LAYERS b2 = LAYERS net ∧
    ∀ m2, (getLayer b2 m2).units = (getLayer net m2).units ∧
      (getLayer b2 m2).output = (getLayer net m2).output) _ _ _ hb ?_
  intro i b2 _ hb2
  have hf := rpropWeightStep_frame b2 (m+1) i
  refine ⟨(hf.2.2.2.2.2.2.2.2.2.1.1).trans hb2.1, ?_⟩
  intro m2
  by_cases hm2 : m2 = m + 1
  · subst hm2
    exact ⟨hf.2.1.trans (hb2.2 (m+1)).1, hf.2.2.1.trans (hb2.2 (m+1)).2⟩
  · rw [hf.1 m2 hm2]
    exact hb2.2 m2

/-- The gradient descent weight adjustment never touches a unit count
or an output array. -/
theorem adjustWeights_unitsOutputs (net : Ann) (setlen : Nat) :
    LAYERS (AnnAdjustWeights net setlen) = LAYERS net ∧
    ∀ m, (getLayer (AnnAdjustWeights net setlen) m).units = (getLayer net m).units ∧
      (getLayer (AnnAdjustWeights net setlen) m).output = (getLayer net m).output := by
  unfold AnnAdjustWeights
  refine loopN_inv (fun (b : Ann) => LAYERS b = LAYERS net ∧
    ∀ m, (getLayer b m).units = (getLayer net m).units ∧
      (getLayer b m).output = (getLayer net m).output) _ _ _
    ⟨rfl, fun _ => ⟨rfl, rfl⟩⟩ ?_
  intro m b _ hb
  refine loopN_inv (fun (b2 : Ann) => LAYERS b2 = LAYERS net ∧
    ∀ m2, (getLayer b2 m2).units = (getLayer net m2).units ∧
      (getLayer b2 m2).output = (getLayer net m2).output) _ _ _ hb ?_
  intro i b2 _ hb2
  have hf := setWeightAt_fields b2 (m+1) i
    (qget (getLayer b2 (m+1)).weight i -
      b2.learn_rate / (setlen : ℚ) * qget (getLayer b2 (m+1)).delta i)
  refine ⟨(sameShape_setWeightAt b2 (m+1) i _).1.trans hb2.1, ?_⟩
  intro m2
  exact ⟨(hf m2).1.trans (hb2.2 m2).1, (hf m2).2.1.trans (hb2.2 m2).2⟩

/-- The random weight initialisation never touches a unit count or an
output array. -/
theorem setRandomWeights_unitsOutputs (rnd : Nat → Nat → Nat → ℚ) (net : Ann) :
    LAYERS (AnnSetRandomWeights rnd net) = LAYERS net ∧
    ∀ m, (getLayer (AnnSetRandomWeights rnd net) m).units = (getLayer net m).units ∧
      (getLayer (AnnSetRandomWeights rnd net) m).output = (getLayer net m).output := by
  unfold AnnSetRandomWeights
  refine loopN_inv (fun (b : Ann) => LAYERS b = LAYERS net ∧
    ∀ m, (getLayer b m).units = (getLayer net m).units ∧
      (getLayer b m).output = (getLayer net m).output) _ _ _
    ⟨rfl, fun _ => ⟨rfl, rfl⟩⟩ ?_
  intro m b _ hb
  refine loopN_inv (fun (b2 : Ann) => LAYERS b2 = LAYERS net ∧
    ∀ m2, (getLayer b2 m2).units = (getLayer net m2).units ∧
      (getLayer b2 m2).output = (getLayer net m2).output) _ _ _ hb ?_
  intro k b2 _ hb2
  refine loopN_inv (fun (b3 : Ann) => LAYERS b3 = LAYERS net ∧
    ∀ m2, (getLayer b3 m2).units = (getLayer net m2).units ∧
      (getLayer b3 m2).output = (getLayer net m2).output) _ _ _ hb2 ?_
  intro j b3 _ hb3
  have hf := setWeightAt_fields b3 (m+1) (k * UNITS b3 (m+1) + j) (rnd (m+1) j k)
  refine ⟨(sameShape_setWeightAt b3 (m+1) _ _).1.trans hb3.1, ?_⟩
  intro m2
  exact ⟨(hf m2).1.trans (hb3.2 m2).1, (hf m2).2.1.trans (hb3.2 m2).2⟩

/-- The delta initialisation never touches a unit count or an output
array. -/
theorem setDeltas_unitsOutputs (net : Ann) (val : ℚ) :
    LAYERS (AnnSetDeltas net val) = LAYERS net ∧
    ∀ m, (getLayer (AnnSetDeltas net val) m).units = (getLayer net m).units ∧
      (getLayer (AnnSetDeltas net val) m).output = (getLayer net m).output := by
  unfold AnnSetDeltas
  refine loopN_inv (fun (b : Ann) => LAYERS b = LAYERS net ∧
    ∀ m, (getLayer b m).units = (getLayer net m).units ∧
      (getLayer b m).output = (getLayer net m).output) _ _ _
    ⟨rfl, fun _ => ⟨rfl, rfl⟩⟩ ?_
  intro m b _ hb
  refine loopN_inv (fun (b2 : Ann) => LAYERS b2 = LAYERS net ∧
    ∀ m2, (getLayer b2 m2).units = (getLayer net m2).units ∧
      (getLayer b2 m2).output = (getLayer net m2).output) _ _ _ hb ?_
  intro i b2 _ hb2
  have hf := setDeltaAt_fields b2 (m+1) i val
  refine ⟨(sameShape_setDeltaAt b2 (m+1) i val).1.trans hb2.1, ?_⟩
  intro m2
  exact ⟨(hf m2).1.trans (hb2.2 m2).1, (hf m2).2.1.trans (hb2.2 m2).2⟩

/-- After the layer init loop of AnnCreateNet, every layer of positive
index holds a bias output pinned to 1. -/
theorem createNet_initLoop_bias (junk : ℚ) (units : List Nat) :
    BiasOk (loopN units.length
      (fun i acc => AnnInitLayer acc i (units.getD i 0) (decide (0 < i)))
      (AnnAlloc junk units.length)) := by
  have main := loopN_ind
    (fun (k : Nat) (b : Ann) =>
      LAYERS b = units.length ∧
      ∀ m, m < k → 1 ≤ m →
        qget (getLayer b m).output ((getLayer b m).units - 1) = 1)
    units.length
    (fun i acc => AnnInitLayer acc i (units.getD i 0) (decide (0 < i)))
    (AnnAlloc junk units.length)
    ⟨by simp [LAYERS, AnnAlloc], fun m hm1 _ => absurd hm1 (Nat.not_lt_zero m)⟩
    ?step
  · intro m hmL h1
    exact main.2 m (by rw [main.1] at hmL; exact hmL) h1
  case step =>
    intro i b hi hP
    obtain ⟨hL, hbias⟩ := hP
    unfold AnnInitLayer
    constructor
    · rw [LAYERS_setLayer]
      exact hL
    · intro m hm h1
      by_cases hmi : m = i
      · subst hmi
        have hdec : decide (0 < m) = true := decide_eq_true (by omega)
        rw [getLayer_setLayer_self _ _ _ (by rw [hL]; omega)]
        simp only [hdec, if_true]
        rw [qget, Nat.add_sub_cancel, getD_set_self _ _ _ _ (by simp)]
      · rw [getLayer_setLayer_ne _ _ _ m hmi]
        exact hbias m (by omega) h1

/-- A freshly created network has every bias output pinned to 1: the
init loop pins them and the weight and delta initialisations touch no
output. -/
theorem createNet_bias (junk : ℚ) (rnd : Nat → Nat → Nat → ℚ) (units : List Nat) :
    BiasOk (AnnCreateNet junk rnd units) := by
  have h0 := createNet_initLoop_bias junk units
  have hr := setRandomWeights_unitsOutputs rnd
    (loopN units.length
      (fun i acc => AnnInitLayer acc i (units.getD i 0) (decide (0 < i)))
      (AnnAlloc junk units.length))
  have hd := setDeltas_unitsOutputs
    (AnnSetRandomWeights rnd
      (loopN units.length
        (fun i acc => AnnInitLayer acc i (units.getD i 0) (decide (0 < i)))
        (AnnAlloc junk units.length))) RPROP_INITIAL_DELTA
  intro m hmL h1
  have hg : getLayer (AnnCreateNet junk rnd units) m =
      getLayer (AnnSetDeltas
        (AnnSetRandomWeights rnd
          (loopN units.length
            (fun i acc => AnnInitLayer acc i (units.getD i 0) (decide (0 < i)))
            (AnnAlloc junk units.length))) RPROP_INITIAL_DELTA) m := rfl
  have hgL : LAYERS (AnnCreateNet junk rnd units) =
      LAYERS (AnnSetDeltas
        (AnnSetRandomWeights rnd
          (loopN units.length
            (fun i acc => AnnInitLayer acc i (units.getD i 0) (decide (0 < i)))
            (AnnAlloc junk units.length))) RPROP_INITIAL_DELTA) := rfl
  rw [hg, (hd.2 m).2, (hr.2 m).2, (hd.2 m).1, (hr.2 m).1]
  apply h0 m ?_ h1
  rw [← hr.1, ← hd.1, ← hgL]
  exact hmL

/-- Claim C7: every bias unit output is exactly 1 after network
creation, is preserved by AnnSimulate, and is preserved by both weight
update procedures, which never write any output cell. -/
theorem claimC7BiasPreserved :
    (∀ junk rnd units, BiasOk (AnnCreateNet junk rnd units)) ∧
    (∀ sig net, BiasOk net → BiasOk (AnnSimulate sig net)) ∧
    (∀ net, BiasOk net → BiasOk (AnnAdjustWeightsResilientBP net)) ∧
    (∀ net setlen, BiasOk net → BiasOk (AnnAdjustWeights net setlen)) := by
  refine ⟨createNet_bias, ?_, ?_, ?_⟩
  · intro sig net hb m hmL h1
    have hL : LAYERS (AnnSimulate sig net) = LAYERS net :=
      (sameShape_simLoop sig (LAYERS net - 1) net).1
    have hu : (getLayer (AnnSimulate sig net) m).units = (getLayer net m).units :=
      (simLoop_fields sig (LAYERS net - 1) net m).1
    rw [hu]
    have := simLoop_unwritten sig (LAYERS net - 1) net m ((getLayer net m).units - 1) ?_
    · unfold AnnSimulate
      rw [this]
      exact hb m (by omega) h1
    · intro hmlt
      unfold nwOut UNITS
      rw [if_pos h1]
  · intro net hb m hmL h1
    have hf := rprop_unitsOutputs net
    rw [(hf.2 m).1, (hf.2 m).2]
    exact hb m (by rw [← hf.1]; exact hmL) h1
  · intro net setlen hb m hmL h1
    have hf := adjustWeights_unitsOutputs net setlen
    rw [(hf.2 m).1, (hf.2 m).2]
    exact hb m (by rw [← hf.1]; exact hmL) h1

/-- Witness for claim C7: bias preservation through a simulate call on
the concrete three layer network. -/
theorem claimC7Witness : BiasOk (AnnSimulate sigmoidModel exNet3) :=
  claimC7BiasPreserved.2.1 sigmoidModel exNet3 (by decide)

/-- The gradient descent example loop, which peels each processed
example off the front of the flat data, equals the ascending loop over
example indices with the flat data sliced at index times stride. -/
theorem gdLoop_eq_loopN (sig : ℚ → ℚ) (inputs outputs setlen : Nat) :
    ∀ (j : Nat) (net : Ann) (input desired : List ℚ) (err : ℚ),
      gdLoop sig inputs outputs setlen j net input desired err =
      loopN j
        (fun k acc =>
          let s := gdExampleStep sig setlen (input.drop (k * inputs))
            (desired.drop (k * outputs)) acc.1
          (s.1, acc.2 + s.2))
        (net, err) := by
  intro j
  induction j with
  | zero => intro net input desired err; rfl
  | succ j ih =>
    intro net input desired err
    have h1 : gdLoop sig inputs outputs setlen (j + 1) net input desired err =
        gdLoop sig inputs outputs setlen j
          (gdExampleStep sig setlen input desired net).1
          (input.drop inputs) (desired.drop outputs)
          (err + (gdExampleStep sig setlen input desired net).2) := rfl
    rw [h1, ih]
    conv_rhs => rw [loopN_shift]
    refine Eq.trans (loopN_congr j _ _ _ ?_) (congrArg _ ?_)
    · intro k _ b
      simp only [List.drop_drop]
      have e1 : inputs + k * inputs = (k + 1) * inputs := by ring
      have e2 : outputs + k * outputs = (k + 1) * outputs := by ring
      rw [e1, e2]
    · simp only [Nat.zero_mul, List.drop_zero]

/-- Claim C6: the gradient descent epoch processes the setlen examples
in order, for each one resetting the deltas, simulating and accumulating
its global error, computing gradients, accumulating them into the
deltas, and immediately adjusting every weight by learning rate over
dataset size times its delta after that single example; the accumulated
error divided by setlen is returned. -/
theorem claimC6GDEpoch (sig : ℚ → ℚ) (net : Ann) (input desired : List ℚ) (setlen : Nat) :
    AnnGDEpoch sig net input desired setlen = gdEpochClaim sig net input desired setlen := by
  simp only [AnnGDEpoch, gdEpochClaim]
  rw [gdLoop_eq_loopN]

theorem mMalloc_live (fails : Nat → Bool) (st : MAlloc) :
    (mMalloc fails st).2.live = st.live + cond (mMalloc fails st).1 1 0 := by
  unfold mMalloc; split_ifs <;> rfl

theorem mMallocIf_live (c : Bool) (fails : Nat → Bool) (st : MAlloc) :
    (mMallocIf c fails st).2.live = st.live + cond (mMallocIf c fails st).1 1 0 := by
  cases c
  · rfl
  · exact mMalloc_live fails st

theorem mMallocIf_false (fails : Nat → Bool) (st : MAlloc) :
    mMallocIf false fails st = (false, st) := rfl

theorem mFreeLayer_live (l : MLayer) (st : MAlloc) :
    (mFreeLayer l st).live = st.live - mLayerLive l := by
  simp only [mFreeLayer, mFree, mLayerLive]
  omega

theorem mInitLayer_spec (fails : Nat → Bool) (hasW : Bool) (st : MAlloc) :
    ((mInitLayer fails hasW st).1.1 = true ∧
      (mInitLayer fails hasW st).1.2 = mResetLayer ∧
      (mInitLayer fails hasW st).2.live = st.live) ∨
    ((mInitLayer fails hasW st).1.1 = false ∧
      (mInitLayer fails hasW st).1.2 = ⟨true, true, hasW, hasW, hasW, hasW, hasW⟩ ∧
      (mInitLayer fails hasW st).2.live = st.live + 2 + cond hasW 5 0) := by
  simp only [mInitLayer]
  set r1 := mMalloc fails st with hr1
  set r2 := mMalloc fails r1.2 with hr2
  set r3 := mMallocIf hasW fails r2.2 with hr3
  set r4 := mMallocIf hasW fails r3.2 with hr4
  set r5 := mMallocIf hasW fails r4.2 with hr5
  set r6 := mMallocIf hasW fails r5.2 with hr6
  set r7 := mMallocIf hasW fails r6.2 with hr7
  have h1 : r1.2.live = st.live + cond r1.1 1 0 := by rw [hr1]; exact mMalloc_live fails st
  have h2 : r2.2.live = r1.2.live + cond r2.1 1 0 := by rw [hr2]; exact mMalloc_live fails r1.2
  have h3 : r3.2.live = r2.2.live + cond r3.1 1 0 := by rw [hr3]; exact mMallocIf_live hasW fails r2.2
  have h4 : r4.2.live = r3.2.live + cond r4.1 1 0 := by rw [hr4]; exact mMallocIf_live hasW fails r3.2
  have h5 : r5.2.live = r4.2.live + cond r5.1 1 0 := by rw [hr5]; exact mMallocIf_live hasW fails r4.2
  have h6 : r6.2.live = r5.2.live + cond r6.1 1 0 := by rw [hr6]; exact mMallocIf_live hasW fails r5.2
  have h7 : r7.2.live = r6.2.live + cond r7.1 1 0 := by rw [hr7]; exact mMallocIf_live hasW fails r6.2
  split_ifs with hc
  · left
    refine ⟨rfl, rfl, ?_⟩
    rw [mFreeLayer_live]
    simp only [mLayerLive]
    omega
  · right
    refine ⟨rfl, ?_, ?_⟩
    all_goals cases hasW
    · have hb1 : r1.1 = true := by
        cases hb : r1.1
        · exact absurd (Or.inl hb) hc
        · rfl
      have hb2 : r2.1 = true := by
        cases hb : r2.1
        · exact absurd (Or.inr (Or.inl hb)) hc
        · rfl
      have hb3 : r3.1 = false := by rw [hr3, mMallocIf_false]
      have hb4 : r4.1 = false := by rw [hr4, mMallocIf_false]
      have hb5 : r5.1 = false := by rw [hr5, mMallocIf_false]
      have hb6 : r6.1 = false := by rw [hr6, mMallocIf_false]
      have hb7 : r7.1 = false := by rw [hr7, mMallocIf_false]
      simp only [MLayer.mk.injEq]
      exact ⟨hb1, hb2, hb3, hb4, hb5, hb6, hb7⟩
    · have hb1 : r1.1 = true := by
        cases hb : r1.1
        · exact absurd (Or.inl hb) hc
        · rfl
      have hb2 : r2.1 = true := by
        cases hb : r2.1
        · exact absurd (Or.inr (Or.inl hb)) hc
        · rfl
      have hb3 : r3.1 = true := by
        cases hb : r3.1
        · exact absurd (Or.inr (Or.inr ⟨rfl, Or.inl hb⟩)) hc
        · rfl
      have hb4 : r4.1 = true := by
        cases hb : r4.1
        · exact absurd (Or.inr (Or.inr ⟨rfl, Or.inr (Or.inl hb)⟩)) hc
        · rfl
      have hb5 : r5.1 = true := by
        cases hb : r5.1
        · exact absurd (Or.inr (Or.inr ⟨rfl, Or.inr (Or.inr (Or.inl hb))⟩)) hc
        · rfl
      have hb7 : r7.1 = true := by
        cases hb : r7.1
        · exact absurd (Or.inr (Or.inr ⟨rfl, Or.inr (Or.inr (Or.inr (Or.inl hb)))⟩)) hc
        · rfl
      have hb6 : r6.1 = true := by
        cases hb : r6.1
        · exact absurd (Or.inr (Or.inr ⟨rfl, Or.inr (Or.inr (Or.inr (Or.inr hb)))⟩)) hc
        · rfl
      simp only [MLayer.mk.injEq]
      exact ⟨hb1, hb2, hb3, hb4, hb5, hb6, hb7⟩
    · have hb1 : r1.1 = true := by
        cases hb : r1.1
        · exact absurd (Or.inl hb) hc
        · rfl
      have hb2 : r2.1 = true := by
        cases hb : r2.1
        · exact absurd (Or.inr (Or.inl hb)) hc
        · rfl
      have hb3 : r3.1 = false := by rw [hr3, mMallocIf_false]
      have hb4 : r4.1 = false := by rw [hr4, mMallocIf_false]
      have hb5 : r5.1 = false := by rw [hr5, mMallocIf_false]
      have hb6 : r6.1 = false := by rw [hr6, mMallocIf_false]
      have hb7 : r7.1 = false := by rw [hr7, mMallocIf_false]
      simp only [hb1, hb2, hb3, hb4, hb5, hb6, hb7, cond] at h1 h2 h3 h4 h5 h6 h7 ⊢
      omega
    · have hb1 : r1.1 = true := by
        cases hb : r1.1
        · exact absurd (Or.inl hb) hc
        · rfl
      have hb2 : r2.1 = true := by
        cases hb : r2.1
        · exact absurd (Or.inr (Or.inl hb)) hc
        · rfl
      have hb3 : r3.1 = true := by
        cases hb : r3.1
        · exact absurd (Or.inr (Or.inr ⟨rfl, Or.inl hb⟩)) hc
        · rfl
      have hb4 : r4.1 = true := by
        cases hb : r4.1
        · exact absurd (Or.inr (Or.inr ⟨rfl, Or.inr (Or.inl hb)⟩)) hc
        · rfl
      have hb5 : r5.1 = true := by
        cases hb : r5.1
        · exact absurd (Or.inr (Or.inr ⟨rfl, Or.inr (Or.inr (Or.inl hb))⟩)) hc
        · rfl
      have hb7 : r7.1 = true := by
        cases hb : r7.1
        · exact absurd (Or.inr (Or.inr ⟨rfl, Or.inr (Or.inr (Or.inr (Or.inl hb)))⟩)) hc
        · rfl
      have hb6 : r6.1 = true := by
        cases hb : r6.1
        · exact absurd (Or.inr (Or.inr ⟨rfl, Or.inr (Or.inr (Or.inr (Or.inr hb)))⟩)) hc
        · rfl
      simp only [hb1, hb2, hb3, hb4, hb5, hb6, hb7, cond] at h1 h2 h3 h4 h5 h6 h7 ⊢
      omega

theorem mNetLayersLive_nil : mNetLayersLive [] = 0 := rfl

theorem mNetLayersLive_cons (a : MLayer) (as : List MLayer) :
    mNetLayersLive (a :: as) = mLayerLive a + mNetLayersLive as := by
  simp [mNetLayersLive]

theorem mLayerLive_reset : mLayerLive mResetLayer = 0 := rfl

theorem mFreeNet_live (net : List MLayer) (st : MAlloc) :
    (mFreeNet net st).live = st.live - mNetLayersLive net - 2 := by
  have key : ∀ (n : List MLayer) (s : MAlloc),
      (n.foldl (fun s2 l => mFreeLayer l s2) s).live = s.live - mNetLayersLive n := by
    intro n
    induction n with
    | nil => intro s; simp [mNetLayersLive_nil]
    | cons a as ih =>
      intro s
      rw [List.foldl_cons, ih, mFreeLayer_live, mNetLayersLive_cons]
      omega
  unfold mFreeNet mFree
  simp only [key, cond]
  omega

theorem mNetLayersLive_set (net : List MLayer) (i : Nat) (l : MLayer)
    (h0 : net.getD i mResetLayer = mResetLayer) :
    mNetLayersLive (net.set i l) = mNetLayersLive net + (if i < net.length then mLayerLive l else 0) := by
  induction net generalizing i with
  | nil => simp [List.set]
  | cons a as ih =>
    cases i with
    | zero =>
      simp only [List.getD_cons_zero] at h0
      subst h0
      simp [List.set, mNetLayersLive_cons, mLayerLive_reset]
      omega
    | succ n =>
      simp only [List.getD_cons_succ] at h0
      simp only [List.set, mNetLayersLive_cons, ih n h0, List.length_cons]
      have : n + 1 < as.length + 1 ↔ n < as.length := by omega
      rw [if_congr this rfl rfl]
      omega

theorem getD_replicate (n : Nat) (a : MLayer) : ∀ m, (List.replicate n a).getD m a = a := by
  induction n with
  | zero => intro m; rfl
  | succ k ih =>
    intro m
    cases m with
    | zero => rfl
    | succ m2 => exact ih m2

theorem mInitLayers_spec (fails : Nat → Bool) :
    ∀ (t i : Nat) (net : List MLayer) (st : MAlloc) (base : Nat),
      st.live = base + 2 + mNetLayersLive net →
      (∀ m, i ≤ m → net.getD m mResetLayer = mResetLayer) →
      i + t = net.length →
      (((mInitLayers fails i t net st).1 = none ∧
          (mInitLayers fails i t net st).2.live = base) ∨
        (∃ net2, (mInitLayers fails i t net st).1 = some net2 ∧
          net2.length = net.length ∧
          (∀ m, m < i → net2.getD m mResetLayer = net.getD m mResetLayer) ∧
          (∀ m, i ≤ m → m < net.length → mLayerFull m (net2.getD m mResetLayer)) ∧
          (mInitLayers fails i t net st).2.live = base + 2 + mNetLayersLive net2)) := by
  intro t
  induction t with
  | zero =>
    intro i net st base hlive _hreset hlen
    right
    exact ⟨net, rfl, rfl, fun _ _ => rfl, fun m him hmlen => absurd hmlen (by omega), hlive⟩
  | succ t ih =>
    intro i net st base hlive hreset hlen
    have hi : i < net.length := by omega
    rcases mInitLayer_spec fails (decide (0 < i)) st with ⟨hf, _hl, hs⟩ | ⟨hf, hl, hs⟩
    · left
      simp only [mInitLayers, if_pos hf]
      refine ⟨trivial, ?_⟩
      rw [mFreeNet_live, hs, hlive]
      omega
    · have hcond : ¬ ((mInitLayer fails (decide (0 < i)) st).1.1 = true) := by
        rw [hf]; exact Bool.false_ne_true
      simp only [mInitLayers, if_neg hcond]
      have hlive2 : ((mInitLayer fails (decide (0 < i)) st).2).live =
          base + 2 + mNetLayersLive (net.set i (mInitLayer fails (decide (0 < i)) st).1.2) := by
        rw [hs, hlive, mNetLayersLive_set net i _ (hreset i (Nat.le_refl i)), if_pos hi, hl]
        have : mLayerLive ⟨true, true, decide (0 < i), decide (0 < i), decide (0 < i),
            decide (0 < i), decide (0 < i)⟩ = 2 + cond (decide (0 < i)) 5 0 := by
          cases hd : decide (0 < i) <;> rfl
        rw [this]
        omega
      have hreset2 : ∀ m, i + 1 ≤ m →
          (net.set i (mInitLayer fails (decide (0 < i)) st).1.2).getD m mResetLayer =
            mResetLayer := by
        intro m hm
        rw [getD_set_ne _ _ _ _ _ (by omega)]
        exact hreset m (by omega)
      have hlen2 : (i + 1) + t = (net.set i (mInitLayer fails (decide (0 < i)) st).1.2).length := by
        rw [List.length_set]; omega
      rcases ih (i + 1) (net.set i (mInitLayer fails (decide (0 < i)) st).1.2) _ base hlive2
        hreset2 hlen2 with ⟨hn, hv⟩ | ⟨net2, hn, hlen3, hpres, hfull, hv⟩
      · exact Or.inl ⟨hn, hv⟩
      · right
        refine ⟨net2, hn, by rw [hlen3, List.length_set], ?_, ?_, ?_⟩
        · intro m hm
          rw [hpres m (by omega), getD_set_ne _ _ _ _ _ (by omega)]
        · intro m him hmlen
          rcases Nat.eq_or_lt_of_le him with heq | hlt
          · subst heq
            rw [hpres i (by omega)]
            rw [getD_set_self _ _ _ _ hi, hl]
            unfold mLayerFull
            refine ⟨rfl, rfl, rfl, rfl, rfl, rfl, rfl⟩
          · exact hfull m hlt (by rw [List.length_set]; exact hmlen)
        · rw [hv]

theorem mNetLayersLive_replicate (n : Nat) : mNetLayersLive (List.replicate n mResetLayer) = 0 := by
  induction n with
  | zero => rfl
  | succ k ih => rw [List.replicate_succ, mNetLayersLive_cons, ih, mLayerLive_reset]

theorem mAllocNet_spec (fails : Nat → Bool) (layers : Nat) (st : MAlloc) :
    ((mAllocNet fails layers st).1 = none ∧ (mAllocNet fails layers st).2.live = st.live) ∨
    ((mAllocNet fails layers st).1 = some (List.replicate layers mResetLayer) ∧
      (mAllocNet fails layers st).2.live = st.live + 2) := by
  by_cases h1 : fails st.time = true <;> by_cases h2 : fails (st.time + 1) = true <;>
    simp [mAllocNet, mMalloc, mFree, h1, h2]

theorem mCreateNet_spec (fails : Nat → Bool) (layers : Nat) (st : MAlloc) :
    ((mCreateNet fails layers st).1 = none ∧ (mCreateNet fails layers st).2.live = st.live) ∨
    (∃ net, (mCreateNet fails layers st).1 = some net ∧ net.length = layers ∧
      ∀ m, m < layers → mLayerFull m (net.getD m mResetLayer)) := by
  unfold mCreateNet
  rcases hA : mAllocNet fails layers st with ⟨onet, st2⟩
  rcases mAllocNet_spec fails layers st with ⟨hn, hv⟩ | ⟨hn, hv⟩ <;> rw [hA] at hn hv
  · left
    have ho : onet = none := hn
    subst ho
    exact ⟨rfl, hv⟩
  · have ho : onet = some (List.replicate layers mResetLayer) := hn
    subst ho
    have hlive : st2.live = st.live + 2 + mNetLayersLive (List.replicate layers mResetLayer) := by
      rw [mNetLayersLive_replicate]
      exact hv
    rcases mInitLayers_spec fails layers 0 (List.replicate layers mResetLayer) st2 st.live hlive
      (fun m _ => getD_replicate layers mResetLayer m)
      (by rw [List.length_replicate]; omega) with ⟨hn2, hv2⟩ | ⟨net2, hn2, hlen2, _hpres, hfull, _hv2⟩
    · exact Or.inl ⟨hn2, hv2⟩
    · right
      refine ⟨net2, hn2, by rw [hlen2, List.length_replicate], ?_⟩
      intro m hm
      exact hfull m (Nat.zero_le m) (by rw [List.length_replicate]; exact hm)

/-- Claim C8: in the allocation model of AnnCreateNet, AnnClone and
AnnInitLayer, any allocation failure makes the operation release every
partially allocated layer and array of the network under construction
(the live block count returns to its value before the call) and report
a null result to the caller; a returned network is never partial: it
has the requested layer count and every layer holds its output and
error arrays plus, for positive layer indices, the five weight shaped
arrays. -/
theorem claimC8AllocRollback (fails : Nat → Bool) (layers : Nat) (st : MAlloc) :
    (((mCreateNet fails layers st).1 = none → (mCreateNet fails layers st).2.live = st.live) ∧
      (∀ net, (mCreateNet fails layers st).1 = some net →
        net.length = layers ∧ ∀ m, m < layers → mLayerFull m (net.getD m mResetLayer))) ∧
    (((mCloneNet fails layers st).1 = none → (mCloneNet fails layers st).2.live = st.live) ∧
      (∀ net, (mCloneNet fails layers st).1 = some net →
        net.length = layers ∧ ∀ m, m < layers → mLayerFull m (net.getD m mResetLayer))) ∧
    (∀ hasW, (mInitLayer fails hasW st).1.1 = true →
      (mInitLayer fails hasW st).2.live = st.live ∧
      (mInitLayer fails hasW st).1.2 = mResetLayer) := by
  have hclone : mCloneNet fails layers st = mCreateNet fails layers st := rfl
  have part : ((mCreateNet fails layers st).1 = none →
      (mCreateNet fails layers st).2.live = st.live) ∧
      (∀ net, (mCreateNet fails layers st).1 = some net →
        net.length = layers ∧ ∀ m, m < layers → mLayerFull m (net.getD m mResetLayer)) := by
    rcases mCreateNet_spec fails layers st with ⟨hn, hv⟩ | ⟨net2, hn, hlen, hfull⟩
    · refine ⟨fun _ => hv, fun net hsome => ?_⟩
      rw [hn] at hsome
      exact absurd hsome (by simp)
    · refine ⟨fun hnone => ?_, fun net hsome => ?_⟩
      · rw [hn] at hnone
        exact absurd hnone (by simp)
      · rw [hn] at hsome
        obtain rfl : net2 = net := by injection hsome
        exact ⟨hlen, hfull⟩
  refine ⟨part, ?_, ?_⟩
  · rw [hclone]
    exact part
  · intro hasW hfail
    rcases mInitLayer_spec fails hasW st with ⟨_, hl, hs⟩ | ⟨hf, _, _⟩
    · exact ⟨hs, hl⟩
    · rw [hfail] at hf
      exact absurd hf (by simp)

/-- Witness for claim C8: with the third allocation failing, creation
of a three layer net reports null and the live count rolls back to
zero. -/
theorem claimC8Witness :
    (mCreateNet (failAt 2) 3 ⟨0, 0⟩).1 = none ∧
      (mCreateNet (failAt 2) 3 ⟨0, 0⟩).2.live = 0 :=
  ⟨by decide, (claimC8AllocRollback (failAt 2) 3 ⟨0, 0⟩).1.1 (by decide)⟩

/-- One more term of a C accumulation loop. -/
theorem sumN_succ (n : Nat) (f : Nat → ℚ) : sumN (n + 1) f = sumN n f + f n := rfl

/-- Accumulation loops with pointwise equal summands agree. -/
theorem sumN_congr (n : Nat) (f g : Nat → ℚ) (h : ∀ i, i < n → f i = g i) :
    sumN n f = sumN n g :=
  loopN_congr n _ _ 0 (fun i hi b => by rw [h i hi])

/-- The error reset loop at the head of each outer iteration of
AnnCalculateGradients: zeroes the first pu error cells of layer j1 and
changes nothing else. -/
theorem errResetLoop_spec (net : Ann) (j1 pu : Nat)
    (hj : j1 < LAYERS net) (helen : pu ≤ (getLayer net j1).error.length) :
    (∀ m, m ≠ j1 →
      getLayer (loopN pu (fun k acc => setErrorAt acc j1 k 0) net) m = getLayer net m) ∧
    sameShape (loopN pu (fun k acc => setErrorAt acc j1 k 0) net) net ∧
    (getLayer (loopN pu (fun k acc => setErrorAt acc j1 k 0) net) j1).units =
      (getLayer net j1).units ∧
    (getLayer (loopN pu (fun k acc => setErrorAt acc j1 k 0) net) j1).output =
      (getLayer net j1).output ∧
    (getLayer (loopN pu (fun k acc => setErrorAt acc j1 k 0) net) j1).weight =
      (getLayer net j1).weight ∧
    (getLayer (loopN pu (fun k acc => setErrorAt acc j1 k 0) net) j1).gradient =
      (getLayer net j1).gradient ∧
    (getLayer (loopN pu (fun k acc => setErrorAt acc j1 k 0) net) j1).pgradient =
      (getLayer net j1).pgradient ∧
    (getLayer (loopN pu (fun k acc => setErrorAt acc j1 k 0) net) j1).delta =
      (getLayer net j1).delta ∧
    (getLayer (loopN pu (fun k acc => setErrorAt acc j1 k 0) net) j1).sgradient =
      (getLayer net j1).sgradient ∧
    (getLayer (loopN pu (fun k acc => setErrorAt acc j1 k 0) net) j1).error.length =
      (getLayer net j1).error.length ∧
    (∀ k, k < pu →
      qget (getLayer (loopN pu (fun k2 acc => setErrorAt acc j1 k2 0) net) j1).error k = 0) ∧
    (∀ k, pu ≤ k →
      qget (getLayer (loopN pu (fun k2 acc => setErrorAt acc j1 k2 0) net) j1).error k =
        qget (getLayer net j1).error k) := by
  have key := loopN_write_once
    (fun (c : Ann) (k : Nat) => qget (getLayer c j1).error k)
    (fun (c : Ann) =>
      (∀ m, m ≠ j1 → getLayer c m = getLayer net m) ∧
      sameShape c net ∧
      (getLayer c j1).units = (getLayer net j1).units ∧
      (getLayer c j1).output = (getLayer net j1).output ∧
      (getLayer c j1).weight = (getLayer net j1).weight ∧
      (getLayer c j1).gradient = (getLayer net j1).gradient ∧
      (getLayer c j1).pgradient = (getLayer net j1).pgradient ∧
      (getLayer c j1).delta = (getLayer net j1).delta ∧
      (getLayer c j1).sgradient = (getLayer net j1).sgradient ∧
      (getLayer c j1).error.length = (getLayer net j1).error.length)
    pu (fun k acc => setErrorAt acc j1 k 0) net (fun _ => 0)
    ⟨fun _ _ => rfl, sameShape_refl net, rfl, rfl, rfl, rfl, rfl, rfl, rfl, rfl⟩
    ?hstep
  · obtain ⟨kinv, klt, kge⟩ := key
    exact ⟨kinv.1, kinv.2.1, kinv.2.2.1, kinv.2.2.2.1, kinv.2.2.2.2.1, kinv.2.2.2.2.2.1,
      kinv.2.2.2.2.2.2.1, kinv.2.2.2.2.2.2.2.1, kinv.2.2.2.2.2.2.2.2.1,
      kinv.2.2.2.2.2.2.2.2.2, fun k hk => klt k hk, fun k hk => kge k hk⟩
  case hstep =>
    intro k c hk hcinv _hhigh
    obtain ⟨cne, csh, cun, cout, cwe, cgr, cpg, cde, csg, cel⟩ := hcinv
    have hjc : j1 < LAYERS c := by rw [csh.1]; exact hj
    have hkl : k < (getLayer c j1).error.length := by rw [cel]; omega
    have hf := setErrorAt_fields c j1 k 0 j1
    refine ⟨⟨?_, ?_, ?_, ?_, ?_, ?_, ?_, ?_, ?_, ?_⟩, ?_, ?_⟩
    · intro m hm
      rw [getLayer_setErrorAt_ne c j1 k 0 m hm]
      exact cne m hm
    · exact sameShape_trans (sameShape_setErrorAt c j1 k 0) csh
    · rw [hf.1]; exact cun
    · rw [hf.2.1]; exact cout
    · rw [hf.2.2.1]; exact cwe
    · rw [hf.2.2.2.1]; exact cgr
    · rw [hf.2.2.2.2.1]; exact cpg
    · rw [hf.2.2.2.2.2.1]; exact cde
    · rw [hf.2.2.2.2.2.2.1]; exact csg
    · rw [hf.2.2.2.2.2.2.2]; exact cel
    · exact qget_setErrorAt_self c j1 k 0 hjc hkl
    · intro m hm
      exact qget_setErrorAt_ne c j1 k 0 j1 m (Or.inr (Ne.symm hm))

/-- The gradient row loop of one unit step of AnnCalculateGradients:
writes gradient cells i*pu .. i*pu+pu-1 of layer j1 with the signal
times the source outputs read at entry, and changes nothing else. -/
theorem gradRowLoop_spec (net : Ann) (j1 i pu : Nat) (es : ℚ)
    (hj : j1 < LAYERS net)
    (hglen : i * pu + pu ≤ (getLayer net j1).gradient.length) :
    (∀ m, m ≠ j1 →
      getLayer (loopN pu (fun k acc => setGradientAt acc j1 (i * pu + k)
        (es * qget (getLayer acc j1).output k)) net) m = getLayer net m) ∧
    sameShape (loopN pu (fun k acc => setGradientAt acc j1 (i * pu + k)
      (es * qget (getLayer acc j1).output k)) net) net ∧
    (getLayer (loopN pu (fun k acc => setGradientAt acc j1 (i * pu + k)
      (es * qget (getLayer acc j1).output k)) net) j1).units = (getLayer net j1).units ∧
    (getLayer (loopN pu (fun k acc => setGradientAt acc j1 (i * pu + k)
      (es * qget (getLayer acc j1).output k)) net) j1).output = (getLayer net j1).output ∧
    (getLayer (loopN pu (fun k acc => setGradientAt acc j1 (i * pu + k)
      (es * qget (getLayer acc j1).output k)) net) j1).weight = (getLayer net j1).weight ∧
    (getLayer (loopN pu (fun k acc => setGradientAt acc j1 (i * pu + k)
      (es * qget (getLayer acc j1).output k)) net) j1).error = (getLayer net j1).error ∧
    (getLayer (loopN pu (fun k acc => setGradientAt acc j1 (i * pu + k)
      (es * qget (getLayer acc j1).output k)) net) j1).pgradient =
      (getLayer net j1).pgradient ∧
    (getLayer (loopN pu (fun k acc => setGradientAt acc j1 (i * pu + k)
      (es * qget (getLayer acc j1).output k)) net) j1).delta = (getLayer net j1).delta ∧
    (getLayer (loopN pu (fun k acc => setGradientAt acc j1 (i * pu + k)
      (es * qget (getLayer acc j1).output k)) net) j1).sgradient =
      (getLayer net j1).sgradient ∧
    (getLayer (loopN pu (fun k acc => setGradientAt acc j1 (i * pu + k)
      (es * qget (getLayer acc j1).output k)) net) j1).gradient.length =
      (getLayer net j1).gradient.length ∧
    (∀ k, k < pu →
      qget (getLayer (loopN pu (fun k2 acc => setGradientAt acc j1 (i * pu + k2)
        (es * qget (getLayer acc j1).output k2)) net) j1).gradient (i * pu + k) =
        es * qget (getLayer net j1).output k) ∧
    (∀ fl, fl < i * pu ∨ i * pu + pu ≤ fl →
      qget (getLayer (loopN pu (fun k2 acc => setGradientAt acc j1 (i * pu + k2)
        (es * qget (getLayer acc j1).output k2)) net) j1).gradient fl =
        qget (getLayer net j1).gradient fl) := by
  have key := loopN_write_once
    (fun (c : Ann) (k : Nat) => qget (getLayer c j1).gradient (i * pu + k))
    (fun (c : Ann) =>
      (∀ m, m ≠ j1 → getLayer c m = getLayer net m) ∧
      sameShape c net ∧
      (getLayer c j1).units = (getLayer net j1).units ∧
      (getLayer c j1).output = (getLayer net j1).output ∧
      (getLayer c j1).weight = (getLayer net j1).weight ∧
      (getLayer c j1).error = (getLayer net j1).error ∧
      (getLayer c j1).pgradient = (getLayer net j1).pgradient ∧
      (getLayer c j1).delta = (getLayer net j1).delta ∧
      (getLayer c j1).sgradient = (getLayer net j1).sgradient ∧
      (getLayer c j1).gradient.length = (getLayer net j1).gradient.length ∧
      (∀ fl, fl < i * pu ∨ i * pu + pu ≤ fl →
        qget (getLayer c j1).gradient fl = qget (getLayer net j1).gradient fl))
    pu (fun k acc => setGradientAt acc j1 (i * pu + k)
      (es * qget (getLayer acc j1).output k)) net
    (fun k => es * qget (getLayer net j1).output k)
    ⟨fun _ _ => rfl, sameShape_refl net, rfl, rfl, rfl, rfl, rfl, rfl, rfl, rfl,
      fun _ _ => rfl⟩
    ?hstep
  · obtain ⟨kinv, klt, kge⟩ := key
    exact ⟨kinv.1, kinv.2.1, kinv.2.2.1, kinv.2.2.2.1, kinv.2.2.2.2.1, kinv.2.2.2.2.2.1,
      kinv.2.2.2.2.2.2.1, kinv.2.2.2.2.2.2.2.1, kinv.2.2.2.2.2.2.2.2.1,
      kinv.2.2.2.2.2.2.2.2.2.1, fun k hk => klt k hk,
      kinv.2.2.2.2.2.2.2.2.2.2⟩
  case hstep =>
    intro k c hk hcinv _hhigh
    obtain ⟨cne, csh, cun, cout, cwe, cer, cpg, cde, csg, cgl, cfl⟩ := hcinv
    have hjc : j1 < LAYERS c := by rw [csh.1]; exact hj
    have hkl : i * pu + k < (getLayer c j1).gradient.length := by rw [cgl]; omega
    have hf := setGradientAt_fields c j1 (i * pu + k)
      (es * qget (getLayer c j1).output k) j1
    refine ⟨⟨?_, ?_, ?_, ?_, ?_, ?_, ?_, ?_, ?_, ?_, ?_⟩, ?_, ?_⟩
    · intro m hm
      rw [getLayer_setGradientAt_ne c j1 (i * pu + k) _ m hm]
      exact cne m hm
    · exact sameShape_trans (sameShape_setGradientAt c j1 (i * pu + k) _) csh
    · rw [hf.1]; exact cun
    · rw [hf.2.1]; exact cout
    · rw [hf.2.2.2.1]; exact cwe
    · rw [hf.2.2.1]; exact cer
    · rw [hf.2.2.2.2.1]; exact cpg
    · rw [hf.2.2.2.2.2.1]; exact cde
    · rw [hf.2.2.2.2.2.2.1]; exact csg
    · rw [hf.2.2.2.2.2.2.2]; exact cgl
    · intro fl hfl
      rw [qget_setGradientAt_ne c j1 (i * pu + k) _ j1 fl (Or.inr (by omega))]
      exact cfl fl hfl
    · show qget (getLayer (setGradientAt c j1 (i * pu + k)
        (es * qget (getLayer c j1).output k)) j1).gradient (i * pu + k) =
        es * qget (getLayer net j1).output k
      rw [qget_setGradientAt_self c j1 (i * pu + k) _ hjc hkl, cout]
    · intro m hm
      exact qget_setGradientAt_ne c j1 (i * pu + k) _ j1 (i * pu + m)
        (Or.inr (by omega))

/-- The error accumulation loop of one unit step of
AnnCalculateGradients: adds the signal times the entry weights into the
first pu error cells of layer j1 and changes nothing else. -/
theorem errAccLoop_spec (net : Ann) (j1 i pu : Nat) (es : ℚ)
    (hj : j1 < LAYERS net)
    (helen : pu ≤ (getLayer net j1).error.length) :
    (∀ m, m ≠ j1 →
      getLayer (loopN pu (fun k acc => setErrorAt acc j1 k
        (qget (getLayer acc j1).error k +
          es * qget (getLayer acc j1).weight (i * pu + k))) net) m = getLayer net m) ∧
    sameShape (loopN pu (fun k acc => setErrorAt acc j1 k
      (qget (getLayer acc j1).error k +
        es * qget (getLayer acc j1).weight (i * pu + k))) net) net ∧
    (getLayer (loopN pu (fun k acc => setErrorAt acc j1 k
      (qget (getLayer acc j1).error k +
        es * qget (getLayer acc j1).weight (i * pu + k))) net) j1).units =
      (getLayer net j1).units ∧
    (getLayer (loopN pu (fun k acc => setErrorAt acc j1 k
      (qget (getLayer acc j1).error k +
        es * qget (getLayer acc j1).weight (i * pu + k))) net) j1).output =
      (getLayer net j1).output ∧
    (getLayer (loopN pu (fun k acc => setErrorAt acc j1 k
      (qget (getLayer acc j1).error k +
        es * qget (getLayer acc j1).weight (i * pu + k))) net) j1).weight =
      (getLayer net j1).weight ∧
    (getLayer (loopN pu (fun k acc => setErrorAt acc j1 k
      (qget (getLayer acc j1).error k +
        es * qget (getLayer acc j1).weight (i * pu + k))) net) j1).gradient =
      (getLayer net j1).gradient ∧
    (getLayer (loopN pu (fun k acc => setErrorAt acc j1 k
      (qget (getLayer acc j1).error k +
        es * qget (getLayer acc j1).weight (i * pu + k))) net) j1).pgradient =
      (getLayer net j1).pgradient ∧
    (getLayer (loopN pu (fun k acc => setErrorAt acc j1 k
      (qget (getLayer acc j1).error k +
        es * qget (getLayer acc j1).weight (i * pu + k))) net) j1).delta =
      (getLayer net j1).delta ∧
    (getLayer (loopN pu (fun k acc => setErrorAt acc j1 k
      (qget (getLayer acc j1).error k +
        es * qget (getLayer acc j1).weight (i * pu + k))) net) j1).sgradient =
      (getLayer net j1).sgradient ∧
    (getLayer (loopN pu (fun k acc => setErrorAt acc j1 k
      (qget (getLayer acc j1).error k +
        es * qget (getLayer acc j1).weight (i * pu + k))) net) j1).error.length =
      (getLayer net j1).error.length ∧
    (∀ k, k < pu →
      qget (getLayer (loopN pu (fun k2 acc => setErrorAt acc j1 k2
        (qget (getLayer acc j1).error k2 +
          es * qget (getLayer acc j1).weight (i * pu + k2))) net) j1).error k =
        qget (getLayer net j1).error k +
          es * qget (getLayer net j1).weight (i * pu + k)) ∧
    (∀ k, pu ≤ k →
      qget (getLayer (loopN pu (fun k2 acc => setErrorAt acc j1 k2
        (qget (getLayer acc j1).error k2 +
          es * qget (getLayer acc j1).weight (i * pu + k2))) net) j1).error k =
        qget (getLayer net j1).error k) := by
  have key := loopN_write_once
    (fun (c : Ann) (k : Nat) => qget (getLayer c j1).error k)
    (fun (c : Ann) =>
      (∀ m, m ≠ j1 → getLayer c m = getLayer net m) ∧
      sameShape c net ∧
      (getLayer c j1).units = (getLayer net j1).units ∧
      (getLayer c j1).output = (getLayer net j1).output ∧
      (getLayer c j1).weight = (getLayer net j1).weight ∧
      (getLayer c j1).gradient = (getLayer net j1).gradient ∧
      (getLayer c j1).pgradient = (getLayer net j1).pgradient ∧
      (getLayer c j1).delta = (getLayer net j1).delta ∧
      (getLayer c j1).sgradient = (getLayer net j1).sgradient ∧
      (getLayer c j1).error.length = (getLayer net j1).error.length)
    pu (fun k acc => setErrorAt acc j1 k
      (qget (getLayer acc j1).error k +
        es * qget (getLayer acc j1).weight (i * pu + k))) net
    (fun k => qget (getLayer net j1).error k +
      es * qget (getLayer net j1).weight (i * pu + k))
    ⟨fun _ _ => rfl, sameShape_refl net, rfl, rfl, rfl, rfl, rfl, rfl, rfl, rfl⟩
    ?hstep
  · obtain ⟨kinv, klt, kge⟩ := key
    exact ⟨kinv.1, kinv.2.1, kinv.2.2.1, kinv.2.2.2.1, kinv.2.2.2.2.1, kinv.2.2.2.2.2.1,
      kinv.2.2.2.2.2.2.1, kinv.2.2.2.2.2.2.2.1, kinv.2.2.2.2.2.2.2.2.1,
      kinv.2.2.2.2.2.2.2.2.2, fun k hk => klt k hk, fun k hk => kge k hk⟩
  case hstep =>
    intro k c hk hcinv hhigh
    obtain ⟨cne, csh, cun, cout, cwe, cgr, cpg, cde, csg, cel⟩ := hcinv
    have hjc : j1 < LAYERS c := by rw [csh.1]; exact hj
    have hkl : k < (getLayer c j1).error.length := by rw [cel]; omega
    have hf := setErrorAt_fields c j1 k
      (qget (getLayer c j1).error k + es * qget (getLayer c j1).weight (i * pu + k)) j1
    refine ⟨⟨?_, ?_, ?_, ?_, ?_, ?_, ?_, ?_, ?_, ?_⟩, ?_, ?_⟩
    · intro m hm
      rw [getLayer_setErrorAt_ne c j1 k _ m hm]
      exact cne m hm
    · exact sameShape_trans (sameShape_setErrorAt c j1 k _) csh
    · rw [hf.1]; exact cun
    · rw [hf.2.1]; exact cout
    · rw [hf.2.2.1]; exact cwe
    · rw [hf.2.2.2.1]; exact cgr
    · rw [hf.2.2.2.2.1]; exact cpg
    · rw [hf.2.2.2.2.2.1]; exact cde
    · rw [hf.2.2.2.2.2.2.1]; exact csg
    · rw [hf.2.2.2.2.2.2.2]; exact cel
    · show qget (getLayer (setErrorAt c j1 k
        (qget (getLayer c j1).error k +
          es * qget (getLayer c j1).weight (i * pu + k))) j1).error k =
        qget (getLayer net j1).error k + es * qget (getLayer net j1).weight (i * pu + k)
      rw [qget_setErrorAt_self c j1 k _ hjc hkl, cwe]
      have hek : qget (getLayer c j1).error k = qget (getLayer net j1).error k :=
        hhigh k le_rfl
      rw [hek]
    · intro m hm
      exact qget_setErrorAt_ne c j1 k _ j1 m (Or.inr (Ne.symm hm))

/-- AnnCalculateOutputError writes exactly the first OUTPUT_UNITS error
cells of the output layer with the 2/units scaled difference between
output and desired, and changes nothing else. -/
theorem outErr_spec (net : Ann) (desired : List ℚ) (h0 : 0 < LAYERS net)
    (helen : UNITS net 0 ≤ (getLayer net 0).error.length) :
    (∀ m, m ≠ 0 → getLayer (AnnCalculateOutputError net desired) m = getLayer net m) ∧
    sameShape (AnnCalculateOutputError net desired) net ∧
    (getLayer (AnnCalculateOutputError net desired) 0).units = (getLayer net 0).units ∧
    (getLayer (AnnCalculateOutputError net desired) 0).output = (getLayer net 0).output ∧
    (getLayer (AnnCalculateOutputError net desired) 0).weight = (getLayer net 0).weight ∧
    (getLayer (AnnCalculateOutputError net desired) 0).gradient = (getLayer net 0).gradient ∧
    (getLayer (AnnCalculateOutputError net desired) 0).pgradient =
      (getLayer net 0).pgradient ∧
    (getLayer (AnnCalculateOutputError net desired) 0).delta = (getLayer net 0).delta ∧
    (getLayer (AnnCalculateOutputError net desired) 0).sgradient =
      (getLayer net 0).sgradient ∧
    (getLayer (AnnCalculateOutputError net desired) 0).error.length =
      (getLayer net 0).error.length ∧
    (∀ k, k < UNITS net 0 →
      qget (getLayer (AnnCalculateOutputError net desired) 0).error k =
        2 / (UNITS net 0 : ℚ) * (qget (getLayer net 0).output k - qget desired k)) ∧
    (∀ k, UNITS net 0 ≤ k →
      qget (getLayer (AnnCalculateOutputError net desired) 0).error k =
        qget (getLayer net 0).error k) := by
  have key := loopN_write_once
    (fun (c : Ann) (k : Nat) => qget (getLayer c 0).error k)
    (fun (c : Ann) =>
      (∀ m, m ≠ 0 → getLayer c m = getLayer net m) ∧
      sameShape c net ∧
      (getLayer c 0).units = (getLayer net 0).units ∧
      (getLayer c 0).output = (getLayer net 0).output ∧
      (getLayer c 0).weight = (getLayer net 0).weight ∧
      (getLayer c 0).gradient = (getLayer net 0).gradient ∧
      (getLayer c 0).pgradient = (getLayer net 0).pgradient ∧
      (getLayer c 0).delta = (getLayer net 0).delta ∧
      (getLayer c 0).sgradient = (getLayer net 0).sgradient ∧
      (getLayer c 0).error.length = (getLayer net 0).error.length)
    (UNITS net 0)
    (fun j acc => setErrorAt acc 0 j
      (2 / (UNITS net 0 : ℚ) * (qget (getLayer acc 0).output j - qget desired j)))
    net
    (fun k => 2 / (UNITS net 0 : ℚ) * (qget (getLayer net 0).output k - qget desired k))
    ⟨fun _ _ => rfl, sameShape_refl net, rfl, rfl, rfl, rfl, rfl, rfl, rfl, rfl⟩
    ?hstep
  · obtain ⟨kinv, klt, kge⟩ := key
    exact ⟨kinv.1, kinv.2.1, kinv.2.2.1, kinv.2.2.2.1, kinv.2.2.2.2.1, kinv.2.2.2.2.2.1,
      kinv.2.2.2.2.2.2.1, kinv.2.2.2.2.2.2.2.1, kinv.2.2.2.2.2.2.2.2.1,
      kinv.2.2.2.2.2.2.2.2.2, fun k hk => klt k hk, fun k hk => kge k hk⟩
  case hstep =>
    intro k c hk hcinv _hhigh
    obtain ⟨cne, csh, cun, cout, cwe, cgr, cpg, cde, csg, cel⟩ := hcinv
    have hjc : (0 : Nat) < LAYERS c := by rw [csh.1]; exact h0
    have hkl : k < (getLayer c 0).error.length := by rw [cel]; omega
    have hf := setErrorAt_fields c 0 k
      (2 / (UNITS net 0 : ℚ) * (qget (getLayer c 0).output k - qget desired k)) 0
    refine ⟨⟨?_, ?_, ?_, ?_, ?_, ?_, ?_, ?_, ?_, ?_⟩, ?_, ?_⟩
    · intro m hm
      rw [getLayer_setErrorAt_ne c 0 k _ m hm]
      exact cne m hm
    · exact sameShape_trans (sameShape_setErrorAt c 0 k _) csh
    · rw [hf.1]; exact cun
    · rw [hf.2.1]; exact cout
    · rw [hf.2.2.1]; exact cwe
    · rw [hf.2.2.2.1]; exact cgr
    · rw [hf.2.2.2.2.1]; exact cpg
    · rw [hf.2.2.2.2.2.1]; exact cde
    · rw [hf.2.2.2.2.2.2.1]; exact csg
    · rw [hf.2.2.2.2.2.2.2]; exact cel
    · show qget (getLayer (setErrorAt c 0 k
        (2 / (UNITS net 0 : ℚ) * (qget (getLayer c 0).output k - qget desired k))) 0).error
          k =
        2 / (UNITS net 0 : ℚ) * (qget (getLayer net 0).output k - qget desired k)
      rw [qget_setErrorAt_self c 0 k _ hjc hkl, cout]
    · intro m hm
      exact qget_setErrorAt_ne c 0 k _ 0 m (Or.inr (Ne.symm hm))

/-- One unit step of AnnCalculateGradients: overwrites gradient row i of
layer j+1 with the entry signal times the entry source outputs, adds the
signal times the entry weights into the first prevunits error cells of
layer j+1, and changes nothing else. -/
theorem gradUnitStep_spec (j i : Nat) (b : Ann)
    (hj1 : j + 1 < LAYERS b)
    (helen : UNITS b (j+1) ≤ (getLayer b (j+1)).error.length)
    (hglen : i * UNITS b (j+1) + UNITS b (j+1) ≤ (getLayer b (j+1)).gradient.length) :
    (∀ m, m ≠ j+1 → getLayer (gradUnitStep j i b) m = getLayer b m) ∧
    sameShape (gradUnitStep j i b) b ∧
    (getLayer (gradUnitStep j i b) (j+1)).units = (getLayer b (j+1)).units ∧
    (getLayer (gradUnitStep j i b) (j+1)).output = (getLayer b (j+1)).output ∧
    (getLayer (gradUnitStep j i b) (j+1)).weight = (getLayer b (j+1)).weight ∧
    (getLayer (gradUnitStep j i b) (j+1)).pgradient = (getLayer b (j+1)).pgradient ∧
    (getLayer (gradUnitStep j i b) (j+1)).delta = (getLayer b (j+1)).delta ∧
    (getLayer (gradUnitStep j i b) (j+1)).sgradient = (getLayer b (j+1)).sgradient ∧
    (getLayer (gradUnitStep j i b) (j+1)).error.length =
      (getLayer b (j+1)).error.length ∧
    (getLayer (gradUnitStep j i b) (j+1)).gradient.length =
      (getLayer b (j+1)).gradient.length ∧
    (∀ k, k < UNITS b (j+1) →
      qget (getLayer (gradUnitStep j i b) (j+1)).gradient (i * UNITS b (j+1) + k) =
        gradSignal b j i * qget (getLayer b (j+1)).output k) ∧
    (∀ fl, fl < i * UNITS b (j+1) ∨ i * UNITS b (j+1) + UNITS b (j+1) ≤ fl →
      qget (getLayer (gradUnitStep j i b) (j+1)).gradient fl =
        qget (getLayer b (j+1)).gradient fl) ∧
    (∀ k, k < UNITS b (j+1) →
      qget (getLayer (gradUnitStep j i b) (j+1)).error k =
        qget (getLayer b (j+1)).error k +
          gradSignal b j i * qget (getLayer b (j+1)).weight (i * UNITS b (j+1) + k)) ∧
    (∀ k, UNITS b (j+1) ≤ k →
      qget (getLayer (gradUnitStep j i b) (j+1)).error k =
        qget (getLayer b (j+1)).error k) := by
  have hrow := gradRowLoop_spec b (j+1) i (UNITS b (j+1)) (gradSignal b j i) hj1 hglen
  obtain ⟨rne, rsh, run, rout, rwe, rer, rpg, rde, rsg, rgl, rwrite, rrest⟩ := hrow
  have hacc := errAccLoop_spec
    (loopN (UNITS b (j+1)) (fun k acc => setGradientAt acc (j+1) (i * UNITS b (j+1) + k)
      (gradSignal b j i * qget (getLayer acc (j+1)).output k)) b)
    (j+1) i (UNITS b (j+1)) (gradSignal b j i)
    (by rw [rsh.1]; exact hj1)
    (by rw [congrArg List.length rer]; exact helen)
  obtain ⟨ane, ash, aun, aout, awe, agr, apg, ade, asg, ael, awrite, arest⟩ := hacc
  have hdef : gradUnitStep j i b =
      loopN (UNITS b (j+1)) (fun k acc => setErrorAt acc (j+1) k
        (qget (getLayer acc (j+1)).error k +
          gradSignal b j i * qget (getLayer acc (j+1)).weight (i * UNITS b (j+1) + k)))
        (loopN (UNITS b (j+1)) (fun k acc => setGradientAt acc (j+1) (i * UNITS b (j+1) + k)
          (gradSignal b j i * qget (getLayer acc (j+1)).output k)) b) := rfl
  rw [hdef]
  refine ⟨?_, sameShape_trans ash rsh, ?_, ?_, ?_, ?_, ?_, ?_, ?_, ?_, ?_, ?_, ?_, ?_⟩
  · intro m hm
    rw [ane m hm]
    exact rne m hm
  · rw [aun, run]
  · rw [aout, rout]
  · rw [awe, rwe]
  · rw [apg, rpg]
  · rw [ade, rde]
  · rw [asg, rsg]
  · rw [ael, congrArg List.length rer]
  · rw [congrArg List.length agr, rgl]
  · intro k hk
    rw [congrArg (fun l => qget l (i * UNITS b (j+1) + k)) agr]
    exact rwrite k hk
  · intro fl hfl
    rw [congrArg (fun l => qget l fl) agr]
    exact rrest fl hfl
  · intro k hk
    rw [awrite k hk, congrArg (fun l => qget l k) rer,
      congrArg (fun l => qget l (i * UNITS b (j+1) + k)) rwe]
  · intro k hk
    rw [arest k hk, congrArg (fun l => qget l k) rer]

/-- One outer iteration of AnnCalculateGradients for current layer j:
zeroes and then accumulates the error of layer j+1, overwrites the
gradient rows of layer j+1 for exactly the destination units below
gradUnitsBound, and changes nothing else; all values are computed from
the entry state. -/
theorem gradLayerStep_spec (j : Nat) (b : Ann)
    (hj1 : j + 1 < LAYERS b)
    (helen : UNITS b (j+1) ≤ (getLayer b (j+1)).error.length)
    (hglen : gradUnitsBound b j * UNITS b (j+1) ≤ (getLayer b (j+1)).gradient.length) :
    (∀ m, m ≠ j+1 → getLayer (gradLayerStep j b) m = getLayer b m) ∧
    sameShape (gradLayerStep j b) b ∧
    (getLayer (gradLayerStep j b) (j+1)).units = (getLayer b (j+1)).units ∧
    (getLayer (gradLayerStep j b) (j+1)).output = (getLayer b (j+1)).output ∧
    (getLayer (gradLayerStep j b) (j+1)).weight = (getLayer b (j+1)).weight ∧
    (getLayer (gradLayerStep j b) (j+1)).pgradient = (getLayer b (j+1)).pgradient ∧
    (getLayer (gradLayerStep j b) (j+1)).delta = (getLayer b (j+1)).delta ∧
    (getLayer (gradLayerStep j b) (j+1)).sgradient = (getLayer b (j+1)).sgradient ∧
    (getLayer (gradLayerStep j b) (j+1)).error.length =
      (getLayer b (j+1)).error.length ∧
    (getLayer (gradLayerStep j b) (j+1)).gradient.length =
      (getLayer b (j+1)).gradient.length ∧
    (∀ k, k < UNITS b (j+1) →
      qget (getLayer (gradLayerStep j b) (j+1)).error k =
        sumN (gradUnitsBound b j) (fun i2 => gradSignal b j i2 *
          qget (getLayer b (j+1)).weight (i2 * UNITS b (j+1) + k))) ∧
    (∀ k, UNITS b (j+1) ≤ k →
      qget (getLayer (gradLayerStep j b) (j+1)).error k =
        qget (getLayer b (j+1)).error k) ∧
    (∀ i2, i2 < gradUnitsBound b j → ∀ k, k < UNITS b (j+1) →
      qget (getLayer (gradLayerStep j b) (j+1)).gradient (i2 * UNITS b (j+1) + k) =
        gradSignal b j i2 * qget (getLayer b (j+1)).output k) ∧
    (∀ fl, gradUnitsBound b j * UNITS b (j+1) ≤ fl →
      qget (getLayer (gradLayerStep j b) (j+1)).gradient fl =
        qget (getLayer b (j+1)).gradient fl) := by
  have hres := errResetLoop_spec b (j+1) (UNITS b (j+1)) hj1 helen
  obtain ⟨zne, zsh, zun, zout, zwe, zgr, zpg, zde, zsg, zel, zzero, zrest⟩ := hres
  have main := loopN_ind
    (fun (n : Nat) (c : Ann) =>
      (∀ m, m ≠ j+1 → getLayer c m = getLayer b m) ∧
      sameShape c b ∧
      (getLayer c (j+1)).units = (getLayer b (j+1)).units ∧
      (getLayer c (j+1)).output = (getLayer b (j+1)).output ∧
      (getLayer c (j+1)).weight = (getLayer b (j+1)).weight ∧
      (getLayer c (j+1)).pgradient = (getLayer b (j+1)).pgradient ∧
      (getLayer c (j+1)).delta = (getLayer b (j+1)).delta ∧
      (getLayer c (j+1)).sgradient = (getLayer b (j+1)).sgradient ∧
      (getLayer c (j+1)).error.length = (getLayer b (j+1)).error.length ∧
      (getLayer c (j+1)).gradient.length = (getLayer b (j+1)).gradient.length ∧
      (∀ k, k < UNITS b (j+1) →
        qget (getLayer c (j+1)).error k =
          sumN n (fun i2 => gradSignal b j i2 *
            qget (getLayer b (j+1)).weight (i2 * UNITS b (j+1) + k))) ∧
      (∀ k, UNITS b (j+1) ≤ k →
        qget (getLayer c (j+1)).error k = qget (getLayer b (j+1)).error k) ∧
      (∀ i2, i2 < n → ∀ k, k < UNITS b (j+1) →
        qget (getLayer c (j+1)).gradient (i2 * UNITS b (j+1) + k) =
          gradSignal b j i2 * qget (getLayer b (j+1)).output k) ∧
      (∀ fl, n * UNITS b (j+1) ≤ fl →
        qget (getLayer c (j+1)).gradient fl = qget (getLayer b (j+1)).gradient fl))
    (gradUnitsBound b j)
    (fun i2 acc => gradUnitStep j i2 acc)
    (loopN (UNITS b (j+1)) (fun k acc => setErrorAt acc (j+1) k 0) b)
    ⟨zne, zsh, zun, zout, zwe, zpg, zde, zsg, zel, congrArg List.length zgr,
      fun k hk => zzero k hk,
      fun k hk => zrest k hk,
      fun i2 h => absurd h (Nat.not_lt_zero i2),
      fun fl _ => congrArg (fun l => qget l fl) zgr⟩
    ?hstep
  · have hdef : gradLayerStep j b =
        loopN (gradUnitsBound b j) (fun i2 acc => gradUnitStep j i2 acc)
          (loopN (UNITS b (j+1)) (fun k acc => setErrorAt acc (j+1) k 0) b) := rfl
    rw [hdef]
    exact main
  case hstep =>
    intro n c hn hQ
    obtain ⟨cne, csh, cun, cout, cwe, cpg, cde, csg, cel, cgl, cerr, cerrhi, crows,
      crest⟩ := hQ
    have hjc : j + 1 < LAYERS c := by rw [csh.1]; exact hj1
    have hpuc : UNITS c (j+1) = UNITS b (j+1) := cun
    have helenc : UNITS c (j+1) ≤ (getLayer c (j+1)).error.length := by
      rw [hpuc, cel]; exact helen
    have hglenc : n * UNITS c (j+1) + UNITS c (j+1) ≤
        (getLayer c (j+1)).gradient.length := by
      rw [hpuc, cgl]
      have e : n * UNITS b (j+1) + UNITS b (j+1) = (n+1) * UNITS b (j+1) := by ring
      rw [e]
      exact le_trans (Nat.mul_le_mul (by omega) (le_refl (UNITS b (j+1)))) hglen
    have hus := gradUnitStep_spec j n c hjc helenc hglenc
    obtain ⟨une, ush, uun, uout, uwe, upg, ude, usg, uel, ugl, urow, urest, uerr,
      uerrhi⟩ := hus
    have hsig : gradSignal c j n = gradSignal b j n := by
      unfold gradSignal; rw [cne j (by omega)]
    refine ⟨?_, sameShape_trans ush csh, uun.trans cun, uout.trans cout, uwe.trans cwe,
      upg.trans cpg, ude.trans cde, usg.trans csg, uel.trans cel, ugl.trans cgl,
      ?_, ?_, ?_, ?_⟩
    · intro m hm
      rw [une m hm]
      exact cne m hm
    · intro k hk
      have hk2 : k < UNITS c (j+1) := by rw [hpuc]; exact hk
      rw [uerr k hk2, cerr k hk, hsig, hpuc, cwe, sumN_succ]
    · intro k hk
      have hk2 : UNITS c (j+1) ≤ k := by rw [hpuc]; exact hk
      rw [uerrhi k hk2]
      exact cerrhi k hk
    · intro i2 hi2 k hk
      rcases Nat.lt_succ_iff_lt_or_eq.mp hi2 with hlt | heq
      · have hidx : i2 * UNITS b (j+1) + k < n * UNITS b (j+1) := by
          have h1 : (i2+1) * UNITS b (j+1) = i2 * UNITS b (j+1) + UNITS b (j+1) := by
            ring
          have h2 : (i2+1) * UNITS b (j+1) ≤ n * UNITS b (j+1) :=
            Nat.mul_le_mul (by omega) (le_refl (UNITS b (j+1)))
          omega
        rw [urest (i2 * UNITS b (j+1) + k) (Or.inl (by rw [hpuc]; exact hidx))]
        exact crows i2 hlt k hk
      · subst heq
        have hk2 : k < UNITS c (j+1) := by rw [hpuc]; exact hk
        have h3 := urow k hk2
        rw [hpuc, hsig, cout] at h3
        exact h3
    · intro fl hfl
      have h1 : n * UNITS c (j+1) + UNITS c (j+1) ≤ fl := by
        rw [hpuc]
        have e : n * UNITS b (j+1) + UNITS b (j+1) = (n+1) * UNITS b (j+1) := by ring
        rw [e]
        exact hfl
      rw [urest fl (Or.inr h1)]
      apply crest fl
      have h2 : n * UNITS b (j+1) ≤ (n+1) * UNITS b (j+1) :=
        Nat.mul_le_mul (by omega) (le_refl (UNITS b (j+1)))
      omega

/-- Amended claim C2: on every well-formed network with at least one
layer, AnnCalculateGradients writes the output-layer error with the
2/units scaled output-to-desired difference, and for every weight layer
m overwrites the error of layer m with the accumulated back-propagated
signal and the gradient rows of layer m for exactly the destination
units below gradUnitsBound of layer m-1: the bias unit of current layer
1 is a destination like any other, only current layers of index 2 and
above exclude theirs; all remaining gradient cells and every other
field keep their values. -/
theorem claimC2Amended (net : Ann) (desired : List ℚ) (hwf : WfAnn net)
    (hL : 1 ≤ LAYERS net) :
    gradCharacterizationAt net desired (AnnCalculateGradients net desired) := by
  have hE := outErr_spec net desired (by omega)
    (le_of_eq (hwf 0 (by omega)).2.1.symm)
  obtain ⟨ene, esh, eun, eout, ewe, egr, epg, ede, esg, eel, ewrite, _erest⟩ := hE
  have main := loopN_ind
    (fun (n : Nat) (c : Ann) =>
      sameShape c net ∧
      (∀ m, (getLayer c m).units = (getLayer net m).units ∧
        (getLayer c m).output = (getLayer net m).output ∧
        (getLayer c m).weight = (getLayer net m).weight ∧
        (getLayer c m).pgradient = (getLayer net m).pgradient ∧
        (getLayer c m).delta = (getLayer net m).delta ∧
        (getLayer c m).sgradient = (getLayer net m).sgradient ∧
        (getLayer c m).error.length = (getLayer net m).error.length ∧
        (getLayer c m).gradient.length = (getLayer net m).gradient.length) ∧
      (∀ k, k < UNITS net 0 →
        qget (getLayer c 0).error k =
          2 / (UNITS net 0 : ℚ) * (qget (getLayer net 0).output k - qget desired k)) ∧
      (∀ m, 1 ≤ m → m ≤ n →
        (∀ k, k < UNITS net m →
          qget (getLayer c m).error k =
            sumN (gradUnitsBound net (m-1)) (fun i => gradSignal c (m-1) i *
              qget (getLayer c m).weight (i * UNITS net m + k))) ∧
        (∀ i, i < gradUnitsBound net (m-1) → ∀ k, k < UNITS net m →
          qget (getLayer c m).gradient (i * UNITS net m + k) =
            gradSignal c (m-1) i * qget (getLayer c m).output k) ∧
        (∀ fl, gradUnitsBound net (m-1) * UNITS net m ≤ fl →
          qget (getLayer c m).gradient fl = qget (getLayer net m).gradient fl)) ∧
      (∀ m, n < m → ∀ fl,
        qget (getLayer c m).gradient fl = qget (getLayer net m).gradient fl))
    (LAYERS net - 1)
    (fun j acc => gradLayerStep j acc)
    (AnnCalculateOutputError net desired)
    ?base
    ?step
  · obtain ⟨msh, mfields, m0, mchar, _⟩ := main
    have hdef : AnnCalculateGradients net desired =
        loopN (LAYERS net - 1) (fun j acc => gradLayerStep j acc)
          (AnnCalculateOutputError net desired) := rfl
    unfold gradCharacterizationAt
    rw [hdef]
    exact ⟨msh.1, msh.2.1, msh.2.2.1, msh.2.2.2.1, msh.2.2.2.2.1, msh.2.2.2.2.2.1,
      msh.2.2.2.2.2.2,
      fun m => ⟨(mfields m).1, (mfields m).2.1, (mfields m).2.2.1, (mfields m).2.2.2.1,
        (mfields m).2.2.2.2.1, (mfields m).2.2.2.2.2.1⟩,
      m0,
      fun m hm h1 => mchar m h1 (by omega)⟩
  case base =>
    refine ⟨esh, ?_, ewrite, ?_, ?_⟩
    · intro m
      by_cases hm : m = 0
      · subst hm
        exact ⟨eun, eout, ewe, epg, ede, esg, eel, congrArg List.length egr⟩
      · rw [ene m hm]
        exact ⟨rfl, rfl, rfl, rfl, rfl, rfl, rfl, rfl⟩
    · intro m h1 h0
      exact absurd h0 (by omega)
    · intro m hm fl
      exact congrArg (fun l => qget l.gradient fl) (ene m (by omega))
  case step =>
    intro n c hn hR
    obtain ⟨csh, cfields, c0, cchar, cfut⟩ := hR
    have hj1 : n + 1 < LAYERS c := by rw [csh.1]; omega
    have hup : UNITS c (n+1) = UNITS net (n+1) := (cfields (n+1)).1
    have hwfm := hwf (n+1) (by omega)
    have helenc : UNITS c (n+1) ≤ (getLayer c (n+1)).error.length := by
      rw [hup, (cfields (n+1)).2.2.2.2.2.2.1]
      exact le_of_eq hwfm.2.1.symm
    have hbnd : gradUnitsBound c n = gradUnitsBound net n := by
      unfold gradUnitsBound
      rw [show UNITS c n = UNITS net n from (cfields n).1]
    have hglenc : gradUnitsBound c n * UNITS c (n+1) ≤
        (getLayer c (n+1)).gradient.length := by
      rw [hbnd, hup, (cfields (n+1)).2.2.2.2.2.2.2, (hwfm.2.2 (by omega)).2.1]
      rw [show (n+1) - 1 = n from rfl, Nat.mul_comm (UNITS net (n+1)) (UNITS net n)]
      exact Nat.mul_le_mul (by unfold gradUnitsBound; omega) (le_refl (UNITS net (n+1)))
    have hls := gradLayerStep_spec n c hj1 helenc hglenc
    obtain ⟨lne, lsh, lun, lout, lwe, lpg, lde, lsg, lel, lgl, lerr, lerrhi, lrows,
      lrest⟩ := hls
    have hsig : ∀ m2, m2 ≠ n+1 → ∀ i2,
        gradSignal (gradLayerStep n c) m2 i2 = gradSignal c m2 i2 := by
      intro m2 hm2 i2
      unfold gradSignal
      rw [lne m2 hm2]
    refine ⟨sameShape_trans lsh csh, ?_, ?_, ?_, ?_⟩
    · intro m
      by_cases hm : m = n+1
      · subst hm
        exact ⟨lun.trans (cfields (n+1)).1, lout.trans (cfields (n+1)).2.1,
          lwe.trans (cfields (n+1)).2.2.1, lpg.trans (cfields (n+1)).2.2.2.1,
          lde.trans (cfields (n+1)).2.2.2.2.1, lsg.trans (cfields (n+1)).2.2.2.2.2.1,
          lel.trans (cfields (n+1)).2.2.2.2.2.2.1,
          lgl.trans (cfields (n+1)).2.2.2.2.2.2.2⟩
      · rw [lne m hm]
        exact cfields m
    · intro k hk
      rw [lne 0 (by omega)]
      exact c0 k hk
    · intro m h1 hm
      by_cases hmeq : m = n+1
      · subst hmeq
        rw [show (n+1) - 1 = n from rfl]
        refine ⟨?_, ?_, ?_⟩
        · intro k hk
          have hk2 : k < UNITS c (n+1) := by rw [hup]; exact hk
          rw [lerr k hk2, hbnd]
          apply sumN_congr
          intro i hi
          rw [hsig n (by omega) i, lwe, hup]
        · intro i hi k hk
          have hi2 : i < gradUnitsBound c n := by rw [hbnd]; exact hi
          have hk2 : k < UNITS c (n+1) := by rw [hup]; exact hk
          have h3 := lrows i hi2 k hk2
          rw [hup] at h3
          rw [h3, hsig n (by omega) i, lout]
        · intro fl hfl
          have hfl2 : gradUnitsBound c n * UNITS c (n+1) ≤ fl := by
            rw [hbnd, hup]; exact hfl
          rw [lrest fl hfl2]
          exact cfut (n+1) (by omega) fl
      · have hmn : m ≤ n := by omega
        have hC := cchar m h1 hmn
        have e1 : getLayer (gradLayerStep n c) m = getLayer c m := lne m hmeq
        have e3 : gradSignal (gradLayerStep n c) (m-1) = gradSignal c (m-1) :=
          funext (hsig (m-1) (by omega))
        refine ⟨?_, ?_, ?_⟩
        · intro k hk
          rw [e1, e3]
          exact hC.1 k hk
        · intro i hi k hk
          rw [e1, e3]
          exact hC.2.1 i hi k hk
        · intro fl hfl
          rw [e1]
          exact hC.2.2 fl hfl
    · intro m hm fl
      rw [lne m (by omega)]
      exact cfut m (by omega) fl

/-- Witness for the amended claim C2 on the concrete three layer
network. -/
theorem claimC2AmendedWitness :
    WfAnn exNet3 ∧ 1 ≤ LAYERS exNet3 ∧
      gradCharacterizationAt exNet3 [0] (AnnCalculateGradients exNet3 [0]) :=
  ⟨by decide, by decide, claimC2Amended exNet3 [0] (by decide) (by decide)⟩
